import Mathlib

/-!
# aSmart_comm_lib: the protocol engine of `asmart_comm_handler.c`

A shallow embedding of `aSmart_Comm/Src/asmart_comm_handler.c` and
`aSmart_Comm/Inc/asmart_comm_handler.h`.

Conventions of the embedding.

* Machine integers are `Nat`; a value stored into a `uint16_t` / `uint32_t`
  variable is reduced `% 65536` / `% 2 ^ 32` where the C expression can leave
  the range.  Arguments are taken within the range of their C type.
* A C array is a function from index to element.  Every access the program
  makes is checked against the declared size of the array; an access outside
  of it is undefined behaviour in C and ends the run with the `Fault` that
  names the array and the first offending index.
* `uint8_t* payload, uint16_t payload_length` pairs are a `List Nat`.
* The application callback is external: a call of it is recorded in the list
  of `CallbackCall`s a function returns, in call order, and the library code
  goes on from the handler state it had at the call.  A `NULL` callback
  pointer is `response_callback = false`.
* `crc16` (declared in `crc16.h`, not part of the sources) and the tick
  `HAL_GetTick()` are parameters.
* `for` loops run on a fuel counter that is one more than the largest number of
  iterations the loop can make; running out of it is the fault `loop_fuel`.
-/

namespace ASmartComm

/-! ## Constants of `asmart_comm_handler.h` -/

/-- Start of Text. -/
def STX : Nat := 0x02
/-- End of Text. -/
def ETX : Nat := 0x03
def RECEIVE_BUFFER_SIZE : Nat := 512
def TRANSMIT_BUFFER_SIZE : Nat := 512
def COMMAND_TIMEOUT_MS : Nat := 5000
def MSG_TYPE_COMMAND : Nat := 0x01
def MSG_TYPE_RESPONSE : Nat := 0x02
def MSG_TYPE_NOTIFICATION : Nat := 0x03
def MSG_TYPE_ERROR : Nat := 0x04
def COMMAND_TYPE_BEGIN_TRANSACTION : Nat := 0x10
def COMMAND_TYPE_END_TRANSACTION : Nat := 0x11
/-- Number of slots of `mapping_table`:
`sizeof(mapping_table) / sizeof(mapping_table[0])`, from `CommandEntry_t mapping_table[20]`. -/
def MAPPING_TABLE_SIZE : Nat := 20
/-- Size of the local staging array `uint8_t payload[256]` of `process_received_message`. -/
def PAYLOAD_STAGING_SIZE : Nat := 256

/-! ## Data model -/

/-- Command Entry Structure for Mapping Table. -/
structure CommandEntry_t where
  sequence_number : Nat
  command_type : Nat
  timestamp : Nat
  deriving DecidableEq, Repr

/-- Receive Handler Structure. -/
structure aSmart_RxHandler_t where
  rxd_buffer : Nat → Nat
  rxd_buffer_size : Nat
  rxd_index : Nat
  message_ready : Nat

/-- Transmit Handler Structure. -/
structure aSmart_TxHandler_t where
  txd_buffer : Nat → Nat
  txd_length : Nat

/-- Communication Handler Structure. -/
structure aSmart_Comm_Handler_t where
  sequence_number : Nat
  mapping_table : Nat → CommandEntry_t
  mapping_table_count : Nat
  rx_handler : aSmart_RxHandler_t
  tx_handler : aSmart_TxHandler_t
  response_callback : Bool

/-- One call of the `ResponseCallback`:
`(message_type, command_type, sequence_number, payload, length)`;
`payload = none` is the `NULL` pointer. -/
structure CallbackCall where
  message_type : Nat
  command_type : Nat
  sequence_number : Nat
  payload : Option (List Nat)
  length : Nat
  deriving DecidableEq, Repr

/-- An access outside of a C array (undefined behaviour), or a loop out of fuel. -/
inductive Fault where
  | rxd_buffer_index (i : Int)
  | txd_buffer_index (i : Nat)
  | payload_index (i : Nat)
  | mapping_table_index (i : Nat)
  | loop_fuel
  deriving DecidableEq, Repr

/-! ## Array accesses -/

/-- Value of `(hi << 8) | lo` stored into a `uint16_t`. -/
def be16 (hi lo : Nat) : Nat := ((hi <<< 8) ||| lo) % 65536

/-- The `len` elements of `buffer` from index `start` on. -/
def slice (buffer : Nat → Nat) (start len : Nat) : List Nat :=
  (List.range len).map (fun k => buffer (start + k))

/-- Store `buffer[i] = v` into `txd_buffer[TRANSMIT_BUFFER_SIZE]`. -/
def tx_write (buffer : Nat → Nat) (i v : Nat) : Except Fault (Nat → Nat) :=
  if i < TRANSMIT_BUFFER_SIZE then .ok (Function.update buffer i v)
  else .error (.txd_buffer_index i)

/-- Library call `memcpy(&buffer[index], payload, payload_length)` into `txd_buffer`. -/
def tx_memcpy (buffer : Nat → Nat) (index : Nat) (payload : List Nat) :
    Except Fault (Nat → Nat) :=
  if index + payload.length ≤ TRANSMIT_BUFFER_SIZE then
    .ok (fun i => if index ≤ i ∧ i < index + payload.length then payload.getD (i - index) 0
                  else buffer i)
  else .error (.txd_buffer_index (max index TRANSMIT_BUFFER_SIZE))

/-- The bytes `crc16(&buffer[start], len)` reads from `txd_buffer`. -/
def tx_read_range (buffer : Nat → Nat) (start len : Nat) : Except Fault (List Nat) :=
  if start + len ≤ TRANSMIT_BUFFER_SIZE then .ok (slice buffer start len)
  else .error (.txd_buffer_index (max start TRANSMIT_BUFFER_SIZE))

/-- Load `buffer[i]` from `rxd_buffer[RECEIVE_BUFFER_SIZE]`; the index is an `int` in C. -/
def rx_read (buffer : Nat → Nat) (i : Int) : Except Fault Nat :=
  if 0 ≤ i ∧ i < RECEIVE_BUFFER_SIZE then .ok (buffer i.toNat)
  else .error (.rxd_buffer_index i)

/-- The bytes `crc16(&buffer[start], len)` reads from `rxd_buffer`. -/
def rx_read_range (buffer : Nat → Nat) (start len : Nat) : Except Fault (List Nat) :=
  if start + len ≤ RECEIVE_BUFFER_SIZE then .ok (slice buffer start len)
  else .error (.rxd_buffer_index (max start RECEIVE_BUFFER_SIZE))

/-- The two statements
`memcpy(payload, &buffer[index], payload_length); payload[payload_length] = 0;`
on the local `uint8_t payload[256]`.  The copy runs upwards, so for `index = 7` the
staging array is left before the receive buffer is; the result is the staged
payload, the `payload_length` bytes the callback is given. -/
def stage_payload (buffer : Nat → Nat) (index payload_length : Nat) :
    Except Fault (List Nat) :=
  if PAYLOAD_STAGING_SIZE < payload_length then .error (.payload_index PAYLOAD_STAGING_SIZE)
  else if RECEIVE_BUFFER_SIZE < index + payload_length then
    .error (.rxd_buffer_index (max index RECEIVE_BUFFER_SIZE))
  else if PAYLOAD_STAGING_SIZE ≤ payload_length then .error (.payload_index payload_length)
  else .ok (slice buffer index payload_length)

/-- Load `mapping_table[i]`. -/
def table_read (table : Nat → CommandEntry_t) (i : Nat) : Except Fault CommandEntry_t :=
  if i < MAPPING_TABLE_SIZE then .ok (table i) else .error (.mapping_table_index i)

/-- Store `mapping_table[i] = e`. -/
def table_write (table : Nat → CommandEntry_t) (i : Nat) (e : CommandEntry_t) :
    Except Fault (Nat → CommandEntry_t) :=
  if i < MAPPING_TABLE_SIZE then .ok (Function.update table i e)
  else .error (.mapping_table_index i)

/-! ## Views of the state -/

/-- The bytes `HAL_UART_Transmit(txd_buffer, txd_length)` sends. -/
def transmitted (h : aSmart_Comm_Handler_t) : List Nat :=
  slice h.tx_handler.txd_buffer 0 h.tx_handler.txd_length

/-- The captured run: the first `rxd_index` bytes of the receive buffer. -/
def captured (h : aSmart_Comm_Handler_t) : List Nat :=
  slice h.rx_handler.rxd_buffer 0 h.rx_handler.rxd_index

/-- The registry: the first `mapping_table_count` slots of the mapping table. -/
def registry (h : aSmart_Comm_Handler_t) : List CommandEntry_t :=
  (List.range h.mapping_table_count).map h.mapping_table

/-! ## The functions of `asmart_comm_handler.c` -/

/-- Function `assemble_message`, lines 299-342. -/
def assemble_message (crc16 : List Nat → Nat) (comm_handler : aSmart_Comm_Handler_t)
    (msg_type seq_num cmd_type : Nat) (payload : List Nat) :
    Except Fault aSmart_Comm_Handler_t := do
  let buffer := comm_handler.tx_handler.txd_buffer
  let index := 0
  -- STX
  let buffer ← tx_write buffer index STX
  let index := index + 1
  -- Placeholder for Length
  let index := index + 2
  -- Sequence Number (Big Endian)
  let buffer ← tx_write buffer index ((seq_num >>> 8) &&& 0xFF)
  let index := index + 1
  let buffer ← tx_write buffer index (seq_num &&& 0xFF)
  let index := index + 1
  -- Message Type
  let buffer ← tx_write buffer index msg_type
  let index := index + 1
  -- Command Type
  let buffer ← tx_write buffer index cmd_type
  let index := index + 1
  -- Payload
  let buffer ← tx_memcpy buffer index payload
  let index := index + payload.length
  -- Calculate Length (excluding STX and ETX)
  let msg_length := index - 1
  -- Fill in Length (Big Endian)
  let buffer ← tx_write buffer 1 ((msg_length >>> 8) &&& 0xFF)
  let buffer ← tx_write buffer 2 (msg_length &&& 0xFF)
  -- Calculate CRC
  let data ← tx_read_range buffer 1 msg_length
  let crc := crc16 data % 65536
  -- Append CRC (Big Endian)
  let buffer ← tx_write buffer index ((crc >>> 8) &&& 0xFF)
  let index := index + 1
  let buffer ← tx_write buffer index (crc &&& 0xFF)
  let index := index + 1
  -- ETX
  let buffer ← tx_write buffer index ETX
  let index := index + 1
  -- Total message length
  pure { comm_handler with tx_handler := { txd_buffer := buffer, txd_length := index } }

/-- Function `add_command_to_mapping_table`, lines 434-443; `now` is `HAL_GetTick()`.  The slot
written is `mapping_table[mapping_table_count]`, inside the array by the guard. -/
def add_command_to_mapping_table (now : Nat) (comm_handler : aSmart_Comm_Handler_t)
    (seq_num cmd_type : Nat) : aSmart_Comm_Handler_t :=
  if comm_handler.mapping_table_count < MAPPING_TABLE_SIZE then
    { comm_handler with
      mapping_table := Function.update comm_handler.mapping_table
        comm_handler.mapping_table_count
        { sequence_number := seq_num, command_type := cmd_type, timestamp := now }
      mapping_table_count := comm_handler.mapping_table_count + 1 }
  else
    -- Handle mapping table full
    comm_handler

/-- The loop of `find_command_in_mapping_table` from index `i` on; the result is the
index of the slot the returned pointer refers to, `none` for `NULL`. -/
def find_loop (comm_handler : aSmart_Comm_Handler_t) (seq_num : Nat) :
    Nat → Nat → Except Fault (Option Nat)
  | 0, _ => .error .loop_fuel
  | fuel + 1, i =>
    if i < comm_handler.mapping_table_count then do
      let entry ← table_read comm_handler.mapping_table i
      if entry.sequence_number = seq_num then pure (some i)
      else find_loop comm_handler seq_num fuel (i + 1)
    else pure none

/-- Function `find_command_in_mapping_table`, lines 445-452. -/
def find_command_in_mapping_table (comm_handler : aSmart_Comm_Handler_t) (seq_num : Nat) :
    Except Fault (Option Nat) :=
  find_loop comm_handler seq_num (comm_handler.mapping_table_count + 1) 0

/-- The inner loop of `remove_command_from_mapping_table`, from index `j` on:
`mapping_table[j] = mapping_table[j + 1]` while `j < mapping_table_count - 1`. -/
def shift_loop (count : Nat) :
    Nat → Nat → (Nat → CommandEntry_t) → Except Fault (Nat → CommandEntry_t)
  | 0, _, _ => .error .loop_fuel
  | fuel + 1, j, table =>
    if j < count - 1 then do
      let next ← table_read table (j + 1)
      let table ← table_write table j next
      shift_loop count fuel (j + 1) table
    else pure table

/-- The outer loop of `remove_command_from_mapping_table`, from index `i` on. -/
def remove_loop (comm_handler : aSmart_Comm_Handler_t) (seq_num : Nat) :
    Nat → Nat → Except Fault aSmart_Comm_Handler_t
  | 0, _ => .error .loop_fuel
  | fuel + 1, i =>
    if i < comm_handler.mapping_table_count then do
      let entry ← table_read comm_handler.mapping_table i
      if entry.sequence_number = seq_num then do
        -- Shift entries to fill the gap
        let table ← shift_loop comm_handler.mapping_table_count
          (comm_handler.mapping_table_count + 1) i comm_handler.mapping_table
        pure { comm_handler with
               mapping_table := table
               mapping_table_count := comm_handler.mapping_table_count - 1 }
      else remove_loop comm_handler seq_num fuel (i + 1)
    else pure comm_handler

/-- Function `remove_command_from_mapping_table`, lines 454-465. -/
def remove_command_from_mapping_table (comm_handler : aSmart_Comm_Handler_t)
    (seq_num : Nat) : Except Fault aSmart_Comm_Handler_t :=
  remove_loop comm_handler seq_num (comm_handler.mapping_table_count + 1) 0

/-- The guarded call `if (response_callback) response_callback(...)`. -/
def invoke (comm_handler : aSmart_Comm_Handler_t) (call : CallbackCall) : List CallbackCall :=
  if comm_handler.response_callback then [call] else []

/-- The part `Process Message` of `process_received_message`, lines 393-429, on the
fields extracted from the frame. -/
def dispatch_message (comm_handler : aSmart_Comm_Handler_t)
    (msg_type cmd_type seq_num : Nat) (payload : List Nat) (payload_length : Nat) :
    Except Fault (aSmart_Comm_Handler_t × List CallbackCall) :=
  if msg_type = MSG_TYPE_RESPONSE then do
    -- Find command in mapping table
    match ← find_command_in_mapping_table comm_handler seq_num with
    | some i => do
      -- Match found, call the response callback
      let entry ← table_read comm_handler.mapping_table i
      let calls := invoke comm_handler
        ⟨msg_type, entry.command_type, seq_num, some payload, payload_length⟩
      -- Remove from mapping table
      let comm_handler ← remove_command_from_mapping_table comm_handler seq_num
      pure (comm_handler, calls)
    | none =>
      -- Sequence number not found
      pure (comm_handler, [])
  else if msg_type = MSG_TYPE_COMMAND then
    -- Handle incoming commands
    pure (comm_handler,
      invoke comm_handler ⟨msg_type, cmd_type, seq_num, some payload, payload_length⟩)
  else if msg_type = MSG_TYPE_NOTIFICATION ∨ msg_type = MSG_TYPE_ERROR then do
    -- Handle notifications and errors
    let calls := invoke comm_handler
      ⟨msg_type, cmd_type, seq_num, some payload, payload_length⟩
    -- For errors, if sequence number is non-zero, it relates to a command
    if msg_type = MSG_TYPE_ERROR ∧ seq_num ≠ 0 then do
      -- Remove related command from mapping table if exists
      let comm_handler ← remove_command_from_mapping_table comm_handler seq_num
      pure (comm_handler, calls)
    else pure (comm_handler, calls)
  else pure (comm_handler, [])

/-- Function `process_received_message`, lines 344-430. -/
def process_received_message (crc16 : List Nat → Nat) (comm_handler : aSmart_Comm_Handler_t) :
    Except Fault (aSmart_Comm_Handler_t × List CallbackCall) := do
  let buffer := comm_handler.rx_handler.rxd_buffer
  let length := comm_handler.rx_handler.rxd_index
  -- Check STX and ETX; `||` reads the last byte only when the first one is STX
  let first ← rx_read buffer 0
  if first ≠ STX then pure (comm_handler, []) else do
  let last ← rx_read buffer ((length : Int) - 1)
  if last ≠ ETX then pure (comm_handler, []) else do
  -- Extract Length
  let len_hi ← rx_read buffer 1
  let len_lo ← rx_read buffer 2
  let msg_length := be16 len_hi len_lo
  -- Verify Length; the comparison is made on `int`
  if (msg_length : Int) ≠ (length : Int) - 4 then pure (comm_handler, []) else do
  -- Extract Sequence Number
  let seq_hi ← rx_read buffer 3
  let seq_num := (seq_hi <<< 8) % 65536
  let seq_lo ← rx_read buffer 4
  let seq_num := (seq_num ||| seq_lo) % 65536
  -- Extract Message Type
  let msg_type ← rx_read buffer 5
  -- Extract Command Type
  let cmd_type ← rx_read buffer 6
  -- Extract Payload; `uint16_t payload_length = msg_length - 6` wraps below 6
  let payload_length := (msg_length + 65536 - 6) % 65536
  let payload ← stage_payload buffer 7 payload_length
  -- Verify CRC
  let crc_hi ← rx_read buffer ((length : Int) - 3)
  let crc_lo ← rx_read buffer ((length : Int) - 2)
  let received_crc := be16 crc_hi crc_lo
  let data ← rx_read_range buffer 1 msg_length
  let calculated_crc := crc16 data % 65536
  if received_crc ≠ calculated_crc then pure (comm_handler, []) else
  -- Process Message
  dispatch_message comm_handler msg_type cmd_type seq_num payload payload_length

/-- The loop of `check_command_timeouts` from index `i` on; `calls` are the callback
calls made so far. -/
def check_loop (current_time : Nat) :
    Nat → Nat → aSmart_Comm_Handler_t → List CallbackCall →
      Except Fault (aSmart_Comm_Handler_t × List CallbackCall)
  | 0, _, _, _ => .error .loop_fuel
  | fuel + 1, i, comm_handler, calls =>
    if i < comm_handler.mapping_table_count then do
      let entry ← table_read comm_handler.mapping_table i
      -- `uint32_t` difference
      if (current_time + 2 ^ 32 - entry.timestamp) % 2 ^ 32 > COMMAND_TIMEOUT_MS then do
        -- Indicate timeout by passing NULL payload
        let calls := calls ++ invoke comm_handler
          ⟨MSG_TYPE_ERROR, entry.command_type, entry.sequence_number, none, 0⟩
        -- Remove the command from the mapping table
        let comm_handler ← remove_command_from_mapping_table comm_handler entry.sequence_number
        check_loop current_time fuel i comm_handler calls
      else
        -- Only increment if no removal occurred
        check_loop current_time fuel (i + 1) comm_handler calls
    else pure (comm_handler, calls)

/-- Function `check_command_timeouts`, lines 467-484; `current_time` is `HAL_GetTick()`. -/
def check_command_timeouts (current_time : Nat) (comm_handler : aSmart_Comm_Handler_t) :
    Except Fault (aSmart_Comm_Handler_t × List CallbackCall) :=
  check_loop current_time (comm_handler.mapping_table_count + 1) 0 comm_handler []

/-- Function `asmart_comm_init`, lines 233-245. -/
def asmart_comm_init (comm_handler : aSmart_Comm_Handler_t) (response_callback : Bool) :
    aSmart_Comm_Handler_t :=
  { comm_handler with
    rx_handler := { comm_handler.rx_handler with
                    rxd_buffer_size := RECEIVE_BUFFER_SIZE
                    rxd_index := 0
                    message_ready := 0 }
    sequence_number := 0
    mapping_table_count := 0
    response_callback := response_callback
    mapping_table := fun _ => { sequence_number := 0, command_type := 0, timestamp := 0 } }

/-- Function `asmart_comm_handler`, lines 247-256; `now` is the tick read by the sweep. -/
def asmart_comm_handler (crc16 : List Nat → Nat) (now : Nat)
    (comm_handler : aSmart_Comm_Handler_t) :
    Except Fault (aSmart_Comm_Handler_t × List CallbackCall) := do
  let (comm_handler, frame_calls) ←
    if comm_handler.rx_handler.message_ready ≠ 0 then do
      -- Parse and process the message
      let (comm_handler, calls) ← process_received_message crc16 comm_handler
      pure ({ comm_handler with
              rx_handler := { comm_handler.rx_handler with message_ready := 0, rxd_index := 0 } },
            calls)
    else pure (comm_handler, [])
  -- Check for command timeouts
  let (comm_handler, timeout_calls) ← check_command_timeouts now comm_handler
  pure (comm_handler, frame_calls ++ timeout_calls)

/-- Function `asmart_comm_send_command`, lines 258-270; the second component is what
`HAL_UART_Transmit` sends. -/
def asmart_comm_send_command (crc16 : List Nat → Nat) (now : Nat)
    (comm_handler : aSmart_Comm_Handler_t) (command_type : Nat) (payload : List Nat) :
    Except Fault (aSmart_Comm_Handler_t × List Nat) := do
  -- Increment and wrap sequence number
  let comm_handler :=
    { comm_handler with sequence_number := (comm_handler.sequence_number + 1) % 65536 }
  -- Add to mapping table
  let comm_handler := add_command_to_mapping_table now comm_handler
    comm_handler.sequence_number command_type
  -- Assemble message
  let comm_handler ← assemble_message crc16 comm_handler MSG_TYPE_COMMAND
    comm_handler.sequence_number command_type payload
  -- Transmit message
  pure (comm_handler, transmitted comm_handler)

/-- Function `asmart_comm_send_notification`, lines 272-279. -/
def asmart_comm_send_notification (crc16 : List Nat → Nat)
    (comm_handler : aSmart_Comm_Handler_t) (notification_type : Nat) (payload : List Nat) :
    Except Fault (aSmart_Comm_Handler_t × List Nat) := do
  let comm_handler ← assemble_message crc16 comm_handler MSG_TYPE_NOTIFICATION 0
    notification_type payload
  pure (comm_handler, transmitted comm_handler)

/-- Function `asmart_comm_send_response`, lines 281-287. -/
def asmart_comm_send_response (crc16 : List Nat → Nat)
    (comm_handler : aSmart_Comm_Handler_t) (sequence_number command_type : Nat)
    (payload : List Nat) : Except Fault (aSmart_Comm_Handler_t × List Nat) := do
  let comm_handler ← assemble_message crc16 comm_handler MSG_TYPE_RESPONSE sequence_number
    command_type payload
  pure (comm_handler, transmitted comm_handler)

/-- Function `asmart_comm_send_error`, lines 289-295. -/
def asmart_comm_send_error (crc16 : List Nat → Nat)
    (comm_handler : aSmart_Comm_Handler_t) (sequence_number error_code : Nat)
    (payload : List Nat) : Except Fault (aSmart_Comm_Handler_t × List Nat) := do
  let comm_handler ← assemble_message crc16 comm_handler MSG_TYPE_ERROR sequence_number
    error_code payload
  pure (comm_handler, transmitted comm_handler)

/-- Function `HAL_UARTEx_RxEventCallback`, lines 487-495, on the handler `ptr_handler` points to;
`comm_uart` is the test `huart->Instance == COMM_UART.Instance`. -/
def HAL_UARTEx_RxEventCallback (comm_handler : aSmart_Comm_Handler_t) (comm_uart : Bool)
    (Size : Nat) : aSmart_Comm_Handler_t :=
  if comm_uart then
    { comm_handler with
      rx_handler := { comm_handler.rx_handler with rxd_index := Size, message_ready := 1 } }
  else comm_handler

/-! ## The receiving side of the link -/

/-- A capture: the UART stores the bytes of `run` from the start of `rxd_buffer` on, as
armed by `HAL_UARTEx_ReceiveToIdle_IT`, and reports them with
`HAL_UARTEx_RxEventCallback`; the rest of the buffer keeps its contents. -/
def receive (comm_handler : aSmart_Comm_Handler_t) (run : List Nat) : aSmart_Comm_Handler_t :=
  HAL_UARTEx_RxEventCallback
    { comm_handler with
      rx_handler := { comm_handler.rx_handler with
        rxd_buffer := fun i =>
          if i < run.length then run.getD i 0 else comm_handler.rx_handler.rxd_buffer i } }
    true run.length

/-! ## Frames in the receive buffer -/

/-- Byte `i` of the receive buffer. -/
def rx_byte (h : aSmart_Comm_Handler_t) (i : Nat) : Nat := h.rx_handler.rxd_buffer i

/-- The marker check passes: byte 0 is STX and byte `rxd_index - 1` is ETX. -/
def markers_ok (h : aSmart_Comm_Handler_t) : Prop :=
  rx_byte h 0 = STX ∧ rx_byte h (h.rx_handler.rxd_index - 1) = ETX

/-- The length check passes: the declared length is `rxd_index - 4`. -/
def length_ok (h : aSmart_Comm_Handler_t) : Prop :=
  (be16 (rx_byte h 1) (rx_byte h 2) : Int) = (h.rx_handler.rxd_index : Int) - 4

/-- The checksum check passes: the big-endian value of bytes `L-3 .. L-2` is the
`crc16` of bytes `1 .. L-4`. -/
def crc_ok (crc16 : List Nat → Nat) (h : aSmart_Comm_Handler_t) : Prop :=
  be16 (rx_byte h (h.rx_handler.rxd_index - 3)) (rx_byte h (h.rx_handler.rxd_index - 2))
    = crc16 (slice h.rx_handler.rxd_buffer 1 (h.rx_handler.rxd_index - 4)) % 65536

/-- Sequence number field of the frame in the receive buffer (bytes 3..4). -/
def wire_seq_num (h : aSmart_Comm_Handler_t) : Nat :=
  (((rx_byte h 3 <<< 8) % 65536) ||| rx_byte h 4) % 65536

/-- Message kind of the frame in the receive buffer (byte 5). -/
def wire_msg_type (h : aSmart_Comm_Handler_t) : Nat := rx_byte h 5

/-- Code of the frame in the receive buffer (byte 6). -/
def wire_cmd_type (h : aSmart_Comm_Handler_t) : Nat := rx_byte h 6

/-- Payload of the frame in the receive buffer: bytes `7 .. L-4`. -/
def wire_payload (h : aSmart_Comm_Handler_t) : List Nat :=
  slice h.rx_handler.rxd_buffer 7 (h.rx_handler.rxd_index - 10)

/-- A valid frame: a captured run of at least the 10 bytes of an empty frame, with a
payload that fits the staging array together with its terminator (at most 255 bytes,
265 in all), that passes the marker, length and checksum checks. -/
def valid_frame (crc16 : List Nat → Nat) (h : aSmart_Comm_Handler_t) : Prop :=
  10 ≤ h.rx_handler.rxd_index ∧ h.rx_handler.rxd_index ≤ 265 ∧
    markers_ok h ∧ length_ok h ∧ crc_ok crc16 h

instance (h : aSmart_Comm_Handler_t) : Decidable (markers_ok h) := by
  unfold markers_ok; infer_instance

instance (h : aSmart_Comm_Handler_t) : Decidable (length_ok h) := by
  unfold length_ok; infer_instance

instance (crc16 : List Nat → Nat) (h : aSmart_Comm_Handler_t) : Decidable (crc_ok crc16 h) := by
  unfold crc_ok; infer_instance

instance (crc16 : List Nat → Nat) (h : aSmart_Comm_Handler_t) :
    Decidable (valid_frame crc16 h) := by
  unfold valid_frame; infer_instance

/-! ## Reference operations on the registry as a list -/

/-- The first entry with sequence number `seq_num`, by linear scan. -/
def lookup (seq_num : Nat) (entries : List CommandEntry_t) : Option CommandEntry_t :=
  entries.find? (fun e => e.sequence_number == seq_num)

/-- The entries without the first one with sequence number `seq_num`; the others keep
their contents and relative order. -/
def erase_first (seq_num : Nat) (entries : List CommandEntry_t) : List CommandEntry_t :=
  entries.eraseP (fun e => e.sequence_number == seq_num)

/-! ## Sample data -/

/-- A handler with cleared buffers and an empty registry, callback registered. -/
def idle_handler : aSmart_Comm_Handler_t :=
  { sequence_number := 0
    mapping_table := fun _ => { sequence_number := 0, command_type := 0, timestamp := 0 }
    mapping_table_count := 0
    rx_handler := { rxd_buffer := fun _ => 0, rxd_buffer_size := RECEIVE_BUFFER_SIZE,
                    rxd_index := 0, message_ready := 0 }
    tx_handler := { txd_buffer := fun _ => 0, txd_length := 0 }
    response_callback := true }

/-- A stand-in for the checksum of `crc16.h`: a 16-bit polynomial hash of the bytes. -/
def sample_crc16 (data : List Nat) : Nat :=
  data.foldl (fun acc b => (acc * 31 + b) % 65536) 0xFFFF

/-- A handler with three pending commands: sequence numbers 5, 7, 9 with command
types 0x10, 0x11, 0x12, recorded at ticks 10, 50, 100. -/
def pending_handler : aSmart_Comm_Handler_t :=
  add_command_to_mapping_table 100
    (add_command_to_mapping_table 50
      (add_command_to_mapping_table 10 idle_handler 5 0x10) 7 0x11) 9 0x12

/-- A run of 4 bytes: STX, declared length 0, ETX. -/
def short_run : List Nat := [0x02, 0x00, 0x00, 0x03]

/-- A run of 267 bytes: STX, declared length 263, sequence number 1, a command with
code 0x10, 257 payload bytes, two checksum bytes, ETX. -/
def oversize_run : List Nat :=
  [0x02, 0x01, 0x07, 0x00, 0x01, 0x01, 0x10] ++ List.replicate 257 0 ++ [0x00, 0x00, 0x03]

/-- A run of 512 bytes, a full receive buffer: STX, declared length 508, sequence number
1, a command with code 0x10, 502 payload bytes, the checksum bytes 0x00 0x00, ETX. -/
def bad_crc_run : List Nat :=
  [0x02, 0x01, 0xFC, 0x00, 0x01, 0x01, 0x10] ++ List.replicate 502 0 ++ [0x00, 0x00, 0x03]

/-! ## Closed forms used by the proofs -/

/-- The length field, the header fields and the payload of a frame, by frame index
(1..2 length `6 + n` big-endian, 3..4 sequence number big-endian, 5 kind, 6 code,
from 7 on the payload). -/
def frame_body (msg_type seq_num cmd_type : Nat) (payload : List Nat) (i : Nat) : Nat :=
  if i = 1 then (6 + payload.length) / 256 % 256 else if i = 2 then (6 + payload.length) % 256
  else if i = 3 then seq_num / 256 % 256 else if i = 4 then seq_num % 256
  else if i = 5 then msg_type else if i = 6 then cmd_type
  else payload.getD (i - 7) 0

/-- The checksum field of a frame: `crc16` of the `6 + n` bytes from byte 1 on, as a
`uint16_t`. -/
def frame_crc (crc16 : List Nat → Nat) (msg_type seq_num cmd_type : Nat)
    (payload : List Nat) : Nat :=
  crc16 (slice (frame_body msg_type seq_num cmd_type payload) 1 (6 + payload.length)) % 65536

/-- The frame layout of the wire format, written over the buffer `old`: STX, body,
checksum big-endian, ETX; indices from `n + 10` on keep the contents of `old`. -/
def frame_layout (crc16 : List Nat → Nat) (old : Nat → Nat) (msg_type seq_num cmd_type : Nat)
    (payload : List Nat) (i : Nat) : Nat :=
  if i = 0 then STX
  else if i < 7 + payload.length then frame_body msg_type seq_num cmd_type payload i
  else if i = 7 + payload.length then
    frame_crc crc16 msg_type seq_num cmd_type payload / 256 % 256
  else if i = 8 + payload.length then frame_crc crc16 msg_type seq_num cmd_type payload % 256
  else if i = 9 + payload.length then ETX
  else old i

/-- The table after the entries above slot `k` have moved down by one slot. -/
def shifted (count k : Nat) (table : Nat → CommandEntry_t) (x : Nat) : CommandEntry_t :=
  if k ≤ x ∧ x < count - 1 then table (x + 1) else table x

/-! ## The timeout sweep as a filter -/

/-- The timeout test of the sweep: `current_time - entry->timestamp > COMMAND_TIMEOUT_MS`
on `uint32_t`. -/
def expired (current_time : Nat) (entry : CommandEntry_t) : Bool :=
  decide ((current_time + 2 ^ 32 - entry.timestamp) % 2 ^ 32 > COMMAND_TIMEOUT_MS)

/-- The callback call of a timeout: kind ERROR, the recorded command type and sequence
number, `NULL` payload, length 0. -/
def timeout_call (entry : CommandEntry_t) : CallbackCall :=
  ⟨MSG_TYPE_ERROR, entry.command_type, entry.sequence_number, none, 0⟩

/-- The calls a handler makes for a list of timed out entries: one each when a callback
is registered, none otherwise. -/
def timeout_calls (h : aSmart_Comm_Handler_t) (entries : List CommandEntry_t) :
    List CallbackCall :=
  if h.response_callback then entries.map timeout_call else []

/-! ## Frames as byte lists -/

/-- The frame of the wire format for (kind, sequence number, code, payload), as the list
of its `n + 10` bytes. -/
def frame_bytes (crc16 : List Nat → Nat) (msg_type seq_num cmd_type : Nat)
    (payload : List Nat) : List Nat :=
  slice (frame_layout crc16 (fun _ => 0) msg_type seq_num cmd_type payload) 0
    (payload.length + 10)

/-- Sequence field of a frame: the big-endian value of its bytes 3..4. -/
def frame_seq_num (frame : List Nat) : Nat := be16 (frame.getD 3 0) (frame.getD 4 0)

/-- Kind of a frame: its byte 5. -/
def frame_msg_type (frame : List Nat) : Nat := frame.getD 5 0

/-- Code of a frame: its byte 6. -/
def frame_cmd_type (frame : List Nat) : Nat := frame.getD 6 0

/-- Nothing but the transmit handler (buffer and length) differs between `h` and `h2`. -/
def only_transmit_changed (h h2 : aSmart_Comm_Handler_t) : Prop :=
  h2.sequence_number = h.sequence_number ∧ h2.mapping_table = h.mapping_table ∧
    h2.mapping_table_count = h.mapping_table_count ∧ h2.rx_handler = h.rx_handler ∧
    h2.response_callback = h.response_callback

/-! ## Runs of the library -/

/-- What a run of the library shows to the outside: a frame handed to
`HAL_UART_Transmit`, or a call of the application callback. -/
inductive Event where
  | transmit (frame : List Nat)
  | callback (call : CallbackCall)
  deriving DecidableEq, Repr

/-- One step of the application or of the link on a handler: a call of one of the four
emit functions, a capture reported by the receive notification (at most
`RECEIVE_BUFFER_SIZE` bytes are stored), or a poll at tick `now`. -/
inductive Step where
  | send_command (now command_type : Nat) (payload : List Nat)
  | send_response (sequence_number command_type : Nat) (payload : List Nat)
  | send_notification (notification_type : Nat) (payload : List Nat)
  | send_error (sequence_number error_code : Nat) (payload : List Nat)
  | capture (run : List Nat)
  | poll (now : Nat)
  deriving DecidableEq, Repr

/-- The effect of one step: the handler after it and the events it shows, in order. -/
def step (crc16 : List Nat → Nat) (h : aSmart_Comm_Handler_t) :
    Step → Except Fault (aSmart_Comm_Handler_t × List Event)
  | .send_command now command_type payload => do
    let (h, frame) ← asmart_comm_send_command crc16 now h command_type payload
    pure (h, [.transmit frame])
  | .send_response sequence_number command_type payload => do
    let (h, frame) ← asmart_comm_send_response crc16 h sequence_number command_type payload
    pure (h, [.transmit frame])
  | .send_notification notification_type payload => do
    let (h, frame) ← asmart_comm_send_notification crc16 h notification_type payload
    pure (h, [.transmit frame])
  | .send_error sequence_number error_code payload => do
    let (h, frame) ← asmart_comm_send_error crc16 h sequence_number error_code payload
    pure (h, [.transmit frame])
  | .capture run => pure (receive h (run.take RECEIVE_BUFFER_SIZE), [])
  | .poll now => do
    let (h, calls) ← asmart_comm_handler crc16 now h
    pure (h, calls.map .callback)

/-- A run: the steps one after the other, from the handler `h` on. -/
def run (crc16 : List Nat → Nat) :
    List Step → aSmart_Comm_Handler_t → Except Fault (aSmart_Comm_Handler_t × List Event)
  | [], h => pure (h, [])
  | s :: rest, h => do
    let (h, first) ← step crc16 h s
    let (h, later) ← run crc16 rest h
    pure (h, first ++ later)

/-- Number of `send_command` steps of a run. -/
def commands_sent : List Step → Nat
  | [] => 0
  | .send_command _ _ _ :: rest => commands_sent rest + 1
  | _ :: rest => commands_sent rest

/-- The frames that `commands` (tick, command type, payload), sent one after the other,
put on the link when the first of them gets the sequence number `first`. -/
def issued (crc16 : List Nat → Nat) (first : Nat) : List (Nat × Nat × List Nat) → List Event
  | [] => []
  | (_, command_type, payload) :: rest =>
    .transmit (frame_bytes crc16 MSG_TYPE_COMMAND first command_type payload)
      :: issued crc16 (first + 1) rest

/-- The registry entries of `commands` (tick, command type, payload) when the first of
them gets the sequence number `first`. -/
def recorded (first : Nat) : List (Nat × Nat × List Nat) → List CommandEntry_t
  | [] => []
  | (now, command_type, _) :: rest =>
    { sequence_number := first, command_type := command_type, timestamp := now }
      :: recorded (first + 1) rest

/-- The `send_command` step of a command (tick, command type, payload). -/
def send_step (command : Nat × Nat × List Nat) : Step :=
  .send_command command.1 command.2.1 command.2.2

/-- The sequence fields of the frames among the events. -/
def sequence_numbers_sent : List Event → List Nat
  | [] => []
  | .transmit frame :: rest => frame_seq_num frame :: sequence_numbers_sent rest
  | .callback _ :: rest => sequence_numbers_sent rest

/-- A run that lets the sequence counter come round: `k` commands with empty payload
and code 0x10, all at tick 0, then the response of the peer to command 20, a poll, and
one more command. -/
def wrap_run (k : Nat) : List Step :=
  List.replicate k (.send_command 0 0x10 []) ++
    [.capture (frame_bytes sample_crc16 MSG_TYPE_RESPONSE 20 0x10 []), .poll 0,
      .send_command 0 0x10 []]

/-- A run with every kind of step: two commands, the response of the peer to the first
one and a poll, a notification, a poll after the timeout of the second command, and
two more commands. -/
def mixed_run : List Step :=
  [.send_command 10 0x10 [1], .send_command 50 0x11 [],
    .capture (frame_bytes sample_crc16 MSG_TYPE_RESPONSE 1 0x10 [5]), .poll 60,
    .send_notification 0x20 [9], .send_response 300 0x20 [], .send_error 301 0x21 [],
    .poll 6000, .send_command 6001 0x12 [], .send_command 6002 0x13 [2]]

/-! ## Invariants of runs -/

/-- A result that is not a loop out of fuel and, when it is a value, satisfies `good`:
the computation returns a good value or stops at an access outside of an array. -/
def settles {α : Type} (good : α → Prop) (result : Except Fault α) : Prop :=
  (∀ a, result = .ok a → good a) ∧ result ≠ .error .loop_fuel

/-- The sequence numbers of the registry are strictly increasing in table order and at
most the sequence counter, within the 20 slots of the table. -/
def registry_ordered (h : aSmart_Comm_Handler_t) : Prop :=
  ((registry h).map CommandEntry_t.sequence_number).Pairwise (fun a b => a < b) ∧
    (∀ e ∈ registry h, e.sequence_number ≤ h.sequence_number) ∧
    h.mapping_table_count ≤ MAPPING_TABLE_SIZE

/-- A result that is a value satisfying `good`, or a fault that is `allowed`. -/
def ends {α : Type} (good : α → Prop) (allowed : Fault → Prop) (result : Except Fault α) :
    Prop :=
  (∀ a, result = .ok a → good a) ∧ ∀ f, result = .error f → allowed f

/-- Nothing but the registry differs between `h` and `h2`, and the registry of `h2` is
the registry of `h` with entries taken away. -/
def only_registry_shrinks (h h2 : aSmart_Comm_Handler_t) : Prop :=
  (registry h2).Sublist (registry h) ∧ h2.sequence_number = h.sequence_number ∧
    h2.rx_handler = h.rx_handler ∧ h2.tx_handler = h.tx_handler ∧
    h2.response_callback = h.response_callback

/-- An access outside of one of the byte arrays (`rxd_buffer`, `txd_buffer`, the staging
array `payload`): not an access outside of the mapping table, not a loop out of fuel. -/
def byte_array_fault (f : Fault) : Prop :=
  (∃ i, f = .rxd_buffer_index i) ∨ (∃ i, f = .txd_buffer_index i) ∨ (∃ i, f = .payload_index i)

/-! ## More sample data -/

/-- A handler whose registry holds the sequence number 5 twice: an entry with command
type 0x10 recorded at tick 6000 in slot 0 and an entry with command type 0x11 recorded
at tick 10 in slot 1. -/
def duplicate_handler : aSmart_Comm_Handler_t :=
  add_command_to_mapping_table 10 (add_command_to_mapping_table 6000 idle_handler 5 0x10)
    5 0x11

/-- A run of 267 bytes that is a frame of the wire format with the kind byte 0x07,
sequence number 1, code 0x10 and 257 payload bytes 0, with its checksum. -/
def unknown_kind_run : List Nat :=
  frame_bytes sample_crc16 0x07 1 0x10 (List.replicate 257 0)

/-! ## The parser with its reads checked against a limit

The functions of this section are `rx_read`, `rx_read_range`, `stage_payload` and
`process_received_message` with the reads of the receive buffer checked against `limit`
in place of `RECEIVE_BUFFER_SIZE`; for `limit = RECEIVE_BUFFER_SIZE` they are the
functions above. -/

/-- Load `buffer[i]` from the receive buffer, the index checked against `limit`. -/
def rx_read_below (limit : Nat) (buffer : Nat → Nat) (i : Int) : Except Fault Nat :=
  if 0 ≤ i ∧ i < limit then .ok (buffer i.toNat)
  else .error (.rxd_buffer_index i)

/-- The bytes `crc16(&buffer[start], len)` reads from the receive buffer, the indices
checked against `limit`. -/
def rx_read_range_below (limit : Nat) (buffer : Nat → Nat) (start len : Nat) :
    Except Fault (List Nat) :=
  if start + len ≤ limit then .ok (slice buffer start len)
  else .error (.rxd_buffer_index (max start limit))

/-- The two statements
`memcpy(payload, &buffer[index], payload_length); payload[payload_length] = 0;`
on the local `uint8_t payload[256]`, the reads of the receive buffer checked against
`limit`. -/
def stage_payload_below (limit : Nat) (buffer : Nat → Nat) (index payload_length : Nat) :
    Except Fault (List Nat) :=
  if PAYLOAD_STAGING_SIZE < payload_length then .error (.payload_index PAYLOAD_STAGING_SIZE)
  else if limit < index + payload_length then
    .error (.rxd_buffer_index (max index limit))
  else if PAYLOAD_STAGING_SIZE ≤ payload_length then .error (.payload_index payload_length)
  else .ok (slice buffer index payload_length)

/-- Function `process_received_message`, lines 344-430, the reads of the receive buffer
checked against `limit`. -/
def process_received_message_below (limit : Nat) (crc16 : List Nat → Nat)
    (comm_handler : aSmart_Comm_Handler_t) :
    Except Fault (aSmart_Comm_Handler_t × List CallbackCall) := do
  let buffer := comm_handler.rx_handler.rxd_buffer
  let length := comm_handler.rx_handler.rxd_index
  -- Check STX and ETX
  let first ← rx_read_below limit buffer 0
  if first ≠ STX then pure (comm_handler, []) else do
  let last ← rx_read_below limit buffer ((length : Int) - 1)
  if last ≠ ETX then pure (comm_handler, []) else do
  -- Extract Length
  let len_hi ← rx_read_below limit buffer 1
  let len_lo ← rx_read_below limit buffer 2
  let msg_length := be16 len_hi len_lo
  -- Verify Length
  if (msg_length : Int) ≠ (length : Int) - 4 then pure (comm_handler, []) else do
  -- Extract Sequence Number
  let seq_hi ← rx_read_below limit buffer 3
  let seq_num := (seq_hi <<< 8) % 65536
  let seq_lo ← rx_read_below limit buffer 4
  let seq_num := (seq_num ||| seq_lo) % 65536
  -- Extract Message Type
  let msg_type ← rx_read_below limit buffer 5
  -- Extract Command Type
  let cmd_type ← rx_read_below limit buffer 6
  -- Extract Payload
  let payload_length := (msg_length + 65536 - 6) % 65536
  let payload ← stage_payload_below limit buffer 7 payload_length
  -- Verify CRC
  let crc_hi ← rx_read_below limit buffer ((length : Int) - 3)
  let crc_lo ← rx_read_below limit buffer ((length : Int) - 2)
  let received_crc := be16 crc_hi crc_lo
  let data ← rx_read_range_below limit buffer 1 msg_length
  let calculated_crc := crc16 data % 65536
  if received_crc ≠ calculated_crc then pure (comm_handler, []) else
  -- Process Message
  dispatch_message comm_handler msg_type cmd_type seq_num payload payload_length

/-! ## Sequence numbers within one cycle of the counter -/

/-- The number of commands sent since the entry was recorded, as the counter shows it:
`(sequence_number - entry.sequence_number) mod 65536`. -/
def sends_since (h : aSmart_Comm_Handler_t) (e : CommandEntry_t) : Nat :=
  (h.sequence_number + 65536 - e.sequence_number) % 65536

/-- Every entry of the registry was recorded fewer than `bound` sends ago, as the counter
shows it; the counter and the sequence numbers are 16-bit values and the count is
within the 20 slots of the table. -/
def registry_in_cycle (h : aSmart_Comm_Handler_t) (bound : Nat) : Prop :=
  (∀ e ∈ registry h, e.sequence_number < 65536 ∧ sends_since h e < bound) ∧
    h.sequence_number < 65536 ∧ h.mapping_table_count ≤ MAPPING_TABLE_SIZE

/-- What the step `s` from the handler `h` does to the counter and the registry, as a
relation to the handler `h1` after it: a `send_command` steps the counter modulo 65536
and appends its entry when a slot is free; every other step keeps the counter and can
only take entries away. -/
def registry_after (h : aSmart_Comm_Handler_t) : Step → aSmart_Comm_Handler_t → Prop
  | .send_command now command_type _, h1 =>
    h1.sequence_number = (h.sequence_number + 1) % 65536 ∧
      registry h1 = (if h.mapping_table_count < MAPPING_TABLE_SIZE then
        registry h ++ [⟨(h.sequence_number + 1) % 65536, command_type, now⟩]
        else registry h)
  | _, h1 => h1.sequence_number = h.sequence_number ∧ (registry h1).Sublist (registry h)

/-- The step does not record a pending sequence number again: when it is a
`send_command` step and the registry has a free slot, no entry of the registry has the
sequence number `(sequence_number + 1) % 65536` that the command gets. -/
def fresh_at (h : aSmart_Comm_Handler_t) : Step → Prop
  | .send_command _ _ _ =>
    h.mapping_table_count < MAPPING_TABLE_SIZE →
      lookup ((h.sequence_number + 1) % 65536) (registry h) = none
  | _ => True

/-- No step of the run records a pending sequence number again: `fresh_at` holds for
every step in the state the step starts from. -/
def numbers_fresh (crc16 : List Nat → Nat) : List Step → aSmart_Comm_Handler_t → Prop
  | [], _ => True
  | s :: rest, h =>
    fresh_at h s ∧ ∀ h1 evs, step crc16 h s = .ok (h1, evs) → numbers_fresh crc16 rest h1

/-- A run that goes past the wrap of the counter with its entries swept in time: 65536
commands at tick 0 (the first 20 are recorded), a poll at tick 6000, when all entries
have timed out, and 20 more commands. -/
def cycle_run : List Step :=
  List.replicate 65536 (.send_command 0 0x10 []) ++
    (.poll 6000 :: List.replicate 20 (.send_command 6000 0x10 []))

/-! # Theorems -/

/-! ## Byte arithmetic -/

theorem and_255 (x : Nat) : x &&& 255 = x % 256 :=
  Nat.and_pow_two_sub_one_eq_mod x 8

theorem shr_8 (x : Nat) : x >>> 8 = x / 256 :=
  Nat.shiftRight_eq_div_pow x 8

theorem shl_8_or (hi lo : Nat) (h : lo < 256) : (hi <<< 8) ||| lo = hi * 256 + lo := by
  have := Nat.mul_add_lt_is_or (i := 8) (b := lo) (by simpa using h) hi
  rw [Nat.shiftLeft_eq, Nat.mul_comm hi, ← this]

/-- On two bytes `be16` is the big-endian value. -/
theorem be16_bytes (hi lo : Nat) (_h1 : hi < 256) (h2 : lo < 256) :
    be16 hi lo = hi * 256 + lo := by
  unfold be16
  rw [shl_8_or _ _ h2]
  omega

theorem be16_split (x : Nat) (h : x < 65536) : be16 (x / 256 % 256) (x % 256) = x := by
  unfold be16
  rw [shl_8_or _ _ (Nat.mod_lt _ (by norm_num))]
  omega

theorem seq_join (x : Nat) (h : x < 65536) :
    ((((x / 256 % 256) <<< 8) % 65536) ||| (x % 256)) % 65536 = x := by
  have h1 : ((x / 256 % 256) <<< 8) % 65536 = (x / 256 % 256) <<< 8 := by
    rw [Nat.shiftLeft_eq]; simp only [Nat.reducePow]; omega
  rw [h1, shl_8_or _ _ (Nat.mod_lt _ (by norm_num))]
  omega

/-! ## The `Except` monad -/

theorem ok_bind {ε α β : Type} (a : α) (f : α → Except ε β) : (Except.ok a >>= f) = f a := rfl

theorem error_bind {ε α β : Type} (e : ε) (f : α → Except ε β) :
    ((Except.error e : Except ε α) >>= f) = Except.error e := rfl

/-! ## Slices -/

theorem slice_length (b : Nat → Nat) (s l : Nat) : (slice b s l).length = l := by
  simp [slice]

theorem slice_getD (b : Nat → Nat) (s l i : Nat) (h : i < l) :
    (slice b s l).getD i 0 = b (s + i) := by
  simp [slice, List.getD_eq_getElem?_getD, List.getElem?_map, List.getElem?_range h]

theorem slice_congr (b c : Nat → Nat) (s l : Nat) (h : ∀ k, k < l → b (s + k) = c (s + k)) :
    slice b s l = slice c s l := by
  unfold slice
  apply List.map_congr_left
  intro k hk
  exact h k (List.mem_range.mp hk)

theorem slice_eq_of_getD (b : Nat → Nat) (s : Nat) (p : List Nat)
    (h : ∀ k, k < p.length → b (s + k) = p.getD k 0) : slice b s p.length = p := by
  apply List.ext_getElem
  · simp [slice]
  · intro i h1 h2
    simp only [slice, List.getElem_map, List.getElem_range]
    rw [h i h2]
    simp [List.getD_eq_getElem?_getD, List.getElem?_eq_getElem h2]

/-! ## The assembler -/

/-- The assembler writes the frame layout: for a payload of at most 502 bytes
`assemble_message` returns, the transmit buffer holds `frame_layout` and
`txd_length` is `n + 10`; no other field of the handler changes. -/
theorem assemble_message_eq (crc16 : List Nat → Nat) (h : aSmart_Comm_Handler_t)
    (mt sn ct : Nat) (p : List Nat) (hp : p.length ≤ 502) :
    assemble_message crc16 h mt sn ct p = .ok { h with
      tx_handler := ⟨frame_layout crc16 h.tx_handler.txd_buffer mt sn ct p, p.length + 10⟩ } := by
  simp only [assemble_message, tx_write, tx_memcpy, tx_read_range, TRANSMIT_BUFFER_SIZE]
  simp only [bind, Except.bind, pure, Except.pure]
  have h1 : 7 + p.length ≤ 512 := by omega
  have h2 : 1 + (7 + p.length - 1) ≤ 512 := by omega
  have h3 : 7 + p.length < 512 := by omega
  have h4 : 7 + p.length + 1 < 512 := by omega
  have h5 : 7 + p.length + 1 + 1 < 512 := by omega
  simp only [Nat.zero_add, Nat.reduceAdd, Nat.reduceLT, if_true, h1, h2, h3, h4, h5]
  have key : ∀ B : Nat → Nat,
      (∀ k, k < 6 + p.length → B (1 + k) = frame_body mt sn ct p (1 + k)) →
      slice B 1 (7 + p.length - 1) = slice (frame_body mt sn ct p) 1 (6 + p.length) := by
    intro B hB
    have e : 7 + p.length - 1 = 6 + p.length := by omega
    rw [e]
    exact slice_congr _ _ _ _ hB
  rw [key]
  · congr 2
    refine congrArg₂ _ ?_ (by omega)
    funext i
    simp only [frame_layout, frame_crc, frame_body, Function.update_apply, and_255, shr_8]
    have hi : i = 0 ∨ i = 1 ∨ i = 2 ∨ i = 3 ∨ i = 4 ∨ i = 5 ∨ i = 6 ∨
        (7 ≤ i ∧ i < 7 + p.length) ∨ i = 7 + p.length ∨ i = 8 + p.length ∨
        i = 9 + p.length ∨ 10 + p.length ≤ i := by omega
    have e : 7 + p.length - 1 = 6 + p.length := by omega
    rw [e]
    rcases hi with c | c | c | c | c | c | c | c | c | c | c | c <;>
      simp (disch := omega) only [if_pos, if_neg]
  · intro k hk
    simp only [frame_body, Function.update_apply, and_255, shr_8]
    have e : 7 + p.length - 1 = 6 + p.length := by omega
    rw [e]
    have hi : k = 0 ∨ k = 1 ∨ k = 2 ∨ k = 3 ∨ k = 4 ∨ k = 5 ∨
        (7 ≤ 1 + k ∧ 1 + k < 7 + p.length) := by omega
    rcases hi with c | c | c | c | c | c | c <;>
      simp (disch := omega) only [if_pos, if_neg]

/-- Values of the frame layout at the indices of the fields. -/
theorem frame_layout_fields (crc16 : List Nat → Nat) (old : Nat → Nat) (mt sn ct : Nat)
    (p : List Nat) :
    let b := frame_layout crc16 old mt sn ct p
    b 0 = STX ∧ b 1 = (6 + p.length) / 256 % 256 ∧ b 2 = (6 + p.length) % 256 ∧
      b 3 = sn / 256 % 256 ∧ b 4 = sn % 256 ∧ b 5 = mt ∧ b 6 = ct ∧
      (∀ k, k < p.length → b (7 + k) = p.getD k 0) ∧
      b (7 + p.length) = frame_crc crc16 mt sn ct p / 256 % 256 ∧
      b (8 + p.length) = frame_crc crc16 mt sn ct p % 256 ∧
      b (9 + p.length) = ETX ∧
      (∀ k, k < 6 + p.length → b (1 + k) = frame_body mt sn ct p (1 + k)) := by
  intro b
  refine ⟨?_, ?_, ?_, ?_, ?_, ?_, ?_, ?_, ?_, ?_, ?_, ?_⟩
  all_goals simp only [b, frame_layout, frame_body]
  all_goals try intro k hk
  all_goals simp (disch := omega) only [if_pos, if_neg, if_true, Nat.add_sub_cancel_left]

/-- A payload of more than 502 bytes makes the assembler write past the transmit
buffer: the run ends with an access to `txd_buffer` at an index `≥ 512`. -/
theorem assemble_message_overrun (crc16 : List Nat → Nat) (h : aSmart_Comm_Handler_t)
    (mt sn ct : Nat) (p : List Nat) (hp : 502 < p.length) :
    assemble_message crc16 h mt sn ct p = .error (.txd_buffer_index 512) := by
  simp only [assemble_message, tx_write, tx_memcpy, tx_read_range, TRANSMIT_BUFFER_SIZE]
  simp only [bind, Except.bind, pure, Except.pure]
  simp only [Nat.zero_add, Nat.reduceAdd, Nat.reduceLT, if_true]
  by_cases c1 : 7 + p.length ≤ 512
  · have e : 7 + p.length - 1 = 6 + p.length := by omega
    have h2 : 1 + (6 + p.length) ≤ 512 := by omega
    simp only [c1, e, h2, if_true]
    by_cases c2 : 7 + p.length < 512
    · simp only [c2, if_true]
      by_cases c3 : 7 + p.length + 1 < 512
      · have e4 : 7 + p.length + 1 + 1 = 512 := by omega
        simp only [c3, if_true]
        simp only [e4, Nat.lt_irrefl, if_false]
      · have e3 : 7 + p.length + 1 = 512 := by omega
        simp only [e3, Nat.lt_irrefl, if_false]
    · have e2 : 7 + p.length = 512 := by omega
      simp only [e2, Nat.lt_irrefl, if_false]
  · simp only [c1, if_false]
    have : max 7 512 = 512 := by decide
    rw [this]

/-! ## The parser up to the checksum -/

theorem rx_read_nat (b : Nat → Nat) (i : Nat) (h : i < 512) :
    rx_read b (i : Int) = .ok (b i) := by
  unfold rx_read RECEIVE_BUFFER_SIZE
  rw [if_pos (by omega)]
  simp

theorem rx_read_sub (b : Nat → Nat) (L k : Nat) (h1 : k ≤ L) (h2 : L - k < 512) :
    rx_read b ((L : Int) - (k : Int)) = .ok (b (L - k)) := by
  unfold rx_read RECEIVE_BUFFER_SIZE
  rw [if_pos (by omega)]
  have : ((L : Int) - (k : Int)).toNat = L - k := by omega
  rw [this]

/-- On a valid frame the parser reaches the dispatch with the fields of the wire. -/
theorem process_valid (crc16 : List Nat → Nat) (h : aSmart_Comm_Handler_t)
    (hv : valid_frame crc16 h) :
    process_received_message crc16 h =
      dispatch_message h (wire_msg_type h) (wire_cmd_type h) (wire_seq_num h) (wire_payload h)
        (h.rx_handler.rxd_index - 10) := by
  obtain ⟨hL1, hL2, ⟨hm1, hm2⟩, hlen, hcrc⟩ := hv
  unfold length_ok at hlen
  unfold crc_ok at hcrc
  unfold rx_byte at *
  have hml : be16 (h.rx_handler.rxd_buffer 1) (h.rx_handler.rxd_buffer 2)
      = h.rx_handler.rxd_index - 4 := by omega
  unfold process_received_message
  have r0 := rx_read_nat h.rx_handler.rxd_buffer 0 (by omega)
  have r1 := rx_read_nat h.rx_handler.rxd_buffer 1 (by omega)
  have r2 := rx_read_nat h.rx_handler.rxd_buffer 2 (by omega)
  have r3 := rx_read_nat h.rx_handler.rxd_buffer 3 (by omega)
  have r4 := rx_read_nat h.rx_handler.rxd_buffer 4 (by omega)
  have r5 := rx_read_nat h.rx_handler.rxd_buffer 5 (by omega)
  have r6 := rx_read_nat h.rx_handler.rxd_buffer 6 (by omega)
  have s1 := rx_read_sub h.rx_handler.rxd_buffer h.rx_handler.rxd_index 1 (by omega) (by omega)
  have s2 := rx_read_sub h.rx_handler.rxd_buffer h.rx_handler.rxd_index 2 (by omega) (by omega)
  have s3 := rx_read_sub h.rx_handler.rxd_buffer h.rx_handler.rxd_index 3 (by omega) (by omega)
  simp only [Nat.cast_ofNat, Nat.cast_zero, Nat.cast_one] at r0 r1 r2 r3 r4 r5 r6 s1 s2 s3
  simp only [r0, r1, r2, r3, r4, r5, r6, s1, s2, s3]
  rw [ok_bind, if_neg (not_not.mpr hm1), ok_bind, if_neg (not_not.mpr hm2), ok_bind, ok_bind]
  rw [if_neg (not_not.mpr hlen), ok_bind, ok_bind, ok_bind, ok_bind]
  have e : (be16 (h.rx_handler.rxd_buffer 1) (h.rx_handler.rxd_buffer 2) + 65536 - 6) % 65536
      = h.rx_handler.rxd_index - 10 := by omega
  have hstage : stage_payload h.rx_handler.rxd_buffer 7
      ((be16 (h.rx_handler.rxd_buffer 1) (h.rx_handler.rxd_buffer 2) + 65536 - 6) % 65536)
      = .ok (slice h.rx_handler.rxd_buffer 7 (h.rx_handler.rxd_index - 10)) := by
    rw [e]
    unfold stage_payload PAYLOAD_STAGING_SIZE RECEIVE_BUFFER_SIZE
    rw [if_neg (by omega), if_neg (by omega), if_neg (by omega)]
  have hrange : rx_read_range h.rx_handler.rxd_buffer 1
      (be16 (h.rx_handler.rxd_buffer 1) (h.rx_handler.rxd_buffer 2))
      = .ok (slice h.rx_handler.rxd_buffer 1 (h.rx_handler.rxd_index - 4)) := by
    rw [hml]
    unfold rx_read_range RECEIVE_BUFFER_SIZE
    rw [if_pos (by omega)]
  rw [hstage, ok_bind, ok_bind, ok_bind, hrange, ok_bind, if_neg (not_not.mpr hcrc), e]
  rfl

/-- A run of 10 to 265 bytes that passes the marker and length checks and fails the
checksum check is dropped: no callback, state unchanged. -/
theorem process_crc_mismatch (crc16 : List Nat → Nat) (h : aSmart_Comm_Handler_t)
    (hL1 : 10 ≤ h.rx_handler.rxd_index) (hL2 : h.rx_handler.rxd_index ≤ 265)
    (hm : markers_ok h) (hlen : length_ok h) (hcrc : ¬ crc_ok crc16 h) :
    process_received_message crc16 h = .ok (h, []) := by
  obtain ⟨hm1, hm2⟩ := hm
  unfold length_ok at hlen
  unfold crc_ok at hcrc
  unfold rx_byte at *
  have hml : be16 (h.rx_handler.rxd_buffer 1) (h.rx_handler.rxd_buffer 2)
      = h.rx_handler.rxd_index - 4 := by omega
  unfold process_received_message
  have r0 := rx_read_nat h.rx_handler.rxd_buffer 0 (by omega)
  have r1 := rx_read_nat h.rx_handler.rxd_buffer 1 (by omega)
  have r2 := rx_read_nat h.rx_handler.rxd_buffer 2 (by omega)
  have r3 := rx_read_nat h.rx_handler.rxd_buffer 3 (by omega)
  have r4 := rx_read_nat h.rx_handler.rxd_buffer 4 (by omega)
  have r5 := rx_read_nat h.rx_handler.rxd_buffer 5 (by omega)
  have r6 := rx_read_nat h.rx_handler.rxd_buffer 6 (by omega)
  have s1 := rx_read_sub h.rx_handler.rxd_buffer h.rx_handler.rxd_index 1 (by omega) (by omega)
  have s2 := rx_read_sub h.rx_handler.rxd_buffer h.rx_handler.rxd_index 2 (by omega) (by omega)
  have s3 := rx_read_sub h.rx_handler.rxd_buffer h.rx_handler.rxd_index 3 (by omega) (by omega)
  simp only [Nat.cast_ofNat, Nat.cast_zero, Nat.cast_one] at r0 r1 r2 r3 r4 r5 r6 s1 s2 s3
  simp only [r0, r1, r2, r3, r4, r5, r6, s1, s2, s3]
  rw [ok_bind, if_neg (not_not.mpr hm1), ok_bind, if_neg (not_not.mpr hm2), ok_bind, ok_bind]
  rw [if_neg (not_not.mpr hlen), ok_bind, ok_bind, ok_bind, ok_bind]
  have e : (be16 (h.rx_handler.rxd_buffer 1) (h.rx_handler.rxd_buffer 2) + 65536 - 6) % 65536
      = h.rx_handler.rxd_index - 10 := by omega
  have hstage : stage_payload h.rx_handler.rxd_buffer 7
      ((be16 (h.rx_handler.rxd_buffer 1) (h.rx_handler.rxd_buffer 2) + 65536 - 6) % 65536)
      = .ok (slice h.rx_handler.rxd_buffer 7 (h.rx_handler.rxd_index - 10)) := by
    rw [e]
    unfold stage_payload PAYLOAD_STAGING_SIZE RECEIVE_BUFFER_SIZE
    rw [if_neg (by omega), if_neg (by omega), if_neg (by omega)]
  have hrange : rx_read_range h.rx_handler.rxd_buffer 1
      (be16 (h.rx_handler.rxd_buffer 1) (h.rx_handler.rxd_buffer 2))
      = .ok (slice h.rx_handler.rxd_buffer 1 (h.rx_handler.rxd_index - 4)) := by
    rw [hml]
    unfold rx_read_range RECEIVE_BUFFER_SIZE
    rw [if_pos (by omega)]
  rw [hstage, ok_bind, ok_bind, ok_bind, hrange, ok_bind, if_pos hcrc]
  rfl

/-- The copy into the staging array is made without a check of the payload length:
a run that passes the marker and length checks and is shorter than 10 bytes (the
payload length wraps to `65530 + L - 4`) or longer than 265 bytes (a payload of more
than 255 bytes) ends in a write past `payload[256]`, before the checksum is looked at. -/
theorem process_overrun (crc16 : List Nat → Nat) (h : aSmart_Comm_Handler_t)
    (hL2 : h.rx_handler.rxd_index ≤ 512)
    (hm : markers_ok h) (hlen : length_ok h)
    (hL : h.rx_handler.rxd_index < 10 ∨ 266 ≤ h.rx_handler.rxd_index) :
    process_received_message crc16 h = .error (.payload_index 256) := by
  obtain ⟨hm1, hm2⟩ := hm
  unfold length_ok at hlen
  unfold rx_byte at *
  have hL1 : 4 ≤ h.rx_handler.rxd_index := by omega
  have hml : be16 (h.rx_handler.rxd_buffer 1) (h.rx_handler.rxd_buffer 2)
      = h.rx_handler.rxd_index - 4 := by omega
  unfold process_received_message
  have r0 := rx_read_nat h.rx_handler.rxd_buffer 0 (by omega)
  have r1 := rx_read_nat h.rx_handler.rxd_buffer 1 (by omega)
  have r2 := rx_read_nat h.rx_handler.rxd_buffer 2 (by omega)
  have r3 := rx_read_nat h.rx_handler.rxd_buffer 3 (by omega)
  have r4 := rx_read_nat h.rx_handler.rxd_buffer 4 (by omega)
  have r5 := rx_read_nat h.rx_handler.rxd_buffer 5 (by omega)
  have r6 := rx_read_nat h.rx_handler.rxd_buffer 6 (by omega)
  have s1 := rx_read_sub h.rx_handler.rxd_buffer h.rx_handler.rxd_index 1 (by omega) (by omega)
  simp only [Nat.cast_ofNat, Nat.cast_zero, Nat.cast_one] at r0 r1 r2 r3 r4 r5 r6 s1
  simp only [r0, r1, r2, r3, r4, r5, r6, s1]
  rw [ok_bind, if_neg (not_not.mpr hm1), ok_bind, if_neg (not_not.mpr hm2), ok_bind, ok_bind]
  rw [if_neg (not_not.mpr hlen), ok_bind, ok_bind, ok_bind, ok_bind]
  have hstage : stage_payload h.rx_handler.rxd_buffer 7
      ((be16 (h.rx_handler.rxd_buffer 1) (h.rx_handler.rxd_buffer 2) + 65536 - 6) % 65536)
      = .error (.payload_index 256) := by
    unfold stage_payload PAYLOAD_STAGING_SIZE RECEIVE_BUFFER_SIZE
    by_cases c : 256 <
        (be16 (h.rx_handler.rxd_buffer 1) (h.rx_handler.rxd_buffer 2) + 65536 - 6) % 65536
    · rw [if_pos c]
    · have e : (be16 (h.rx_handler.rxd_buffer 1) (h.rx_handler.rxd_buffer 2) + 65536 - 6) % 65536
          = 256 := by omega
      rw [e, if_neg (by omega), if_neg (by omega), if_pos (le_refl _)]
  rw [hstage, error_bind]

/-- An empty capture over a buffer that still starts with STX makes the marker check
read `buffer[-1]`: `length - 1` is computed on `int`. -/
theorem empty_run_reads_before_buffer (crc16 : List Nat → Nat) (h : aSmart_Comm_Handler_t)
    (h0 : h.rx_handler.rxd_buffer 0 = STX) (hL : h.rx_handler.rxd_index = 0) :
    process_received_message crc16 h = .error (.rxd_buffer_index (-1)) := by
  unfold process_received_message
  have r0 := rx_read_nat h.rx_handler.rxd_buffer 0 (by omega)
  simp only [Nat.cast_zero] at r0
  simp only [r0, hL]
  rw [ok_bind, if_neg (not_not.mpr h0)]
  have e : rx_read h.rx_handler.rxd_buffer (((0 : Nat) : Int) - 1)
      = .error (.rxd_buffer_index (-1)) := by
    unfold rx_read
    rw [if_neg (by omega)]
    rfl
  rw [e, error_bind]

/-! ## The loops of the registry -/

theorem table_read_ok (t : Nat → CommandEntry_t) (i : Nat) (h : i < 20) :
    table_read t i = .ok (t i) := by
  unfold table_read MAPPING_TABLE_SIZE
  rw [if_pos h]

theorem table_write_ok (t : Nat → CommandEntry_t) (i : Nat) (e : CommandEntry_t) (h : i < 20) :
    table_write t i e = .ok (Function.update t i e) := by
  unfold table_write MAPPING_TABLE_SIZE
  rw [if_pos h]

/-- The loop of the lookup, when no slot from `i` on holds `s`. -/
theorem find_loop_none (h : aSmart_Comm_Handler_t) (s : Nat) (hc : h.mapping_table_count ≤ 20) :
    ∀ (fuel i : Nat), h.mapping_table_count - i < fuel →
      (∀ j, i ≤ j → j < h.mapping_table_count → (h.mapping_table j).sequence_number ≠ s) →
      find_loop h s fuel i = .ok none := by
  intro fuel
  induction fuel with
  | zero => intro i hf; omega
  | succ n ih =>
    intro i hf hno
    unfold find_loop
    by_cases hi : i < h.mapping_table_count
    · rw [if_pos hi, table_read_ok _ _ (by omega), ok_bind, if_neg (hno i (le_refl _) hi)]
      exact ih (i + 1) (by omega) (fun j hj1 hj2 => hno j (by omega) hj2)
    · rw [if_neg hi]; rfl

/-- The loop of the lookup, when slot `k` is the first one from `i` on that holds `s`. -/
theorem find_loop_some (h : aSmart_Comm_Handler_t) (s k : Nat) (hc : h.mapping_table_count ≤ 20)
    (hk : k < h.mapping_table_count) (hs : (h.mapping_table k).sequence_number = s) :
    ∀ (fuel i : Nat), h.mapping_table_count - i < fuel → i ≤ k →
      (∀ j, i ≤ j → j < k → (h.mapping_table j).sequence_number ≠ s) →
      find_loop h s fuel i = .ok (some k) := by
  intro fuel
  induction fuel with
  | zero => intro i hf; omega
  | succ n ih =>
    intro i hf hik hno
    unfold find_loop
    rw [if_pos (by omega), table_read_ok _ _ (by omega), ok_bind]
    by_cases hi : i = k
    · subst hi
      rw [if_pos hs]; rfl
    · rw [if_neg (hno i (le_refl _) (by omega))]
      exact ih (i + 1) (by omega) (by omega) (fun j hj1 hj2 => hno j (by omega) hj2)

theorem shift_loop_eq (count : Nat) (hc : count ≤ 20) :
    ∀ (fuel j : Nat) (t : Nat → CommandEntry_t), count - j ≤ fuel → 0 < fuel →
      shift_loop count fuel j t = .ok (shifted count j t) := by
  intro fuel
  induction fuel with
  | zero => intro j t _ h0; omega
  | succ n ih =>
    intro j t hf _
    unfold shift_loop
    by_cases hj : j < count - 1
    · rw [if_pos hj, table_read_ok _ _ (by omega), ok_bind, table_write_ok _ _ _ (by omega), ok_bind,
        ih (j + 1) _ (by omega) (by omega)]
      congr 1
      funext x
      unfold shifted
      simp only [Function.update_apply]
      by_cases c1 : x = j
      · subst c1
        split_ifs <;> first | rfl | (exfalso; omega)
      · by_cases c2 : j + 1 ≤ x ∧ x < count - 1
        · rw [if_pos c2, if_neg (by omega), if_pos (by omega)]
        · rw [if_neg c2, if_neg c1, if_neg (by omega)]
    · rw [if_neg hj]
      congr 1
      funext x
      unfold shifted
      rw [if_neg (by omega)]

theorem remove_loop_none (h : aSmart_Comm_Handler_t) (s : Nat) (hc : h.mapping_table_count ≤ 20) :
    ∀ (fuel i : Nat), h.mapping_table_count - i < fuel →
      (∀ j, i ≤ j → j < h.mapping_table_count → (h.mapping_table j).sequence_number ≠ s) →
      remove_loop h s fuel i = .ok h := by
  intro fuel
  induction fuel with
  | zero => intro i hf; omega
  | succ n ih =>
    intro i hf hno
    unfold remove_loop
    by_cases hi : i < h.mapping_table_count
    · rw [if_pos hi, table_read_ok _ _ (by omega), ok_bind, if_neg (hno i (le_refl _) hi)]
      exact ih (i + 1) (by omega) (fun j hj1 hj2 => hno j (by omega) hj2)
    · rw [if_neg hi]; rfl

theorem remove_loop_some (h : aSmart_Comm_Handler_t) (s k : Nat) (hc : h.mapping_table_count ≤ 20)
    (hk : k < h.mapping_table_count) (hs : (h.mapping_table k).sequence_number = s) :
    ∀ (fuel i : Nat), h.mapping_table_count - i < fuel → i ≤ k →
      (∀ j, i ≤ j → j < k → (h.mapping_table j).sequence_number ≠ s) →
      remove_loop h s fuel i = .ok { h with
        mapping_table := shifted h.mapping_table_count k h.mapping_table
        mapping_table_count := h.mapping_table_count - 1 } := by
  intro fuel
  induction fuel with
  | zero => intro i hf; omega
  | succ n ih =>
    intro i hf hik hno
    unfold remove_loop
    rw [if_pos (by omega), table_read_ok _ _ (by omega), ok_bind]
    by_cases hi : i = k
    · subst hi
      rw [if_pos hs, shift_loop_eq _ hc _ _ _ (by omega) (by omega), ok_bind]
      rfl
    · rw [if_neg (hno i (le_refl _) (by omega))]
      exact ih (i + 1) (by omega) (by omega) (fun j hj1 hj2 => hno j (by omega) hj2)

/-! ## The registry as a list -/

theorem registry_length (h : aSmart_Comm_Handler_t) : (registry h).length = h.mapping_table_count := by
  simp [registry]

theorem registry_slot (h : aSmart_Comm_Handler_t) (n : Nat) :
    (registry h)[n]? = if n < h.mapping_table_count then some (h.mapping_table n) else none := by
  unfold registry
  by_cases c : n < h.mapping_table_count
  · rw [if_pos c, List.getElem?_map, List.getElem?_range c]; rfl
  · rw [if_neg c, List.getElem?_eq_none]
    simp only [List.length_map, List.length_range]; omega

/-- A decomposition of the registry around the first entry with sequence number `s`
locates the slot the loops stop at. -/
theorem first_slot (h : aSmart_Comm_Handler_t) (s : Nat) (l1 l2 : List CommandEntry_t)
    (e : CommandEntry_t) (hreg : registry h = l1 ++ e :: l2)
    (hl1 : ∀ a ∈ l1, a.sequence_number ≠ s) :
    l1.length < h.mapping_table_count ∧ h.mapping_table l1.length = e ∧
      ∀ j, 0 ≤ j → j < l1.length → (h.mapping_table j).sequence_number ≠ s := by
  have hlen : h.mapping_table_count = l1.length + (1 + l2.length) := by
    rw [← registry_length, hreg]; simp; omega
  refine ⟨by omega, ?_, ?_⟩
  · have := registry_slot h l1.length
    rw [if_pos (by omega), hreg, List.getElem?_append_right (le_refl _)] at this
    simpa using this.symm
  · intro j _ hj
    have := registry_slot h j
    rw [if_pos (by omega), hreg, List.getElem?_append_left hj] at this
    have hmem : h.mapping_table j ∈ l1 := by
      rw [List.getElem?_eq_getElem hj] at this
      have := Option.some.inj this
      rw [← this]
      exact List.getElem_mem _
    exact hl1 _ hmem

theorem registry_shifted (h : aSmart_Comm_Handler_t) (l1 l2 : List CommandEntry_t)
    (e : CommandEntry_t) (hreg : registry h = l1 ++ e :: l2) :
    registry { h with
      mapping_table := shifted h.mapping_table_count l1.length h.mapping_table
      mapping_table_count := h.mapping_table_count - 1 } = l1 ++ l2 := by
  have hlen : h.mapping_table_count = l1.length + (1 + l2.length) := by
    rw [← registry_length, hreg]; simp; omega
  apply List.ext_getElem?
  intro n
  rw [registry_slot]
  simp only
  by_cases c1 : n < l1.length
  · have := registry_slot h n
    rw [if_pos (by omega), hreg, List.getElem?_append_left c1] at this
    rw [if_pos (by omega), List.getElem?_append_left c1, this]
    unfold shifted
    rw [if_neg (by omega)]
  · by_cases c2 : n < h.mapping_table_count - 1
    · have := registry_slot h (n + 1)
      rw [if_pos (by omega), hreg, List.getElem?_append_right (by omega)] at this
      have e1 : n + 1 - l1.length = (n - l1.length) + 1 := by omega
      rw [e1, List.getElem?_cons_succ] at this
      rw [if_pos c2, List.getElem?_append_right (by omega), this]
      unfold shifted
      rw [if_pos (by omega)]
    · rw [if_neg c2]
      symm
      rw [List.getElem?_eq_none]
      simp only [List.length_append]; omega

theorem erase_first_split (s : Nat) (l1 l2 : List CommandEntry_t) (e : CommandEntry_t)
    (hl1 : ∀ a ∈ l1, a.sequence_number ≠ s) (he : e.sequence_number = s) :
    erase_first s (l1 ++ e :: l2) = l1 ++ l2 := by
  unfold erase_first
  rw [List.eraseP_append_right _ (by intro b hb; simpa using hl1 b hb)]
  rw [List.eraseP_cons_of_pos (by simpa using he)]

theorem lookup_split (s : Nat) (l : List CommandEntry_t) (e : CommandEntry_t)
    (h : lookup s l = some e) :
    e.sequence_number = s ∧ ∃ l1 l2, l = l1 ++ e :: l2 ∧ ∀ a ∈ l1, a.sequence_number ≠ s := by
  unfold lookup at h
  rw [List.find?_eq_some] at h
  obtain ⟨h1, l1, l2, h2, h3⟩ := h
  refine ⟨by simpa using h1, l1, l2, h2, ?_⟩
  intro a ha
  simpa using h3 a ha

theorem lookup_none (s : Nat) (l : List CommandEntry_t) (h : lookup s l = none) :
    ∀ a ∈ l, a.sequence_number ≠ s := by
  unfold lookup at h
  rw [List.find?_eq_none] at h
  intro a ha
  simpa using h a ha

/-! ## Lookup and removal on the registry as a list -/

/-- The lookup finds nothing when the registry holds no entry with the sequence number. -/
theorem find_absent (h : aSmart_Comm_Handler_t) (s : Nat)
    (hc : h.mapping_table_count ≤ 20) (hno : lookup s (registry h) = none) :
    find_command_in_mapping_table h s = .ok none := by
  unfold find_command_in_mapping_table
  apply find_loop_none h s hc _ _ (by omega)
  intro j _ hj
  have hmem : h.mapping_table j ∈ registry h := by
    unfold registry
    exact List.mem_map.mpr ⟨j, List.mem_range.mpr hj, rfl⟩
  exact lookup_none s _ hno _ hmem

/-- The lookup returns the slot of the first entry with the sequence number. -/
theorem find_present (h : aSmart_Comm_Handler_t) (s : Nat) (e : CommandEntry_t)
    (hc : h.mapping_table_count ≤ 20) (he : lookup s (registry h) = some e) :
    ∃ k, k < 20 ∧ h.mapping_table k = e ∧ find_command_in_mapping_table h s = .ok (some k) := by
  obtain ⟨hs, l1, l2, hreg, hl1⟩ := lookup_split s _ e he
  obtain ⟨hk, hke, hfirst⟩ := first_slot h s l1 l2 e hreg hl1
  refine ⟨l1.length, by omega, hke, ?_⟩
  unfold find_command_in_mapping_table
  exact find_loop_some h s l1.length hc hk (by rw [hke]; exact hs) _ _ (by omega) (by omega)
    hfirst

/-- The removal returns; it deletes the first entry with the sequence number from the
registry, the other entries keep their contents and order, and nothing but the
mapping table and its count changes. -/
theorem remove_spec (h : aSmart_Comm_Handler_t) (s : Nat) (hc : h.mapping_table_count ≤ 20) :
    ∃ h', remove_command_from_mapping_table h s = .ok h' ∧
      registry h' = erase_first s (registry h) ∧
      h'.mapping_table_count = (erase_first s (registry h)).length ∧
      h'.sequence_number = h.sequence_number ∧ h'.rx_handler = h.rx_handler ∧
      h'.tx_handler = h.tx_handler ∧ h'.response_callback = h.response_callback ∧
      (lookup s (registry h) = none → h' = h) := by
  cases hl : lookup s (registry h) with
  | none =>
    have hno := lookup_none s _ hl
    have herase : erase_first s (registry h) = registry h := by
      unfold erase_first
      exact List.eraseP_of_forall_not (by intro a ha; simpa using hno a ha)
    refine ⟨h, ?_, herase.symm, by rw [herase, registry_length], rfl, rfl, rfl, rfl,
      fun _ => rfl⟩
    unfold remove_command_from_mapping_table
    apply remove_loop_none h s hc _ _ (by omega)
    intro j _ hj
    have hmem : h.mapping_table j ∈ registry h := by
      unfold registry
      exact List.mem_map.mpr ⟨j, List.mem_range.mpr hj, rfl⟩
    exact hno _ hmem
  | some e =>
    obtain ⟨hs, l1, l2, hreg, hl1⟩ := lookup_split s _ e hl
    obtain ⟨hk, hke, hfirst⟩ := first_slot h s l1 l2 e hreg hl1
    have hsh := registry_shifted h l1 l2 e hreg
    have herase : erase_first s (registry h) = l1 ++ l2 := by
      rw [hreg]; exact erase_first_split s l1 l2 e hl1 hs
    refine ⟨{ h with
        mapping_table := shifted h.mapping_table_count l1.length h.mapping_table
        mapping_table_count := h.mapping_table_count - 1 }, ?_, ?_, ?_, rfl, rfl, rfl, rfl, ?_⟩
    · unfold remove_command_from_mapping_table
      exact remove_loop_some h s l1.length hc hk (by rw [hke]; exact hs) _ _ (by omega)
        (by omega) hfirst
    · rw [hsh, herase]
    · rw [herase, ← hsh, registry_length]
    · intro hcontra
      simp at hcontra

/-- With pairwise distinct sequence numbers, no entry with the sequence number is left
after the first one is erased. -/
theorem lookup_erase_first (s : Nat) (l : List CommandEntry_t)
    (hnd : (l.map CommandEntry_t.sequence_number).Nodup) :
    lookup s (erase_first s l) = none := by
  cases hl : lookup s l with
  | none =>
    have hno := lookup_none s _ hl
    have herase : erase_first s l = l := by
      unfold erase_first
      exact List.eraseP_of_forall_not (by intro a ha; simpa using hno a ha)
    rw [herase, hl]
  | some e =>
    obtain ⟨hs, l1, l2, hreg, hl1⟩ := lookup_split s _ e hl
    rw [hreg, erase_first_split s l1 l2 e hl1 hs]
    unfold lookup
    rw [List.find?_eq_none]
    intro x hx
    rw [hreg, List.map_append, List.map_cons, List.nodup_append] at hnd
    obtain ⟨_, h2, _⟩ := hnd
    rw [List.nodup_cons] at h2
    rcases List.mem_append.mp hx with hx1 | hx2
    · simpa using hl1 x hx1
    · intro hp
      have hxs : x.sequence_number = s := by simpa using hp
      apply h2.1
      rw [hs, ← hxs]
      exact List.mem_map.mpr ⟨x, hx2, rfl⟩

/-! ## Frames on the link -/

theorem receive_index (h : aSmart_Comm_Handler_t) (run : List Nat) :
    (receive h run).rx_handler.rxd_index = run.length := rfl

theorem receive_byte (h : aSmart_Comm_Handler_t) (run : List Nat) (i : Nat)
    (hi : i < run.length) : (receive h run).rx_handler.rxd_buffer i = run.getD i 0 := by
  show (if i < run.length then run.getD i 0 else h.rx_handler.rxd_buffer i) = run.getD i 0
  rw [if_pos hi]

/-- A receive buffer that holds a frame of the layout passes the three checks of the
parser, and its fields are those the frame was made from. -/
theorem layout_checks (crc16 : List Nat → Nat) (old : Nat → Nat) (mt sn ct : Nat)
    (p : List Nat) (st : aSmart_Comm_Handler_t) (hp : p.length ≤ 502) (hsn : sn < 65536)
    (hidx : st.rx_handler.rxd_index = p.length + 10)
    (hbuf : ∀ i, i < p.length + 10 →
      st.rx_handler.rxd_buffer i = frame_layout crc16 old mt sn ct p i) :
    markers_ok st ∧ length_ok st ∧ crc_ok crc16 st ∧ wire_msg_type st = mt ∧
      wire_cmd_type st = ct ∧ wire_seq_num st = sn ∧ wire_payload st = p := by
  obtain ⟨f0, f1, f2, f3, f4, f5, f6, fp, fc1, fc2, fe, fb⟩ :=
    frame_layout_fields crc16 old mt sn ct p
  have hlenval : be16 (st.rx_handler.rxd_buffer 1) (st.rx_handler.rxd_buffer 2)
      = 6 + p.length := by
    rw [hbuf 1 (by omega), hbuf 2 (by omega), f1, f2]
    exact be16_split _ (by omega)
  refine ⟨⟨?_, ?_⟩, ?_, ?_, ?_, ?_, ?_, ?_⟩
  · unfold rx_byte; rw [hbuf 0 (by omega), f0]
  · unfold rx_byte
    rw [hidx, hbuf _ (by omega)]
    have : p.length + 10 - 1 = 9 + p.length := by omega
    rw [this, fe]
  · unfold length_ok rx_byte
    rw [hlenval, hidx]; omega
  · unfold crc_ok rx_byte
    rw [hidx]
    have e3 : p.length + 10 - 3 = 7 + p.length := by omega
    have e2 : p.length + 10 - 2 = 8 + p.length := by omega
    have e4 : p.length + 10 - 4 = 6 + p.length := by omega
    rw [e3, e2, e4, hbuf _ (by omega), hbuf _ (by omega), fc1, fc2]
    have hdata : slice st.rx_handler.rxd_buffer 1 (6 + p.length)
        = slice (frame_body mt sn ct p) 1 (6 + p.length) := by
      apply slice_congr
      intro k hk
      rw [hbuf _ (by omega), fb k hk]
    rw [hdata]
    have hc : frame_crc crc16 mt sn ct p < 65536 := by
      unfold frame_crc; exact Nat.mod_lt _ (by norm_num)
    rw [be16_split _ hc]
    rfl
  · unfold wire_msg_type rx_byte; rw [hbuf 5 (by omega), f5]
  · unfold wire_cmd_type rx_byte; rw [hbuf 6 (by omega), f6]
  · unfold wire_seq_num rx_byte
    rw [hbuf 3 (by omega), hbuf 4 (by omega), f3, f4]
    exact seq_join sn hsn
  · unfold wire_payload
    rw [hidx]
    have : p.length + 10 - 10 = p.length := by omega
    rw [this]
    apply slice_eq_of_getD
    intro k hk
    rw [hbuf _ (by omega), fp k hk]

/-- The receive buffer after the capture of an assembled frame holds the layout. -/
theorem receive_layout (crc16 : List Nat → Nat) (tx rx : aSmart_Comm_Handler_t)
    (mt sn ct : Nat) (p : List Nat) :
    let sent : aSmart_Comm_Handler_t := { tx with
      tx_handler := ⟨frame_layout crc16 tx.tx_handler.txd_buffer mt sn ct p, p.length + 10⟩ }
    (receive rx (transmitted sent)).rx_handler.rxd_index = p.length + 10 ∧
      ∀ i, i < p.length + 10 →
        (receive rx (transmitted sent)).rx_handler.rxd_buffer i
          = frame_layout crc16 tx.tx_handler.txd_buffer mt sn ct p i := by
  intro sent
  have hlen : (transmitted sent).length = p.length + 10 := slice_length _ _ _
  refine ⟨by rw [receive_index, hlen], ?_⟩
  intro i hi
  rw [receive_byte _ _ _ (by omega)]
  unfold transmitted
  rw [slice_getD _ _ _ _ hi, Nat.zero_add]

/-! ## The dispatch -/

theorem dispatch_command (h : aSmart_Comm_Handler_t) (ct sn : Nat) (p : List Nat) (n : Nat) :
    dispatch_message h MSG_TYPE_COMMAND ct sn p n
      = .ok (h, invoke h ⟨MSG_TYPE_COMMAND, ct, sn, some p, n⟩) := by
  unfold dispatch_message
  rw [if_neg (by decide), if_pos rfl]
  rfl

theorem dispatch_notification (h : aSmart_Comm_Handler_t) (ct sn : Nat) (p : List Nat)
    (n : Nat) :
    dispatch_message h MSG_TYPE_NOTIFICATION ct sn p n
      = .ok (h, invoke h ⟨MSG_TYPE_NOTIFICATION, ct, sn, some p, n⟩) := by
  unfold dispatch_message
  rw [if_neg (by decide), if_neg (by decide), if_pos (Or.inl rfl),
    if_neg (by intro hc; exact absurd hc.1 (by decide))]
  rfl

theorem dispatch_error (h : aSmart_Comm_Handler_t) (ct sn : Nat) (p : List Nat) (n : Nat) :
    dispatch_message h MSG_TYPE_ERROR ct sn p n
      = if sn ≠ 0 then
          (remove_command_from_mapping_table h sn).map
            (fun h' => (h', invoke h ⟨MSG_TYPE_ERROR, ct, sn, some p, n⟩))
        else .ok (h, invoke h ⟨MSG_TYPE_ERROR, ct, sn, some p, n⟩) := by
  unfold dispatch_message
  rw [if_neg (by decide), if_neg (by decide), if_pos (Or.inr rfl)]
  by_cases c : sn ≠ 0
  · rw [if_pos ⟨rfl, c⟩, if_pos c]
    cases remove_command_from_mapping_table h sn <;> rfl
  · rw [if_neg (by intro hc; exact c hc.2), if_neg c]
    rfl

theorem dispatch_response (h : aSmart_Comm_Handler_t) (ct sn : Nat) (p : List Nat) (n : Nat) :
    dispatch_message h MSG_TYPE_RESPONSE ct sn p n
      = (find_command_in_mapping_table h sn >>= fun found =>
          match found with
          | some i =>
            table_read h.mapping_table i >>= fun entry =>
              remove_command_from_mapping_table h sn >>= fun h' =>
                pure (h', invoke h ⟨MSG_TYPE_RESPONSE, entry.command_type, sn, some p, n⟩)
          | none => pure (h, [])) := by
  unfold dispatch_message
  exact if_pos rfl

theorem dispatch_unknown (h : aSmart_Comm_Handler_t) (mt ct sn : Nat) (p : List Nat) (n : Nat)
    (h1 : mt ≠ MSG_TYPE_COMMAND) (h2 : mt ≠ MSG_TYPE_RESPONSE)
    (h3 : mt ≠ MSG_TYPE_NOTIFICATION) (h4 : mt ≠ MSG_TYPE_ERROR) :
    dispatch_message h mt ct sn p n = .ok (h, []) := by
  unfold dispatch_message
  rw [if_neg h2, if_neg h1, if_neg (by intro hc; rcases hc with hc | hc <;> contradiction)]
  rfl

theorem invoke_registered (h : aSmart_Comm_Handler_t) (c : CallbackCall)
    (hcb : h.response_callback = true) : invoke h c = [c] := by
  unfold invoke
  rw [if_pos hcb]

/-! ## C1: round trip -/

/-- C1, as stated, fails: a COMMAND frame with a payload of 300 bytes (within the 502
bytes the transmit buffer allows) is assembled, 310 bytes in all, and parsing the
captured frame ends in a write past the 256-byte staging array instead of a callback. -/
theorem roundtrip_fails_above_staging :
    (assemble_message sample_crc16 idle_handler MSG_TYPE_COMMAND 1 0x10
        (List.replicate 300 0xAA)).map (fun sent => sent.tx_handler.txd_length)
      = .ok 310 ∧
    (assemble_message sample_crc16 idle_handler MSG_TYPE_COMMAND 1 0x10
        (List.replicate 300 0xAA) >>= fun sent =>
      process_received_message sample_crc16 (receive idle_handler (transmitted sent)))
      = .error (.payload_index 256) := by
  have hp : (List.replicate 300 0xAA).length ≤ 502 := by
    rw [List.length_replicate]; decide
  have hlen : (List.replicate 300 0xAA).length = 300 := List.length_replicate _ _
  rw [assemble_message_eq _ _ _ _ _ _ hp]
  refine ⟨?_, ?_⟩
  · show Except.ok ((List.replicate 300 0xAA).length + 10) = _
    rw [hlen]
  · rw [ok_bind]
    obtain ⟨hidx, hbuf⟩ := receive_layout sample_crc16 idle_handler idle_handler
      MSG_TYPE_COMMAND 1 0x10 (List.replicate 300 0xAA)
    obtain ⟨hm, hl, _⟩ := layout_checks sample_crc16 _ MSG_TYPE_COMMAND 1 0x10 _ _ hp
      (by decide) hidx hbuf
    exact process_overrun _ _ (by rw [hidx, hlen]; decide) hm hl
      (Or.inr (by rw [hidx, hlen]; decide))

/-- C1, amended: round trip within the staging capacity. For every kind in {COMMAND,
NOTIFICATION, ERROR}, every 16-bit sequence number, every code and every payload of
length n ≤ 255, `assemble_message` returns with `txd_length = n + 10`, and when the
frame it produced is captured by a handler with a registered callback (and a registry
within its 20 slots), `process_received_message` returns and invokes the callback
exactly once, with (kind, code, sequence number, the payload, n). -/
theorem roundtrip_within_staging (crc16 : List Nat → Nat) (tx rx : aSmart_Comm_Handler_t)
    (kind seq code : Nat) (payload : List Nat)
    (hkind : kind = MSG_TYPE_COMMAND ∨ kind = MSG_TYPE_NOTIFICATION ∨ kind = MSG_TYPE_ERROR)
    (hseq : seq < 65536) (hlen : payload.length ≤ 255)
    (hcb : rx.response_callback = true)
    (hcount : rx.mapping_table_count ≤ MAPPING_TABLE_SIZE) :
    ∃ sent rx', assemble_message crc16 tx kind seq code payload = .ok sent ∧
      sent.tx_handler.txd_length = payload.length + 10 ∧
      process_received_message crc16 (receive rx (transmitted sent))
        = .ok (rx', [⟨kind, code, seq, some payload, payload.length⟩]) := by
  have hp : payload.length ≤ 502 := by omega
  obtain ⟨hidx, hbuf⟩ := receive_layout crc16 tx rx kind seq code payload
  obtain ⟨hm, hl, hc, hmt, hct, hsn, hpl⟩ :=
    layout_checks crc16 _ kind seq code payload _ hp hseq hidx hbuf
  have hv : valid_frame crc16 (receive rx (transmitted { tx with
      tx_handler := ⟨frame_layout crc16 tx.tx_handler.txd_buffer kind seq code payload,
        payload.length + 10⟩ })) :=
    ⟨by rw [hidx]; omega, by rw [hidx]; omega, hm, hl, hc⟩
  have hproc := process_valid crc16 _ hv
  rw [hmt, hct, hsn, hpl, hidx, Nat.add_sub_cancel] at hproc
  have hcb' : (receive rx (transmitted { tx with
      tx_handler := ⟨frame_layout crc16 tx.tx_handler.txd_buffer kind seq code payload,
        payload.length + 10⟩ })).response_callback = true := hcb
  have hex : ∃ rx', process_received_message crc16 (receive rx (transmitted { tx with
      tx_handler := ⟨frame_layout crc16 tx.tx_handler.txd_buffer kind seq code payload,
        payload.length + 10⟩ }))
      = .ok (rx', [⟨kind, code, seq, some payload, payload.length⟩]) := by
    rcases hkind with hk | hk | hk
    · subst hk
      rw [dispatch_command, invoke_registered _ _ hcb'] at hproc
      exact ⟨_, hproc⟩
    · subst hk
      rw [dispatch_notification, invoke_registered _ _ hcb'] at hproc
      exact ⟨_, hproc⟩
    · subst hk
      rw [dispatch_error, invoke_registered _ _ hcb'] at hproc
      by_cases hz : seq ≠ 0
      · rw [if_pos hz] at hproc
        obtain ⟨h', hrem, _⟩ := remove_spec (receive rx (transmitted { tx with
          tx_handler := ⟨frame_layout crc16 tx.tx_handler.txd_buffer MSG_TYPE_ERROR seq code
            payload, payload.length + 10⟩ })) seq hcount
        rw [hrem] at hproc
        exact ⟨h', hproc⟩
      · rw [if_neg hz] at hproc
        exact ⟨_, hproc⟩
  obtain ⟨rx', hrx⟩ := hex
  exact ⟨_, rx', assemble_message_eq crc16 tx kind seq code payload hp, rfl, hrx⟩

/-- Witness of the round trip: the command of `main.c`, code 0x10 with
payload AA DD CC BB and sequence number 1, sent and received by idle handlers. -/
theorem roundtrip_within_staging_witness :
    (MSG_TYPE_COMMAND = MSG_TYPE_COMMAND ∨ MSG_TYPE_COMMAND = MSG_TYPE_NOTIFICATION ∨
        MSG_TYPE_COMMAND = MSG_TYPE_ERROR) ∧
      1 < 65536 ∧ [0xAA, 0xDD, 0xCC, 0xBB].length ≤ 255 ∧
      idle_handler.response_callback = true ∧
      idle_handler.mapping_table_count ≤ MAPPING_TABLE_SIZE ∧
      ∃ sent rx', assemble_message sample_crc16 idle_handler MSG_TYPE_COMMAND 1 0x10
            [0xAA, 0xDD, 0xCC, 0xBB] = .ok sent ∧
        sent.tx_handler.txd_length = 14 ∧
        process_received_message sample_crc16 (receive idle_handler (transmitted sent))
          = .ok (rx', [⟨MSG_TYPE_COMMAND, 0x10, 1, some [0xAA, 0xDD, 0xCC, 0xBB], 4⟩]) :=
  ⟨by decide, by decide, by decide, rfl, by decide,
    roundtrip_within_staging sample_crc16 idle_handler idle_handler MSG_TYPE_COMMAND 1 0x10
      [0xAA, 0xDD, 0xCC, 0xBB] (by decide) (by decide) (by decide) rfl (by decide)⟩

/-! ## C2: frame layout -/

/-- C2: frame layout. For every kind, sequence number, code and payload of length n
that fits the transmit buffer (n + 10 ≤ 512), `assemble_message` returns with
`txd_length = n + 10`, byte 0 = STX, bytes 1..2 = 6 + n big-endian, bytes 3..4 = the
sequence number big-endian, byte 5 = kind, byte 6 = code, bytes 7..7+n-1 = the payload,
bytes 7+n..8+n = big-endian `crc16` (as a `uint16_t`) of the 6+n bytes from byte 1 on,
and byte 9+n = ETX. -/
theorem assemble_frame_layout (crc16 : List Nat → Nat) (h : aSmart_Comm_Handler_t)
    (kind seq code : Nat) (payload : List Nat)
    (hfit : payload.length + 10 ≤ TRANSMIT_BUFFER_SIZE) :
    ∃ sent, assemble_message crc16 h kind seq code payload = .ok sent ∧
      sent.tx_handler.txd_length = payload.length + 10 ∧
      sent.tx_handler.txd_buffer 0 = STX ∧
      sent.tx_handler.txd_buffer 1 = (6 + payload.length) / 256 ∧
      sent.tx_handler.txd_buffer 2 = (6 + payload.length) % 256 ∧
      sent.tx_handler.txd_buffer 3 = seq / 256 % 256 ∧
      sent.tx_handler.txd_buffer 4 = seq % 256 ∧
      sent.tx_handler.txd_buffer 5 = kind ∧
      sent.tx_handler.txd_buffer 6 = code ∧
      slice sent.tx_handler.txd_buffer 7 payload.length = payload ∧
      sent.tx_handler.txd_buffer (7 + payload.length)
        = crc16 (slice sent.tx_handler.txd_buffer 1 (6 + payload.length)) % 65536 / 256 ∧
      sent.tx_handler.txd_buffer (8 + payload.length)
        = crc16 (slice sent.tx_handler.txd_buffer 1 (6 + payload.length)) % 65536 % 256 ∧
      sent.tx_handler.txd_buffer (9 + payload.length) = ETX := by
  unfold TRANSMIT_BUFFER_SIZE at hfit
  have hp : payload.length ≤ 502 := by omega
  obtain ⟨f0, f1, f2, f3, f4, f5, f6, fp, fc1, fc2, fe, fb⟩ :=
    frame_layout_fields crc16 h.tx_handler.txd_buffer kind seq code payload
  have hdata : slice (frame_layout crc16 h.tx_handler.txd_buffer kind seq code payload) 1
      (6 + payload.length) = slice (frame_body kind seq code payload) 1 (6 + payload.length) :=
    slice_congr _ _ _ _ fb
  refine ⟨_, assemble_message_eq crc16 h kind seq code payload hp, rfl, f0, ?_, f2, f3, f4,
    f5, f6, slice_eq_of_getD _ _ _ fp, ?_, ?_, fe⟩
  · show frame_layout crc16 h.tx_handler.txd_buffer kind seq code payload 1 = _
    rw [f1]; omega
  · show frame_layout crc16 h.tx_handler.txd_buffer kind seq code payload _ =
      crc16 (slice (frame_layout crc16 h.tx_handler.txd_buffer kind seq code payload) 1 _)
        % 65536 / 256
    rw [fc1, hdata]
    unfold frame_crc
    omega
  · show frame_layout crc16 h.tx_handler.txd_buffer kind seq code payload _ =
      crc16 (slice (frame_layout crc16 h.tx_handler.txd_buffer kind seq code payload) 1 _)
        % 65536 % 256
    rw [fc2, hdata]
    rfl

/-- Witness of the frame layout, the scenario of the specification: the command
with code 0x10 and payload AA DD CC BB has length field 10 (bytes 00 0A), total size 14,
and its payload in bytes 7..10, the 4 bytes before the checksum at bytes 11..12. -/
theorem assemble_frame_layout_witness :
    [0xAA, 0xDD, 0xCC, 0xBB].length + 10 ≤ TRANSMIT_BUFFER_SIZE ∧
    ∃ sent, assemble_message sample_crc16 idle_handler MSG_TYPE_COMMAND 1
        COMMAND_TYPE_BEGIN_TRANSACTION [0xAA, 0xDD, 0xCC, 0xBB] = .ok sent ∧
      sent.tx_handler.txd_length = 14 ∧
      sent.tx_handler.txd_buffer 0 = 0x02 ∧
      sent.tx_handler.txd_buffer 1 = 0 ∧
      sent.tx_handler.txd_buffer 2 = 10 ∧
      sent.tx_handler.txd_buffer 3 = 0 ∧
      sent.tx_handler.txd_buffer 4 = 1 ∧
      sent.tx_handler.txd_buffer 5 = MSG_TYPE_COMMAND ∧
      sent.tx_handler.txd_buffer 6 = 0x10 ∧
      slice sent.tx_handler.txd_buffer 7 4 = [0xAA, 0xDD, 0xCC, 0xBB] ∧
      sent.tx_handler.txd_buffer 11
        = sample_crc16 (slice sent.tx_handler.txd_buffer 1 10) % 65536 / 256 ∧
      sent.tx_handler.txd_buffer 12
        = sample_crc16 (slice sent.tx_handler.txd_buffer 1 10) % 65536 % 256 ∧
      sent.tx_handler.txd_buffer 13 = 0x03 :=
  ⟨by decide, assemble_frame_layout sample_crc16 idle_handler MSG_TYPE_COMMAND 1
    COMMAND_TYPE_BEGIN_TRANSACTION [0xAA, 0xDD, 0xCC, 0xBB] (by decide)⟩

/-! ## C3: assembler size limit -/

/-- C3 fails on the code: `assemble_message` has no size check and no failure result.
With a payload of 503 bytes (frame of 513 bytes) it writes the ETX byte at index 512,
past the end of `txd_buffer[512]`. -/
theorem assemble_overruns_transmit_buffer (crc16 : List Nat → Nat)
    (h : aSmart_Comm_Handler_t) (kind seq code : Nat) :
    assemble_message crc16 h kind seq code (List.replicate 503 0)
      = .error (.txd_buffer_index 512) :=
  assemble_message_overrun crc16 h kind seq code _
    (by rw [List.length_replicate]; decide)

/-! ## C4: parser staging bound -/

theorem receive_markers (h : aSmart_Comm_Handler_t) (run : List Nat)
    (h0 : run.getD 0 0 = STX) (h1 : run.getD (run.length - 1) 0 = ETX) (hl : 0 < run.length) :
    markers_ok (receive h run) := by
  unfold markers_ok rx_byte
  rw [receive_index, receive_byte _ _ _ hl, receive_byte _ _ _ (by omega)]
  exact ⟨h0, h1⟩

theorem receive_length (h : aSmart_Comm_Handler_t) (run : List Nat)
    (hd : (be16 (run.getD 1 0) (run.getD 2 0) : Int) = (run.length : Int) - 4) :
    length_ok (receive h run) := by
  unfold length_ok rx_byte
  rw [receive_index, receive_byte _ _ _ (by omega), receive_byte _ _ _ (by omega)]
  exact hd

theorem oversize_run_length : oversize_run.length = 267 := by
  unfold oversize_run
  rw [List.length_append, List.length_append, List.length_replicate]
  rfl

theorem bad_crc_run_length : bad_crc_run.length = 512 := by
  unfold bad_crc_run
  rw [List.length_append, List.length_append, List.length_replicate]
  rfl

/-- C4 fails on the code: the parser copies the payload into `payload[256]` without a
bounds check. On a run of 267 bytes that passes the marker and length checks (declared
length 263, payload length 257) the copy writes at staging index 256, past the array;
the frame is not rejected before the copy. -/
theorem parser_overruns_staging (crc16 : List Nat → Nat) (h : aSmart_Comm_Handler_t) :
    markers_ok (receive h oversize_run) ∧ length_ok (receive h oversize_run) ∧
      process_received_message crc16 (receive h oversize_run)
        = .error (.payload_index 256) := by
  have hm : markers_ok (receive h oversize_run) :=
    receive_markers h oversize_run (by decide) (by rw [oversize_run_length]; decide)
      (by rw [oversize_run_length]; decide)
  have hl : length_ok (receive h oversize_run) :=
    receive_length h oversize_run (by rw [oversize_run_length]; decide)
  refine ⟨hm, hl, process_overrun crc16 _ ?_ hm hl (Or.inr ?_)⟩
  · rw [receive_index, oversize_run_length]; decide
  · rw [receive_index, oversize_run_length]; decide

/-! ## C5: malformed frames -/

/-- C5: malformed-frame rejection. For every captured run of length L with
1 ≤ L ≤ 512 (the receive buffer) in which byte 0 is not STX, or byte L-1 is not ETX,
or the big-endian value of bytes 1..2 differs from L - 4, `process_received_message`
returns, invokes no callback and leaves the handler (registry entries and count,
sequence counter, and every other field) unchanged. -/
theorem malformed_frame_rejected (crc16 : List Nat → Nat) (h : aSmart_Comm_Handler_t)
    (hL1 : 1 ≤ h.rx_handler.rxd_index)
    (hL2 : h.rx_handler.rxd_index ≤ RECEIVE_BUFFER_SIZE)
    (hbad : rx_byte h 0 ≠ STX ∨ rx_byte h (h.rx_handler.rxd_index - 1) ≠ ETX ∨
      (be16 (rx_byte h 1) (rx_byte h 2) : Int) ≠ (h.rx_handler.rxd_index : Int) - 4) :
    process_received_message crc16 h = .ok (h, []) := by
  unfold RECEIVE_BUFFER_SIZE at hL2
  unfold rx_byte at hbad
  unfold process_received_message
  have r0 := rx_read_nat h.rx_handler.rxd_buffer 0 (by omega)
  have r1 := rx_read_nat h.rx_handler.rxd_buffer 1 (by omega)
  have r2 := rx_read_nat h.rx_handler.rxd_buffer 2 (by omega)
  have s1 := rx_read_sub h.rx_handler.rxd_buffer h.rx_handler.rxd_index 1 (by omega) (by omega)
  simp only [Nat.cast_ofNat, Nat.cast_zero, Nat.cast_one] at r0 r1 r2 s1
  simp only [r0, r1, r2, s1]
  rw [ok_bind]
  by_cases c0 : h.rx_handler.rxd_buffer 0 = STX
  · rw [if_neg (not_not.mpr c0), ok_bind]
    by_cases c1 : h.rx_handler.rxd_buffer (h.rx_handler.rxd_index - 1) = ETX
    · rw [if_neg (not_not.mpr c1), ok_bind, ok_bind]
      have c2 : (be16 (h.rx_handler.rxd_buffer 1) (h.rx_handler.rxd_buffer 2) : Int)
          ≠ (h.rx_handler.rxd_index : Int) - 4 := by
        rcases hbad with hb | hb | hb
        · exact absurd c0 hb
        · exact absurd c1 hb
        · exact hb
      rw [if_pos c2]
      rfl
    · rw [if_pos c1]
      rfl
  · rw [if_pos c0]
    rfl

/-- Witness of the rejection of malformed frames: a run of 12 bytes, well-formed but for its
last byte 04 in the place of ETX, captured by a handler with three pending commands. -/
theorem malformed_frame_rejected_witness :
    1 ≤ (receive pending_handler
        [0x02, 0x00, 0x08, 0x00, 0x07, 0x02, 0x55, 0x01, 0x02, 0x37, 0x82, 0x04]
      ).rx_handler.rxd_index ∧
    (receive pending_handler
        [0x02, 0x00, 0x08, 0x00, 0x07, 0x02, 0x55, 0x01, 0x02, 0x37, 0x82, 0x04]
      ).rx_handler.rxd_index ≤ RECEIVE_BUFFER_SIZE ∧
    rx_byte (receive pending_handler
        [0x02, 0x00, 0x08, 0x00, 0x07, 0x02, 0x55, 0x01, 0x02, 0x37, 0x82, 0x04]) 11 ≠ ETX ∧
    process_received_message sample_crc16 (receive pending_handler
        [0x02, 0x00, 0x08, 0x00, 0x07, 0x02, 0x55, 0x01, 0x02, 0x37, 0x82, 0x04])
      = .ok (receive pending_handler
        [0x02, 0x00, 0x08, 0x00, 0x07, 0x02, 0x55, 0x01, 0x02, 0x37, 0x82, 0x04], []) :=
  ⟨by decide, by decide, by decide,
    malformed_frame_rejected sample_crc16 _ (by decide) (by decide)
      (Or.inr (Or.inl (by decide)))⟩

/-! ## C6: truncated runs -/

/-- C6 fails on the code: there is no check of a minimum length. The run of 4 bytes
02 00 00 03 passes the marker check and the length check (declared length 0 = 4 - 4);
the payload length `0 - 6` wraps to 65530 as a `uint16_t`, and the copy of 65530 bytes
writes past the 256-byte staging array. -/
theorem truncated_run_overruns_staging (crc16 : List Nat → Nat)
    (h : aSmart_Comm_Handler_t) :
    markers_ok (receive h short_run) ∧ length_ok (receive h short_run) ∧
      (be16 (short_run.getD 1 0) (short_run.getD 2 0) + 65536 - 6) % 65536 = 65530 ∧
      process_received_message crc16 (receive h short_run)
        = .error (.payload_index 256) := by
  have hm : markers_ok (receive h short_run) :=
    receive_markers h short_run (by decide) (by decide) (by decide)
  have hl : length_ok (receive h short_run) := receive_length h short_run (by decide)
  refine ⟨hm, hl, by decide, process_overrun crc16 _ ?_ hm hl (Or.inl ?_)⟩
  · rw [receive_index]; decide
  · rw [receive_index]; decide

/-! ## C7: checksum rejection -/

set_option maxRecDepth 100000 in
/-- The last byte of `bad_crc_run` is ETX. -/
theorem bad_crc_run_last : bad_crc_run.getD (512 - 1) 0 = ETX := by
  decide

set_option maxRecDepth 100000 in
/-- The checksum bytes 00 00 of `bad_crc_run` are not the checksum of its bytes 1..508. -/
theorem bad_crc_run_mismatch : ¬ crc_ok sample_crc16 (receive idle_handler bad_crc_run) := by
  decide

/-- C7 fails on the code: the payload is copied before the checksum is verified, and
without a bounds check. The run of 512 bytes `bad_crc_run`, a frame with a payload of
502 bytes as `assemble_message` can produce it, passes the marker and length checks and
carries a wrong checksum (00 00 against `sample_crc16` of bytes 1..508); the parser
does not reach the CRC comparison: the copy of the payload writes past the 256-byte
staging array. -/
theorem bad_crc_frame_overruns_staging (h : aSmart_Comm_Handler_t) :
    markers_ok (receive h bad_crc_run) ∧ length_ok (receive h bad_crc_run) ∧
      ¬ crc_ok sample_crc16 (receive idle_handler bad_crc_run) ∧
      process_received_message sample_crc16 (receive h bad_crc_run)
        = .error (.payload_index 256) := by
  have hm : markers_ok (receive h bad_crc_run) :=
    receive_markers h bad_crc_run (by decide) (by rw [bad_crc_run_length]; exact bad_crc_run_last)
      (by rw [bad_crc_run_length]; decide)
  have hl : length_ok (receive h bad_crc_run) :=
    receive_length h bad_crc_run (by rw [bad_crc_run_length]; decide)
  refine ⟨hm, hl, bad_crc_run_mismatch, process_overrun sample_crc16 _ ?_ hm hl (Or.inr ?_)⟩
  · rw [receive_index, bad_crc_run_length]
  · rw [receive_index, bad_crc_run_length]; decide

/-! ## C8: response correlation -/

/-- C8, amended: response correlation in a registry with pairwise distinct sequence
numbers. For every valid RESPONSE frame (a run of 10 to 265 bytes
that passes the marker, length and checksum checks) whose sequence number s is present
in the registry, in a handler with a registered callback and a registry within its 20
slots, `process_received_message` returns and invokes the callback exactly once, with
kind RESPONSE, the command type recorded in the registry entry for s (the first one by
table order; not the code byte of the wire), s, and the payload and payload length of
the frame; afterwards that entry is removed, the count is one less and all other
entries remain in their original relative order; when the sequence numbers of the
registry are pairwise distinct, s is no longer found (a second entry for s would
stay). -/
theorem response_correlated (crc16 : List Nat → Nat) (h : aSmart_Comm_Handler_t)
    (e : CommandEntry_t)
    (hv : valid_frame crc16 h) (hk : wire_msg_type h = MSG_TYPE_RESPONSE)
    (hcb : h.response_callback = true)
    (hcount : h.mapping_table_count ≤ MAPPING_TABLE_SIZE)
    (he : lookup (wire_seq_num h) (registry h) = some e) :
    ∃ h', process_received_message crc16 h
        = .ok (h', [⟨MSG_TYPE_RESPONSE, e.command_type, wire_seq_num h,
            some (wire_payload h), h.rx_handler.rxd_index - 10⟩]) ∧
      registry h' = erase_first (wire_seq_num h) (registry h) ∧
      h'.mapping_table_count + 1 = h.mapping_table_count ∧
      h'.sequence_number = h.sequence_number ∧
      (((registry h).map CommandEntry_t.sequence_number).Nodup →
        lookup (wire_seq_num h) (registry h') = none) := by
  have hproc := process_valid crc16 h hv
  rw [hk, dispatch_response] at hproc
  obtain ⟨k, hk20, hke, hfind⟩ := find_present h _ e hcount he
  obtain ⟨h', hrem, hreg, hcnt, hseq, _⟩ := remove_spec h (wire_seq_num h) hcount
  rw [hfind, ok_bind] at hproc
  simp only [] at hproc
  rw [table_read_ok _ _ hk20, ok_bind, hrem, ok_bind, hke, invoke_registered _ _ hcb] at hproc
  refine ⟨h', hproc, hreg, ?_, hseq, ?_⟩
  · obtain ⟨hs, l1, l2, hsplit, hl1⟩ := lookup_split _ _ e he
    rw [hcnt, hsplit, erase_first_split _ l1 l2 e hl1 hs, ← registry_length h, hsplit]
    simp only [List.length_append, List.length_cons]
    omega
  · intro hnd
    rw [hreg]
    exact lookup_erase_first _ _ hnd

/-- Witness of the response correlation: a response with sequence number 7, code byte
0x55 and payload 01 02, captured while commands 5, 7 and 9 are pending; the callback
gets the recorded command type 0x11 and entries 5 and 9 remain. -/
theorem response_correlated_witness :
    valid_frame sample_crc16 (receive pending_handler
        [0x02, 0x00, 0x08, 0x00, 0x07, 0x02, 0x55, 0x01, 0x02, 0x37, 0x82, 0x03]) ∧
    wire_msg_type (receive pending_handler
        [0x02, 0x00, 0x08, 0x00, 0x07, 0x02, 0x55, 0x01, 0x02, 0x37, 0x82, 0x03])
      = MSG_TYPE_RESPONSE ∧
    pending_handler.response_callback = true ∧
    pending_handler.mapping_table_count ≤ MAPPING_TABLE_SIZE ∧
    lookup 7 (registry pending_handler) = some ⟨7, 0x11, 50⟩ ∧
    ((registry pending_handler).map CommandEntry_t.sequence_number).Nodup ∧
    ∃ h', process_received_message sample_crc16 (receive pending_handler
          [0x02, 0x00, 0x08, 0x00, 0x07, 0x02, 0x55, 0x01, 0x02, 0x37, 0x82, 0x03])
        = .ok (h', [⟨MSG_TYPE_RESPONSE, 0x11, 7, some [0x01, 0x02], 2⟩]) ∧
      registry h' = [⟨5, 0x10, 10⟩, ⟨9, 0x12, 100⟩] ∧
      h'.mapping_table_count + 1 = 3 ∧
      h'.sequence_number = 0 ∧
      lookup 7 (registry h') = none := by
  obtain ⟨h', h1, h2, h3, h4, h5⟩ :=
    response_correlated sample_crc16 (receive pending_handler
        [0x02, 0x00, 0x08, 0x00, 0x07, 0x02, 0x55, 0x01, 0x02, 0x37, 0x82, 0x03])
      ⟨7, 0x11, 50⟩ (by decide) (by decide) rfl (by decide) (by decide)
  exact ⟨by decide, by decide, rfl, by decide, by decide, by decide,
    h', h1, h2, h3, h4, h5 (by decide)⟩

/-! ## C9: unmatched response -/

/-- C9: unmatched response. For every valid RESPONSE frame (a run of 10 to 265 bytes
that passes the marker, length and checksum checks) whose sequence number is not
present in the registry (within its 20 slots), `process_received_message` returns and
takes no action: no callback is invoked and the handler (registry entries, registry
count, sequence counter and every other field) is unchanged. -/
theorem unmatched_response_ignored (crc16 : List Nat → Nat) (h : aSmart_Comm_Handler_t)
    (hv : valid_frame crc16 h) (hk : wire_msg_type h = MSG_TYPE_RESPONSE)
    (hcount : h.mapping_table_count ≤ MAPPING_TABLE_SIZE)
    (hno : lookup (wire_seq_num h) (registry h) = none) :
    process_received_message crc16 h = .ok (h, []) := by
  have hproc := process_valid crc16 h hv
  rw [hk, dispatch_response, find_absent h _ hcount hno, ok_bind] at hproc
  exact hproc

/-- Witness of the unmatched response: a response with sequence number 8,
captured while commands 5, 7 and 9 are pending. -/
theorem unmatched_response_ignored_witness :
    valid_frame sample_crc16 (receive pending_handler
        [0x02, 0x00, 0x08, 0x00, 0x08, 0x02, 0x55, 0x01, 0x02, 0x4F, 0x03, 0x03]) ∧
    wire_msg_type (receive pending_handler
        [0x02, 0x00, 0x08, 0x00, 0x08, 0x02, 0x55, 0x01, 0x02, 0x4F, 0x03, 0x03])
      = MSG_TYPE_RESPONSE ∧
    pending_handler.mapping_table_count ≤ MAPPING_TABLE_SIZE ∧
    lookup 8 (registry pending_handler) = none ∧
    process_received_message sample_crc16 (receive pending_handler
        [0x02, 0x00, 0x08, 0x00, 0x08, 0x02, 0x55, 0x01, 0x02, 0x4F, 0x03, 0x03])
      = .ok (receive pending_handler
        [0x02, 0x00, 0x08, 0x00, 0x08, 0x02, 0x55, 0x01, 0x02, 0x4F, 0x03, 0x03], []) :=
  ⟨by decide, by decide, by decide, by decide,
    unmatched_response_ignored sample_crc16 _ (by decide) (by decide) (by decide)
      (by decide)⟩

/-! ## C10: an error closes a pending command -/

/-- C10: an error closes a pending command. For every valid ERROR frame (a run of 10 to
265 bytes that passes the marker, length and checksum checks) with sequence number s,
in a handler with a registered callback and a registry within its 20 slots,
`process_received_message` returns and invokes the callback exactly once, with kind
ERROR, the code of the wire, s, and the payload and payload length of the frame; if
s ≠ 0 the (first) registry entry with sequence number s is removed when present, the
other entries kept in order, and if s = 0 the handler is left unchanged. The sequence
counter is unchanged in both cases. -/
theorem error_closes_pending (crc16 : List Nat → Nat) (h : aSmart_Comm_Handler_t)
    (hv : valid_frame crc16 h) (hk : wire_msg_type h = MSG_TYPE_ERROR)
    (hcb : h.response_callback = true)
    (hcount : h.mapping_table_count ≤ MAPPING_TABLE_SIZE) :
    ∃ h', process_received_message crc16 h
        = .ok (h', [⟨MSG_TYPE_ERROR, wire_cmd_type h, wire_seq_num h,
            some (wire_payload h), h.rx_handler.rxd_index - 10⟩]) ∧
      (if wire_seq_num h = 0 then h' = h
        else registry h' = erase_first (wire_seq_num h) (registry h)) ∧
      h'.mapping_table_count = (registry h').length ∧
      h'.sequence_number = h.sequence_number := by
  have hproc := process_valid crc16 h hv
  rw [hk, dispatch_error, invoke_registered _ _ hcb] at hproc
  by_cases hz : wire_seq_num h = 0
  · rw [if_neg (not_not.mpr hz)] at hproc
    exact ⟨h, hproc, by rw [if_pos hz], (registry_length h).symm, rfl⟩
  · rw [if_pos hz] at hproc
    obtain ⟨h', hrem, hreg, hcnt, hseq, _⟩ := remove_spec h (wire_seq_num h) hcount
    rw [hrem] at hproc
    exact ⟨h', hproc, by rw [if_neg hz]; exact hreg, by rw [hcnt, hreg], hseq⟩

/-- Witness of the error that closes a pending command: an error with sequence number 7, code 0x33 and
payload 01 02, captured while commands 5, 7 and 9 are pending. -/
theorem error_closes_pending_witness :
    valid_frame sample_crc16 (receive pending_handler
        [0x02, 0x00, 0x08, 0x00, 0x07, 0x04, 0x33, 0x01, 0x02, 0xA0, 0x9E, 0x03]) ∧
    wire_msg_type (receive pending_handler
        [0x02, 0x00, 0x08, 0x00, 0x07, 0x04, 0x33, 0x01, 0x02, 0xA0, 0x9E, 0x03])
      = MSG_TYPE_ERROR ∧
    pending_handler.response_callback = true ∧
    pending_handler.mapping_table_count ≤ MAPPING_TABLE_SIZE ∧
    ∃ h', process_received_message sample_crc16 (receive pending_handler
          [0x02, 0x00, 0x08, 0x00, 0x07, 0x04, 0x33, 0x01, 0x02, 0xA0, 0x9E, 0x03])
        = .ok (h', [⟨MSG_TYPE_ERROR, 0x33, 7, some [0x01, 0x02], 2⟩]) ∧
      registry h' = [⟨5, 0x10, 10⟩, ⟨9, 0x12, 100⟩] ∧
      h'.mapping_table_count = (registry h').length ∧
      h'.sequence_number = 0 :=
  ⟨by decide, by decide, rfl, by decide,
    error_closes_pending sample_crc16 (receive pending_handler
        [0x02, 0x00, 0x08, 0x00, 0x07, 0x04, 0x33, 0x01, 0x02, 0xA0, 0x9E, 0x03])
      (by decide) (by decide) rfl (by decide)⟩

/-! ## Frames as byte lists -/

theorem frame_layout_old (crc16 : List Nat → Nat) (old old2 : Nat → Nat) (mt sn ct : Nat)
    (p : List Nat) (i : Nat) (hi : i < p.length + 10) :
    frame_layout crc16 old mt sn ct p i = frame_layout crc16 old2 mt sn ct p i := by
  unfold frame_layout
  split_ifs <;> first | rfl | (exfalso; omega)

theorem frame_bytes_length (crc16 : List Nat → Nat) (mt sn ct : Nat) (p : List Nat) :
    (frame_bytes crc16 mt sn ct p).length = p.length + 10 :=
  slice_length _ _ _

theorem frame_bytes_getD (crc16 : List Nat → Nat) (old : Nat → Nat) (mt sn ct : Nat)
    (p : List Nat) (i : Nat) (hi : i < p.length + 10) :
    (frame_bytes crc16 mt sn ct p).getD i 0 = frame_layout crc16 old mt sn ct p i := by
  unfold frame_bytes
  rw [slice_getD _ _ _ _ hi, Nat.zero_add]
  exact frame_layout_old _ _ _ _ _ _ _ _ hi

/-- What `HAL_UART_Transmit` sends after `assemble_message` is the frame of the layout. -/
theorem transmitted_layout (crc16 : List Nat → Nat) (h : aSmart_Comm_Handler_t)
    (old : Nat → Nat) (mt sn ct : Nat) (p : List Nat) :
    transmitted { h with tx_handler := ⟨frame_layout crc16 old mt sn ct p, p.length + 10⟩ }
      = frame_bytes crc16 mt sn ct p := by
  show slice (frame_layout crc16 old mt sn ct p) 0 (p.length + 10) = _
  unfold frame_bytes
  exact slice_congr _ _ _ _ (fun k hk => frame_layout_old _ _ _ _ _ _ _ _ (by omega))

/-- The header fields of a frame of the layout. -/
theorem frame_bytes_fields (crc16 : List Nat → Nat) (mt sn ct : Nat) (p : List Nat)
    (hsn : sn < 65536) :
    frame_seq_num (frame_bytes crc16 mt sn ct p) = sn ∧
      frame_msg_type (frame_bytes crc16 mt sn ct p) = mt ∧
      frame_cmd_type (frame_bytes crc16 mt sn ct p) = ct := by
  obtain ⟨_, _, _, f3, f4, f5, f6, _⟩ := frame_layout_fields crc16 (fun _ => 0) mt sn ct p
  unfold frame_seq_num frame_msg_type frame_cmd_type
  rw [frame_bytes_getD crc16 (fun _ => 0) mt sn ct p 3 (by omega),
    frame_bytes_getD crc16 (fun _ => 0) mt sn ct p 4 (by omega),
    frame_bytes_getD crc16 (fun _ => 0) mt sn ct p 5 (by omega),
    frame_bytes_getD crc16 (fun _ => 0) mt sn ct p 6 (by omega), f3, f4, f5, f6]
  exact ⟨be16_split sn hsn, rfl, rfl⟩

/-- A captured frame of the layout with a payload of at most 255 bytes is a valid frame
and the parser reads the fields it was made from. -/
theorem receive_frame_bytes (crc16 : List Nat → Nat) (h : aSmart_Comm_Handler_t)
    (mt sn ct : Nat) (p : List Nat) (hp : p.length ≤ 255) (hsn : sn < 65536) :
    valid_frame crc16 (receive h (frame_bytes crc16 mt sn ct p)) ∧
      wire_msg_type (receive h (frame_bytes crc16 mt sn ct p)) = mt ∧
      wire_cmd_type (receive h (frame_bytes crc16 mt sn ct p)) = ct ∧
      wire_seq_num (receive h (frame_bytes crc16 mt sn ct p)) = sn ∧
      wire_payload (receive h (frame_bytes crc16 mt sn ct p)) = p ∧
      (receive h (frame_bytes crc16 mt sn ct p)).rx_handler.rxd_index = p.length + 10 := by
  have hidx : (receive h (frame_bytes crc16 mt sn ct p)).rx_handler.rxd_index
      = p.length + 10 := by
    rw [receive_index, frame_bytes_length]
  have hbuf : ∀ i, i < p.length + 10 →
      (receive h (frame_bytes crc16 mt sn ct p)).rx_handler.rxd_buffer i
        = frame_layout crc16 (fun _ => 0) mt sn ct p i := by
    intro i hi
    rw [receive_byte _ _ _ (by rw [frame_bytes_length]; exact hi)]
    exact frame_bytes_getD _ _ _ _ _ _ _ hi
  obtain ⟨hm, hl, hc, hmt, hct, hs, hpl⟩ :=
    layout_checks crc16 _ mt sn ct p _ (by omega) hsn hidx hbuf
  exact ⟨⟨by rw [hidx]; omega, by rw [hidx]; omega, hm, hl, hc⟩, hmt, hct, hs, hpl, hidx⟩

/-! ## The emit functions -/

/-- The handler after `asmart_comm_send_command`: counter stepped, entry appended when a
slot is free, transmit buffer holding the frame. -/
theorem send_command_eq (crc16 : List Nat → Nat) (now : Nat) (h : aSmart_Comm_Handler_t)
    (c : Nat) (p : List Nat) (hp : p.length ≤ 502) :
    asmart_comm_send_command crc16 now h c p
      = .ok ({ sequence_number := (h.sequence_number + 1) % 65536
               mapping_table :=
                 if h.mapping_table_count < MAPPING_TABLE_SIZE then
                   Function.update h.mapping_table h.mapping_table_count
                     ⟨(h.sequence_number + 1) % 65536, c, now⟩
                 else h.mapping_table
               mapping_table_count :=
                 if h.mapping_table_count < MAPPING_TABLE_SIZE then h.mapping_table_count + 1
                 else h.mapping_table_count
               rx_handler := h.rx_handler
               tx_handler := ⟨frame_layout crc16 h.tx_handler.txd_buffer MSG_TYPE_COMMAND
                 ((h.sequence_number + 1) % 65536) c p, p.length + 10⟩
               response_callback := h.response_callback },
          frame_bytes crc16 MSG_TYPE_COMMAND ((h.sequence_number + 1) % 65536) c p) := by
  unfold asmart_comm_send_command add_command_to_mapping_table
  by_cases hc : h.mapping_table_count < MAPPING_TABLE_SIZE
  · simp only [hc, if_true]
    rw [assemble_message_eq _ _ _ _ _ _ hp, ok_bind]
    show Except.ok (_, transmitted _) = _
    rw [transmitted_layout]
  · simp only [hc, if_false]
    rw [assemble_message_eq _ _ _ _ _ _ hp, ok_bind]
    show Except.ok (_, transmitted _) = _
    rw [transmitted_layout]

theorem send_other_eq (crc16 : List Nat → Nat) (h : aSmart_Comm_Handler_t)
    (sn c : Nat) (p : List Nat) (hp : p.length ≤ 502) :
    asmart_comm_send_response crc16 h sn c p
        = .ok ({ h with tx_handler := ⟨frame_layout crc16 h.tx_handler.txd_buffer
            MSG_TYPE_RESPONSE sn c p, p.length + 10⟩ },
          frame_bytes crc16 MSG_TYPE_RESPONSE sn c p) ∧
      asmart_comm_send_error crc16 h sn c p
        = .ok ({ h with tx_handler := ⟨frame_layout crc16 h.tx_handler.txd_buffer
            MSG_TYPE_ERROR sn c p, p.length + 10⟩ },
          frame_bytes crc16 MSG_TYPE_ERROR sn c p) ∧
      asmart_comm_send_notification crc16 h c p
        = .ok ({ h with tx_handler := ⟨frame_layout crc16 h.tx_handler.txd_buffer
            MSG_TYPE_NOTIFICATION 0 c p, p.length + 10⟩ },
          frame_bytes crc16 MSG_TYPE_NOTIFICATION 0 c p) := by
  refine ⟨?_, ?_, ?_⟩
  · unfold asmart_comm_send_response
    rw [assemble_message_eq _ _ _ _ _ _ hp, ok_bind]
    show Except.ok (_, transmitted _) = _
    rw [transmitted_layout]
  · unfold asmart_comm_send_error
    rw [assemble_message_eq _ _ _ _ _ _ hp, ok_bind]
    show Except.ok (_, transmitted _) = _
    rw [transmitted_layout]
  · unfold asmart_comm_send_notification
    rw [assemble_message_eq _ _ _ _ _ _ hp, ok_bind]
    show Except.ok (_, transmitted _) = _
    rw [transmitted_layout]

/-! ## The timeout sweep -/

theorem registry_slot_of_split (h : aSmart_Comm_Handler_t) (pre suf : List CommandEntry_t)
    (e : CommandEntry_t) (hreg : registry h = pre ++ e :: suf) :
    pre.length < h.mapping_table_count ∧ h.mapping_table pre.length = e := by
  have hlen : h.mapping_table_count = pre.length + (1 + suf.length) := by
    rw [← registry_length, hreg]; simp; omega
  refine ⟨by omega, ?_⟩
  have := registry_slot h pre.length
  rw [if_pos (by omega), hreg, List.getElem?_append_right (le_refl _)] at this
  simpa using this.symm

theorem timeout_calls_cons (h : aSmart_Comm_Handler_t) (e : CommandEntry_t)
    (l : List CommandEntry_t) :
    timeout_calls h (e :: l) = invoke h (timeout_call e) ++ timeout_calls h l := by
  unfold timeout_calls invoke
  split_ifs <;> rfl

theorem timeout_calls_congr (h h' : aSmart_Comm_Handler_t) (l : List CommandEntry_t)
    (hcb : h'.response_callback = h.response_callback) :
    timeout_calls h' l = timeout_calls h l := by
  unfold timeout_calls
  rw [hcb]

/-- The loop of the sweep on a registry with pairwise distinct sequence numbers, from the
slot after the entries `pre` on: it returns, calls the callback for the timed out entries
of `suf` in table order, and leaves `pre` and the other entries of `suf`, in order. -/
theorem check_loop_spec (now : Nat) :
    ∀ (fuel : Nat) (suf pre : List CommandEntry_t) (h : aSmart_Comm_Handler_t)
      (calls : List CallbackCall),
      registry h = pre ++ suf →
      ((pre ++ suf).map CommandEntry_t.sequence_number).Nodup →
      h.mapping_table_count ≤ 20 → suf.length < fuel →
      ∃ h', check_loop now fuel pre.length h calls
          = .ok (h', calls ++ timeout_calls h (suf.filter (expired now))) ∧
        registry h' = pre ++ suf.filter (fun e => !expired now e) ∧
        h'.mapping_table_count = (pre ++ suf.filter (fun e => !expired now e)).length ∧
        h'.sequence_number = h.sequence_number ∧ h'.rx_handler = h.rx_handler ∧
        h'.tx_handler = h.tx_handler ∧ h'.response_callback = h.response_callback ∧
        ((∀ e ∈ suf, expired now e = false) → h' = h) := by
  intro fuel
  induction fuel with
  | zero => intro suf pre h calls _ _ _ hf; omega
  | succ n ih =>
    intro suf pre h calls hreg hnd hc hf
    unfold check_loop
    cases suf with
    | nil =>
      have hlen : pre.length = h.mapping_table_count := by
        rw [← registry_length, hreg]; simp
      rw [if_neg (by omega)]
      refine ⟨h, ?_, by simpa using hreg, by rw [← hlen]; simp, rfl, rfl, rfl, rfl,
        fun _ => rfl⟩
      simp [timeout_calls]
      rfl
    | cons e suf' =>
      obtain ⟨hlt, hslot⟩ := registry_slot_of_split h pre suf' e hreg
      rw [if_pos hlt, table_read_ok _ _ (by omega), ok_bind, hslot]
      by_cases hexp : (now + 2 ^ 32 - e.timestamp) % 2 ^ 32 > COMMAND_TIMEOUT_MS
      · have hex : expired now e = true := by unfold expired; exact decide_eq_true hexp
        rw [if_pos hexp]
        obtain ⟨h1, hrem, hreg1, hcnt1, hseq1, hrx1, htx1, hcb1, _⟩ :=
          remove_spec h e.sequence_number hc
        have hpre : ∀ a ∈ pre, a.sequence_number ≠ e.sequence_number := by
          intro a ha heq
          rw [List.map_append, List.map_cons, List.nodup_append] at hnd
          obtain ⟨_, _, hdis⟩ := hnd
          exact hdis (List.mem_map.mpr ⟨a, ha, rfl⟩)
            (by rw [heq]; exact List.mem_cons_self _ _)
        have hsplit : erase_first e.sequence_number (registry h) = pre ++ suf' := by
          rw [hreg]; exact erase_first_split _ pre suf' e hpre rfl
        rw [hsplit] at hreg1 hcnt1
        have hnd1 : ((pre ++ suf').map CommandEntry_t.sequence_number).Nodup := by
          refine List.Nodup.sublist ?_ hnd
          exact List.Sublist.map _ (List.Sublist.append_left (List.sublist_cons_self _ _) _)
        have hc1 : h1.mapping_table_count ≤ 20 := by
          have : h.mapping_table_count = (pre ++ e :: suf').length := by
            rw [← hreg, registry_length]
          rw [hcnt1]
          simp only [List.length_append, List.length_cons] at this ⊢
          omega
        obtain ⟨h2, hloop, hreg2, hcnt2, hseq2, hrx2, htx2, hcb2, _⟩ :=
          ih suf' pre h1 (calls ++ invoke h (timeout_call e)) hreg1 hnd1 hc1
            (by simp only [List.length_cons] at hf; omega)
        rw [hrem, ok_bind]
        refine ⟨h2, ?_, ?_, ?_, by rw [hseq2, hseq1], by rw [hrx2, hrx1], by rw [htx2, htx1],
          by rw [hcb2, hcb1], ?_⟩
        · show check_loop now n pre.length h1 (calls ++ invoke h (timeout_call e)) = _
          rw [hloop, timeout_calls_congr h h1 _ hcb1, List.filter_cons_of_pos hex,
            timeout_calls_cons, List.append_assoc]
        · rw [hreg2, List.filter_cons_of_neg (by simp [hex])]
        · rw [hcnt2, List.filter_cons_of_neg (by simp [hex])]
        · intro hall
          have := hall e (List.mem_cons_self _ _)
          rw [hex] at this
          exact absurd this (by decide)
      · have hex : expired now e = false := by unfold expired; exact decide_eq_false hexp
        rw [if_neg hexp]
        have hreg' : registry h = (pre ++ [e]) ++ suf' := by
          rw [hreg]; simp
        have hnd' : (((pre ++ [e]) ++ suf').map CommandEntry_t.sequence_number).Nodup := by
          rw [← hreg', hreg]; exact hnd
        obtain ⟨h2, hloop, hreg2, hcnt2, hseq2, hrx2, htx2, hcb2, hsame⟩ :=
          ih suf' (pre ++ [e]) h calls hreg' hnd' hc
            (by simp only [List.length_cons] at hf; omega)
        have hlen' : (pre ++ [e]).length = pre.length + 1 := by simp
        rw [hlen'] at hloop
        refine ⟨h2, ?_, ?_, ?_, hseq2, hrx2, htx2, hcb2, ?_⟩
        · rw [hloop, List.filter_cons_of_neg (by simp [hex])]
        · rw [hreg2, List.filter_cons_of_pos (by simp [hex])]; simp
        · rw [hcnt2, List.filter_cons_of_pos (by simp [hex])]; simp
        · intro hall
          exact hsame (fun a ha => hall a (List.mem_cons_of_mem _ ha))

/-- The sweep on a registry with pairwise distinct sequence numbers: it returns, the
calls are those of the timed out entries in table order, the registry afterwards is the
entries that are not timed out, in order; nothing but the mapping table and its count
changes, and nothing at all when no entry is timed out. -/
theorem sweep_spec (now : Nat) (h : aSmart_Comm_Handler_t)
    (hnd : ((registry h).map CommandEntry_t.sequence_number).Nodup)
    (hc : h.mapping_table_count ≤ 20) :
    ∃ h', check_command_timeouts now h
        = .ok (h', timeout_calls h ((registry h).filter (expired now))) ∧
      registry h' = (registry h).filter (fun e => !expired now e) ∧
      h'.mapping_table_count = ((registry h).filter (fun e => !expired now e)).length ∧
      h'.sequence_number = h.sequence_number ∧ h'.rx_handler = h.rx_handler ∧
      h'.tx_handler = h.tx_handler ∧ h'.response_callback = h.response_callback ∧
      ((∀ e ∈ registry h, expired now e = false) → h' = h) := by
  have := check_loop_spec now (h.mapping_table_count + 1) (registry h) [] h []
    (by simp) (by simpa using hnd) hc (by rw [registry_length]; omega)
  simpa [check_command_timeouts] using this

/-! ## Polls without a ready frame -/

theorem bind_pair_eta {α β : Type} (r : Except Fault (α × List β)) :
    (r >>= fun x => pure (x.1, [] ++ x.2)) = r := by
  cases r with
  | error e => rfl
  | ok v => cases v; rfl

/-- A poll without a ready frame is the timeout sweep. -/
theorem poll_idle (crc16 : List Nat → Nat) (now : Nat) (h : aSmart_Comm_Handler_t)
    (hr : h.rx_handler.message_ready = 0) :
    asmart_comm_handler crc16 now h = check_command_timeouts now h := by
  unfold asmart_comm_handler
  rw [if_neg (not_not.mpr hr)]
  exact bind_pair_eta (check_command_timeouts now h)

theorem nodup_filter_seq (l : List CommandEntry_t) (p : CommandEntry_t → Bool)
    (hnd : (l.map CommandEntry_t.sequence_number).Nodup) :
    ((l.filter p).map CommandEntry_t.sequence_number).Nodup :=
  List.Nodup.sublist (List.Sublist.map _ (List.filter_sublist l)) hnd

/-- Among the timeout calls of entries with pairwise distinct sequence numbers, exactly
one carries the sequence number of a given entry. -/
theorem timeout_calls_of_entry (e : CommandEntry_t) :
    ∀ l : List CommandEntry_t, (l.map CommandEntry_t.sequence_number).Nodup → e ∈ l →
      (l.map timeout_call).filter (fun c => c.sequence_number == e.sequence_number)
        = [timeout_call e] := by
  intro l
  induction l with
  | nil => intro _ he; exact absurd he (List.not_mem_nil _)
  | cons a t ih =>
    intro hnd he
    rw [List.map_cons, List.nodup_cons] at hnd
    obtain ⟨ha, ht⟩ := hnd
    rw [List.map_cons]
    by_cases hae : a = e
    · subst hae
      rw [List.filter_cons_of_pos (by simp [timeout_call])]
      congr 1
      rw [List.filter_eq_nil_iff]
      intro c hc
      obtain ⟨b, hb, hbc⟩ := List.mem_map.mp hc
      have : b.sequence_number ≠ a.sequence_number := by
        intro heq
        exact ha (List.mem_map.mpr ⟨b, hb, heq⟩)
      rw [← hbc]
      simpa [timeout_call] using this
    · have het : e ∈ t := by
        rcases List.mem_cons.mp he with h1 | h1
        · exact absurd h1.symm hae
        · exact h1
      have : a.sequence_number ≠ e.sequence_number := by
        intro heq
        exact ha (List.mem_map.mpr ⟨e, het, heq.symm⟩)
      rw [List.filter_cons_of_neg (by simpa [timeout_call] using this)]
      exact ih ht het

/-- No event of later polls carries a sequence number that is not in the registry:
polls without a ready frame return and call the callback only for registry entries. -/
theorem polls_absent (crc16 : List Nat → Nat) (s : Nat) :
    ∀ (later : List Nat) (h : aSmart_Comm_Handler_t),
      ((registry h).map CommandEntry_t.sequence_number).Nodup →
      h.mapping_table_count ≤ 20 → h.rx_handler.message_ready = 0 →
      (∀ x ∈ registry h, x.sequence_number ≠ s) →
      ∃ h2 evs, run crc16 (later.map Step.poll) h = .ok (h2, evs) ∧
        ∀ c, Event.callback c ∈ evs → c.sequence_number ≠ s := by
  intro later
  induction later with
  | nil =>
    intro h _ _ _ _
    exact ⟨h, [], rfl, fun c hc => absurd hc (List.not_mem_nil _)⟩
  | cons now rest ih =>
    intro h hnd hc hr hno
    obtain ⟨h1, hsweep, hreg1, hcnt1, _, hrx1, _, _, _⟩ := sweep_spec now h hnd hc
    have hnd1 : ((registry h1).map CommandEntry_t.sequence_number).Nodup := by
      rw [hreg1]; exact nodup_filter_seq _ _ hnd
    have hc1 : h1.mapping_table_count ≤ 20 := by
      rw [hcnt1]
      have := List.length_filter_le (fun e => !expired now e) (registry h)
      rw [registry_length] at this
      omega
    have hno1 : ∀ x ∈ registry h1, x.sequence_number ≠ s := by
      intro x hx
      rw [hreg1] at hx
      exact hno x (List.mem_filter.mp hx).1
    obtain ⟨h2, evs, hrun, hev⟩ := ih h1 hnd1 hc1 (by rw [hrx1]; exact hr) hno1
    refine ⟨h2, (timeout_calls h ((registry h).filter (expired now))).map Event.callback
      ++ evs, ?_, ?_⟩
    · show (step crc16 h (Step.poll now) >>= fun x =>
        run crc16 (rest.map Step.poll) x.1 >>= fun y => pure (y.1, x.2 ++ y.2)) = _
      show ((asmart_comm_handler crc16 now h >>= fun x => pure (x.1, x.2.map Event.callback))
        >>= fun x => run crc16 (rest.map Step.poll) x.1 >>= fun y => pure (y.1, x.2 ++ y.2)) = _
      rw [poll_idle crc16 now h hr, hsweep, ok_bind]
      show (run crc16 (rest.map Step.poll) h1 >>= fun y => pure (y.1, _ ++ y.2)) = _
      rw [hrun]
      rfl
    · intro c hc
      rcases List.mem_append.mp hc with h1m | h2m
      · obtain ⟨c', hc', hcc⟩ := List.mem_map.mp h1m
        have hceq : c' = c := by injection hcc
        subst hceq
        unfold timeout_calls at hc'
        split_ifs at hc'
        · obtain ⟨x, hx, hxc⟩ := List.mem_map.mp hc'
          rw [← hxc]
          exact hno x (List.mem_filter.mp hx).1
        · exact absurd hc' (List.not_mem_nil _)
      · exact hev c h2m

/-! ## The registry after a send -/

/-- Writing slot `mapping_table_count` and counting it appends the entry to the
registry. -/
theorem registry_append (h : aSmart_Comm_Handler_t) (e : CommandEntry_t)
    (seq : Nat) (rx : aSmart_RxHandler_t) (tx : aSmart_TxHandler_t) (cb : Bool) :
    registry { sequence_number := seq
               mapping_table := Function.update h.mapping_table h.mapping_table_count e
               mapping_table_count := h.mapping_table_count + 1
               rx_handler := rx
               tx_handler := tx
               response_callback := cb } = registry h ++ [e] := by
  show (List.range (h.mapping_table_count + 1)).map
      (Function.update h.mapping_table h.mapping_table_count e)
    = (List.range h.mapping_table_count).map h.mapping_table ++ [e]
  rw [List.range_succ, List.map_append, List.map_singleton, Function.update_same]
  congr 1
  apply List.map_congr_left
  intro i hi
  rw [Function.update_noteq]
  have := List.mem_range.mp hi
  omega

/-- The registry after `asmart_comm_send_command`. -/
theorem send_command_registry (crc16 : List Nat → Nat) (now : Nat)
    (h : aSmart_Comm_Handler_t) (c : Nat) (p : List Nat) (hp : p.length ≤ 502) :
    ∃ h', asmart_comm_send_command crc16 now h c p
        = .ok (h', frame_bytes crc16 MSG_TYPE_COMMAND ((h.sequence_number + 1) % 65536) c p) ∧
      h'.sequence_number = (h.sequence_number + 1) % 65536 ∧
      h'.rx_handler = h.rx_handler ∧
      h'.response_callback = h.response_callback ∧
      (h.mapping_table_count < MAPPING_TABLE_SIZE →
        registry h' = registry h ++ [⟨(h.sequence_number + 1) % 65536, c, now⟩] ∧
        h'.mapping_table_count = h.mapping_table_count + 1) ∧
      (¬ h.mapping_table_count < MAPPING_TABLE_SIZE →
        registry h' = registry h ∧ h'.mapping_table_count = h.mapping_table_count) := by
  refine ⟨_, send_command_eq crc16 now h c p hp, rfl, rfl, rfl, ?_, ?_⟩
  · intro hc
    refine ⟨?_, ?_⟩
    · rw [← registry_append h ⟨(h.sequence_number + 1) % 65536, c, now⟩
        ((h.sequence_number + 1) % 65536) h.rx_handler
        ⟨frame_layout crc16 h.tx_handler.txd_buffer MSG_TYPE_COMMAND
          ((h.sequence_number + 1) % 65536) c p, p.length + 10⟩ h.response_callback]
      simp only [hc, if_true]
    · simp only [hc, if_true]
  · intro hc
    refine ⟨?_, ?_⟩
    · simp only [hc, if_false]
      rfl
    · simp only [hc, if_false]

/-! ## Runs -/

theorem run_cons_ok (crc16 : List Nat → Nat) (s : Step) (rest : List Step)
    (h h1 h2 : aSmart_Comm_Handler_t) (first later : List Event)
    (hs : step crc16 h s = .ok (h1, first)) (hr : run crc16 rest h1 = .ok (h2, later)) :
    run crc16 (s :: rest) h = .ok (h2, first ++ later) := by
  show (step crc16 h s >>= fun x =>
    run crc16 rest x.1 >>= fun y => pure (y.1, x.2 ++ y.2)) = _
  rw [hs, ok_bind]
  show (run crc16 rest h1 >>= fun y => pure (y.1, first ++ y.2)) = _
  rw [hr]
  rfl

theorem run_append_ok (crc16 : List Nat → Nat) (b : List Step) :
    ∀ (a : List Step) (h h1 h2 : aSmart_Comm_Handler_t) (ev1 ev2 : List Event),
      run crc16 a h = .ok (h1, ev1) → run crc16 b h1 = .ok (h2, ev2) →
      run crc16 (a ++ b) h = .ok (h2, ev1 ++ ev2) := by
  intro a
  induction a with
  | nil =>
    intro h h1 h2 ev1 ev2 ha hb
    have : (h, ([] : List Event)) = (h1, ev1) := Except.ok.inj ha
    injection this with e1 e2
    subst e1 e2
    exact hb
  | cons s rest ih =>
    intro h h1 h2 ev1 ev2 ha hb
    have ha' : (step crc16 h s >>= fun x =>
        run crc16 rest x.1 >>= fun y => pure (y.1, x.2 ++ y.2)) = .ok (h1, ev1) := ha
    cases hs : step crc16 h s with
    | error f => rw [hs] at ha'; exact absurd ha' (by intro hc; cases hc)
    | ok x =>
      obtain ⟨hm, first⟩ := x
      rw [hs, ok_bind] at ha'
      have ha'' : (run crc16 rest hm >>= fun y => pure (y.1, first ++ y.2))
          = .ok (h1, ev1) := ha'
      cases hr : run crc16 rest hm with
      | error f => rw [hr] at ha''; exact absurd ha'' (by intro hc; cases hc)
      | ok y =>
        obtain ⟨hy, later⟩ := y
        rw [hr] at ha''
        have : (hy, first ++ later) = (h1, ev1) := Except.ok.inj ha''
        injection this with e1 e2
        subst e1 e2
        rw [List.cons_append, List.append_assoc]
        exact run_cons_ok crc16 s _ h hm h2 first _ hs (ih hm hy h2 later ev2 hr hb)

theorem step_send_command (crc16 : List Nat → Nat) (now c : Nat) (p : List Nat)
    (h h1 : aSmart_Comm_Handler_t) (frame : List Nat)
    (hs : asmart_comm_send_command crc16 now h c p = .ok (h1, frame)) :
    step crc16 h (.send_command now c p) = .ok (h1, [.transmit frame]) := by
  show (asmart_comm_send_command crc16 now h c p >>= fun x =>
    pure (x.1, [Event.transmit x.2])) = _
  rw [hs]
  rfl

/-! ## Commands sent in succession -/

/-- Commands sent in succession while the registry has room and the counter does not
wrap: the frames carry consecutive sequence numbers and the entries are appended. -/
theorem run_sends (crc16 : List Nat → Nat) :
    ∀ (cmds : List (Nat × Nat × List Nat)) (h : aSmart_Comm_Handler_t),
      (∀ c ∈ cmds, c.2.2.length ≤ 502) →
      h.mapping_table_count + cmds.length ≤ 20 →
      h.sequence_number + cmds.length < 65536 →
      ∃ h', run crc16 (cmds.map send_step) h
          = .ok (h', issued crc16 (h.sequence_number + 1) cmds) ∧
        registry h' = registry h ++ recorded (h.sequence_number + 1) cmds ∧
        h'.sequence_number = h.sequence_number + cmds.length ∧
        h'.mapping_table_count = h.mapping_table_count + cmds.length ∧
        h'.rx_handler = h.rx_handler ∧ h'.response_callback = h.response_callback := by
  intro cmds
  induction cmds with
  | nil =>
    intro h _ _ _
    exact ⟨h, rfl, (List.append_nil _).symm, rfl, rfl, rfl, rfl⟩
  | cons cmd rest ih =>
    intro h hp hroom hwrap
    obtain ⟨now, c, p⟩ := cmd
    rw [List.length_cons] at hroom hwrap
    have hp1 : p.length ≤ 502 := hp (now, c, p) (List.mem_cons_self _ _)
    obtain ⟨h1, hsend, hseq, hrx, hcb, hfree, _⟩ := send_command_registry crc16 now h c p hp1
    have hmod : (h.sequence_number + 1) % 65536 = h.sequence_number + 1 :=
      Nat.mod_eq_of_lt (by omega)
    rw [hmod] at hsend hseq hfree
    obtain ⟨hreg1, hcnt1⟩ := hfree (by unfold MAPPING_TABLE_SIZE; omega)
    obtain ⟨h2, hrun, hreg2, hseq2, hcnt2, hrx2, hcb2⟩ :=
      ih h1 (fun x hx => hp x (List.mem_cons_of_mem _ hx)) (by omega) (by omega)
    rw [hseq] at hrun hreg2 hseq2
    refine ⟨h2, ?_, ?_, by rw [hseq2, List.length_cons]; omega,
      by rw [hcnt2, hcnt1, List.length_cons]; omega, by rw [hrx2, hrx], by rw [hcb2, hcb]⟩
    · exact run_cons_ok crc16 _ _ h h1 h2 _ _
        (step_send_command crc16 now c p h h1 _ hsend) hrun
    · rw [hreg2, hreg1, List.append_assoc]
      rfl

/-- Commands sent while the registry is full: the counter steps modulo 65536 and the
registry stays as it is. -/
theorem run_sends_untracked (crc16 : List Nat → Nat) :
    ∀ (cmds : List (Nat × Nat × List Nat)) (h : aSmart_Comm_Handler_t),
      (∀ c ∈ cmds, c.2.2.length ≤ 502) →
      ¬ h.mapping_table_count < MAPPING_TABLE_SIZE → h.sequence_number < 65536 →
      ∃ h' evs, run crc16 (cmds.map send_step) h = .ok (h', evs) ∧
        registry h' = registry h ∧
        h'.sequence_number = (h.sequence_number + cmds.length) % 65536 ∧
        h'.mapping_table_count = h.mapping_table_count ∧
        h'.rx_handler = h.rx_handler ∧ h'.response_callback = h.response_callback := by
  intro cmds
  induction cmds with
  | nil =>
    intro h _ _ hlt
    exact ⟨h, [], rfl, rfl, (Nat.mod_eq_of_lt hlt).symm, rfl, rfl, rfl⟩
  | cons cmd rest ih =>
    intro h hp hfull hlt
    obtain ⟨now, c, p⟩ := cmd
    have hp1 : p.length ≤ 502 := hp (now, c, p) (List.mem_cons_self _ _)
    obtain ⟨h1, hsend, hseq, hrx, hcb, _, hkeep⟩ := send_command_registry crc16 now h c p hp1
    obtain ⟨hreg1, hcnt1⟩ := hkeep hfull
    obtain ⟨h2, evs, hrun, hreg2, hseq2, hcnt2, hrx2, hcb2⟩ :=
      ih h1 (fun x hx => hp x (List.mem_cons_of_mem _ hx)) (by rw [hcnt1]; exact hfull)
        (by rw [hseq]; exact Nat.mod_lt _ (by norm_num))
    refine ⟨h2, _, run_cons_ok crc16 _ _ h h1 h2 _ _
        (step_send_command crc16 now c p h h1 _ hsend) hrun, by rw [hreg2, hreg1], ?_,
      by rw [hcnt2, hcnt1], by rw [hrx2, hrx], by rw [hcb2, hcb]⟩
    rw [hseq2, hseq, List.length_cons]
    omega

/-! ## The frames and entries of commands sent in succession -/

theorem recorded_length :
    ∀ (cmds : List (Nat × Nat × List Nat)) (first : Nat),
      (recorded first cmds).length = cmds.length := by
  intro cmds
  induction cmds with
  | nil => intro first; rfl
  | cons cmd rest ih =>
    intro first
    obtain ⟨now, c, p⟩ := cmd
    show (recorded (first + 1) rest).length + 1 = rest.length + 1
    rw [ih]

theorem recorded_sequence_numbers :
    ∀ (cmds : List (Nat × Nat × List Nat)) (first : Nat),
      (recorded first cmds).map CommandEntry_t.sequence_number
        = List.range' first cmds.length := by
  intro cmds
  induction cmds with
  | nil => intro first; rfl
  | cons cmd rest ih =>
    intro first
    obtain ⟨now, c, p⟩ := cmd
    show first :: (recorded (first + 1) rest).map CommandEntry_t.sequence_number
      = List.range' first (rest.length + 1)
    rw [ih, List.range'_succ]

theorem issued_sequence_numbers (crc16 : List Nat → Nat) :
    ∀ (cmds : List (Nat × Nat × List Nat)) (first : Nat), first + cmds.length ≤ 65536 →
      sequence_numbers_sent (issued crc16 first cmds) = List.range' first cmds.length := by
  intro cmds
  induction cmds with
  | nil => intro first _; rfl
  | cons cmd rest ih =>
    intro first hf
    obtain ⟨now, c, p⟩ := cmd
    rw [List.length_cons] at hf
    show frame_seq_num (frame_bytes crc16 MSG_TYPE_COMMAND first c p)
        :: sequence_numbers_sent (issued crc16 (first + 1) rest)
      = List.range' first (rest.length + 1)
    rw [ih (first + 1) (by omega), List.range'_succ,
      (frame_bytes_fields crc16 MSG_TYPE_COMMAND first c p (by omega)).1]

theorem lookup_recorded_none :
    ∀ (cmds : List (Nat × Nat × List Nat)) (first s : Nat),
      s < first ∨ first + cmds.length ≤ s → lookup s (recorded first cmds) = none := by
  intro cmds
  induction cmds with
  | nil => intro first s _; rfl
  | cons cmd rest ih =>
    intro first s hs
    obtain ⟨now, c, p⟩ := cmd
    rw [List.length_cons] at hs
    have hne : first ≠ s := by omega
    have hrest := ih (first + 1) s (by omega)
    unfold lookup at hrest ⊢
    show List.find? _ (_ :: recorded (first + 1) rest) = none
    rw [List.find?_cons_of_neg _ (by simpa using hne)]
    exact hrest

theorem lookup_recorded :
    ∀ (cmds : List (Nat × Nat × List Nat)) (first i : Nat) (hi : i < cmds.length),
      lookup (first + i) (recorded first cmds)
        = some ⟨first + i, cmds[i].2.1, cmds[i].1⟩ := by
  intro cmds
  induction cmds with
  | nil => intro first i hi; exact absurd hi (Nat.not_lt_zero _)
  | cons cmd rest ih =>
    intro first i hi
    obtain ⟨now, c, p⟩ := cmd
    cases i with
    | zero =>
      unfold lookup
      show List.find? _ (_ :: recorded (first + 1) rest) = _
      rw [List.find?_cons_of_pos _ (by simp)]
      rfl
    | succ j =>
      have hj : j < rest.length := by
        rw [List.length_cons] at hi
        omega
      have hrest := ih (first + 1) j hj
      have e : first + 1 + j = first + (j + 1) := by omega
      rw [e] at hrest
      unfold lookup at hrest ⊢
      show List.find? _ (_ :: recorded (first + 1) rest) = _
      rw [List.find?_cons_of_neg _ (by simp)]
      exact hrest

/-! ## Responses, for use in runs -/

/-- A valid RESPONSE frame whose sequence number is not in the registry: no callback,
state unchanged. -/
theorem response_without_entry (crc16 : List Nat → Nat) (h : aSmart_Comm_Handler_t)
    (hv : valid_frame crc16 h) (hk : wire_msg_type h = MSG_TYPE_RESPONSE)
    (hcount : h.mapping_table_count ≤ 20)
    (hno : lookup (wire_seq_num h) (registry h) = none) :
    process_received_message crc16 h = .ok (h, []) := by
  have hproc := process_valid crc16 h hv
  rw [hk, dispatch_response, find_absent h _ hcount hno, ok_bind] at hproc
  exact hproc

/-- A valid RESPONSE frame whose sequence number is in the registry: one callback with
the recorded command type, and the entry is erased. -/
theorem response_with_entry (crc16 : List Nat → Nat) (h : aSmart_Comm_Handler_t)
    (e : CommandEntry_t)
    (hv : valid_frame crc16 h) (hk : wire_msg_type h = MSG_TYPE_RESPONSE)
    (hcount : h.mapping_table_count ≤ 20)
    (he : lookup (wire_seq_num h) (registry h) = some e) :
    ∃ h', process_received_message crc16 h
        = .ok (h', invoke h ⟨MSG_TYPE_RESPONSE, e.command_type, wire_seq_num h,
            some (wire_payload h), h.rx_handler.rxd_index - 10⟩) ∧
      registry h' = erase_first (wire_seq_num h) (registry h) ∧
      h'.mapping_table_count = (erase_first (wire_seq_num h) (registry h)).length ∧
      h'.sequence_number = h.sequence_number ∧ h'.rx_handler = h.rx_handler ∧
      h'.response_callback = h.response_callback := by
  have hproc := process_valid crc16 h hv
  rw [hk, dispatch_response] at hproc
  obtain ⟨k, hk20, hke, hfind⟩ := find_present h _ e hcount he
  obtain ⟨h', hrem, hreg, hcnt, hseq, hrx, _, hcb, _⟩ := remove_spec h (wire_seq_num h) hcount
  rw [hfind, ok_bind] at hproc
  simp only [] at hproc
  rw [table_read_ok _ _ hk20, ok_bind, hrem, ok_bind, hke] at hproc
  exact ⟨h', hproc, hreg, hcnt, hseq, hrx, hcb⟩

/-! ## Results that settle -/

theorem settles_value {α : Type} (good : α → Prop) (a : α) (ha : good a) :
    settles good (.ok a) :=
  ⟨fun b hb => (by cases hb; exact ha), fun hc => (by cases hc)⟩

theorem settles_fault {α : Type} (good : α → Prop) (f : Fault) (hf : f ≠ .loop_fuel) :
    settles good (.error f : Except Fault α) :=
  ⟨fun b hb => (by cases hb), fun hc => (by cases hc; exact hf rfl)⟩

theorem settles_bind {α β : Type} (good : β → Prop) (x : Except Fault α)
    (f : α → Except Fault β) (hx : settles (fun _ => True) x)
    (hf : ∀ a, x = .ok a → settles good (f a)) : settles good (x >>= f) := by
  cases x with
  | error e => exact settles_fault good e (fun hc => hx.2 (by rw [hc]))
  | ok a => exact hf a rfl

theorem settles_mono {α : Type} (good good2 : α → Prop) (r : Except Fault α)
    (hr : settles good r) (hi : ∀ a, good a → good2 a) : settles good2 r :=
  ⟨fun a ha => hi a (hr.1 a ha), hr.2⟩

theorem settles_ite {α : Type} (good : α → Prop) (c : Prop) (inst : Decidable c)
    (a b : Except Fault α) (ha : c → settles good a) (hb : ¬ c → settles good b) :
    settles good (@ite _ c inst a b) := by
  by_cases hc : c
  · rw [if_pos hc]
    exact ha hc
  · rw [if_neg hc]
    exact hb hc

theorem rx_read_settles (b : Nat → Nat) (i : Int) : settles (fun _ => True) (rx_read b i) := by
  unfold rx_read
  split_ifs
  · exact settles_value _ _ trivial
  · exact settles_fault _ _ (by intro hc; cases hc)

theorem rx_read_range_settles (b : Nat → Nat) (s n : Nat) :
    settles (fun _ => True) (rx_read_range b s n) := by
  unfold rx_read_range
  split_ifs
  · exact settles_value _ _ trivial
  · exact settles_fault _ _ (by intro hc; cases hc)

theorem stage_payload_settles (b : Nat → Nat) (s n : Nat) :
    settles (fun _ => True) (stage_payload b s n) := by
  unfold stage_payload
  split_ifs
  · exact settles_fault _ _ (by intro hc; cases hc)
  · exact settles_fault _ _ (by intro hc; cases hc)
  · exact settles_fault _ _ (by intro hc; cases hc)
  · exact settles_value _ _ trivial

/-! ## What a frame can do to the registry -/

/-- The dispatch returns, and the registry after it is the registry before it
or that registry without one entry; the counter and the callback stay. -/
theorem dispatch_settles (h : aSmart_Comm_Handler_t) (hc : h.mapping_table_count ≤ 20)
    (mt ct sn : Nat) (p : List Nat) (n : Nat) :
    settles (fun r => (registry r.1).Sublist (registry h) ∧
        r.1.sequence_number = h.sequence_number ∧
        r.1.response_callback = h.response_callback)
      (dispatch_message h mt ct sn p n) := by
  obtain ⟨h', hrem, hreg, _, hseq, _, _, hcb, _⟩ := remove_spec h sn hc
  have hsub : (registry h').Sublist (registry h) := by
    rw [hreg]
    exact List.eraseP_sublist _
  by_cases c1 : mt = MSG_TYPE_RESPONSE
  · subst c1
    rw [dispatch_response]
    cases hl : lookup sn (registry h) with
    | none =>
      rw [find_absent h sn hc hl, ok_bind]
      exact settles_value _ _ ⟨List.Sublist.refl _, rfl, rfl⟩
    | some e =>
      obtain ⟨k, hk20, _, hfind⟩ := find_present h sn e hc hl
      rw [hfind, ok_bind]
      simp only []
      rw [table_read_ok _ _ hk20, ok_bind, hrem, ok_bind]
      exact settles_value _ _ ⟨hsub, hseq, hcb⟩
  · by_cases c2 : mt = MSG_TYPE_COMMAND
    · subst c2
      rw [dispatch_command]
      exact settles_value _ _ ⟨List.Sublist.refl _, rfl, rfl⟩
    · by_cases c3 : mt = MSG_TYPE_NOTIFICATION
      · subst c3
        rw [dispatch_notification]
        exact settles_value _ _ ⟨List.Sublist.refl _, rfl, rfl⟩
      · by_cases c4 : mt = MSG_TYPE_ERROR
        · subst c4
          rw [dispatch_error]
          by_cases c5 : sn ≠ 0
          · rw [if_pos c5, hrem]
            exact settles_value _ _ ⟨hsub, hseq, hcb⟩
          · rw [if_neg c5]
            exact settles_value _ _ ⟨List.Sublist.refl _, rfl, rfl⟩
        · rw [dispatch_unknown h mt ct sn p n c2 c1 c3 c4]
          exact settles_value _ _ ⟨List.Sublist.refl _, rfl, rfl⟩

/-- On every content of the receive buffer the parser returns or stops at an access
outside of an array, and the registry after it is the registry before it or
that registry without one entry. -/
theorem process_settles (crc16 : List Nat → Nat) (h : aSmart_Comm_Handler_t)
    (hc : h.mapping_table_count ≤ 20) :
    settles (fun r => (registry r.1).Sublist (registry h) ∧
        r.1.sequence_number = h.sequence_number ∧
        r.1.response_callback = h.response_callback)
      (process_received_message crc16 h) := by
  have hsame : settles (fun r : aSmart_Comm_Handler_t × List CallbackCall =>
      (registry r.1).Sublist (registry h) ∧ r.1.sequence_number = h.sequence_number ∧
        r.1.response_callback = h.response_callback)
      (pure (h, [])) := settles_value _ _ ⟨List.Sublist.refl _, rfl, rfl⟩
  unfold process_received_message
  simp only []
  refine settles_bind _ _ _ (rx_read_settles _ _) (fun first _ => ?_)
  refine settles_ite _ _ _ _ _ (fun _ => hsame) (fun _ => ?_)
  refine settles_bind _ _ _ (rx_read_settles _ _) (fun last _ => ?_)
  refine settles_ite _ _ _ _ _ (fun _ => hsame) (fun _ => ?_)
  refine settles_bind _ _ _ (rx_read_settles _ _) (fun len_hi _ => ?_)
  refine settles_bind _ _ _ (rx_read_settles _ _) (fun len_lo _ => ?_)
  refine settles_ite _ _ _ _ _ (fun _ => hsame) (fun _ => ?_)
  refine settles_bind _ _ _ (rx_read_settles _ _) (fun seq_hi _ => ?_)
  refine settles_bind _ _ _ (rx_read_settles _ _) (fun seq_lo _ => ?_)
  refine settles_bind _ _ _ (rx_read_settles _ _) (fun msg_type _ => ?_)
  refine settles_bind _ _ _ (rx_read_settles _ _) (fun cmd_type _ => ?_)
  refine settles_bind _ _ _ (stage_payload_settles _ _ _) (fun payload _ => ?_)
  refine settles_bind _ _ _ (rx_read_settles _ _) (fun crc_hi _ => ?_)
  refine settles_bind _ _ _ (rx_read_settles _ _) (fun crc_lo _ => ?_)
  refine settles_bind _ _ _ (rx_read_range_settles _ _ _) (fun data _ => ?_)
  refine settles_ite _ _ _ _ _ (fun _ => hsame) (fun _ => ?_)
  exact dispatch_settles h hc _ _ _ _ _

theorem settles_bind_of {α β : Type} (mid : α → Prop) (good : β → Prop)
    (x : Except Fault α) (f : α → Except Fault β) (hx : settles mid x)
    (hf : ∀ a, mid a → settles good (f a)) : settles good (x >>= f) :=
  settles_bind good x f (settles_mono _ _ _ hx (fun _ _ => trivial))
    (fun a ha => hf a (hx.1 a ha))

/-! ## The order of the registry -/

theorem ordered_nodup (h : aSmart_Comm_Handler_t) (ho : registry_ordered h) :
    ((registry h).map CommandEntry_t.sequence_number).Nodup :=
  List.Pairwise.imp (fun hab => Nat.ne_of_lt hab) ho.1

theorem ordered_of_sublist (h h1 : aSmart_Comm_Handler_t) (ho : registry_ordered h)
    (hsub : (registry h1).Sublist (registry h))
    (hseq : h1.sequence_number = h.sequence_number) : registry_ordered h1 := by
  obtain ⟨hp, hle, hc⟩ := ho
  refine ⟨List.Pairwise.sublist (List.Sublist.map _ hsub) hp, ?_, ?_⟩
  · intro e he
    rw [hseq]
    exact hle e (hsub.subset he)
  · have := hsub.length_le
    rw [registry_length, registry_length] at this
    omega

/-- The sweep keeps the order of the registry and the counter, and it returns. -/
theorem sweep_settles (now : Nat) (h h1 : aSmart_Comm_Handler_t)
    (calls : List CallbackCall) (ho : registry_ordered h)
    (hsub : (registry h1).Sublist (registry h))
    (hseq : h1.sequence_number = h.sequence_number) :
    settles (fun r => registry_ordered r.1 ∧ r.1.sequence_number = h.sequence_number)
      (check_command_timeouts now h1 >>= fun y => pure (y.1, calls ++ y.2)) := by
  have ho1 := ordered_of_sublist h h1 ho hsub hseq
  obtain ⟨h2, hsweep, hreg2, _, hseq2, _⟩ :=
    sweep_spec now h1 (ordered_nodup h1 ho1) ho1.2.2
  rw [hsweep]
  refine settles_value _ _ ⟨ordered_of_sublist h1 h2 ho1 ?_ hseq2, ?_⟩
  · rw [hreg2]
    exact List.filter_sublist _
  · show h2.sequence_number = h.sequence_number
    rw [hseq2, hseq]

/-- A poll keeps the order of the registry and the counter, and it returns unless the
parser stops at an access outside of an array. -/
theorem handler_settles (crc16 : List Nat → Nat) (now : Nat) (h : aSmart_Comm_Handler_t)
    (ho : registry_ordered h) :
    settles (fun r => registry_ordered r.1 ∧ r.1.sequence_number = h.sequence_number)
      (asmart_comm_handler crc16 now h) := by
  have hc : h.mapping_table_count ≤ 20 := ho.2.2
  unfold asmart_comm_handler
  dsimp only
  refine settles_ite _ _ _ _ _ (fun _ => ?_) (fun _ => ?_)
  · refine settles_bind_of _ _ _ _ (process_settles crc16 h hc) (fun a ha => ?_)
    obtain ⟨h1, calls⟩ := a
    exact sweep_settles now h _ calls ho ha.1 ha.2.1
  · exact sweep_settles now h h [] ho (List.Sublist.refl _) rfl

/-! ## The steps of a run -/

theorem send_command_overrun (crc16 : List Nat → Nat) (now : Nat)
    (h : aSmart_Comm_Handler_t) (c : Nat) (p : List Nat) (hp : 502 < p.length) :
    asmart_comm_send_command crc16 now h c p = .error (.txd_buffer_index 512) := by
  unfold asmart_comm_send_command
  simp only []
  rw [assemble_message_overrun _ _ _ _ _ _ hp]
  rfl

theorem send_other_overrun (crc16 : List Nat → Nat) (h : aSmart_Comm_Handler_t)
    (sn c : Nat) (p : List Nat) (hp : 502 < p.length) :
    asmart_comm_send_response crc16 h sn c p = .error (.txd_buffer_index 512) ∧
      asmart_comm_send_error crc16 h sn c p = .error (.txd_buffer_index 512) ∧
      asmart_comm_send_notification crc16 h c p = .error (.txd_buffer_index 512) := by
  refine ⟨?_, ?_, ?_⟩
  · unfold asmart_comm_send_response
    rw [assemble_message_overrun _ _ _ _ _ _ hp]
    rfl
  · unfold asmart_comm_send_error
    rw [assemble_message_overrun _ _ _ _ _ _ hp]
    rfl
  · unfold asmart_comm_send_notification
    rw [assemble_message_overrun _ _ _ _ _ _ hp]
    rfl

/-- An emit that is not a command keeps the registry and the counter. -/
theorem emit_settles (h : aSmart_Comm_Handler_t) (ho : registry_ordered h)
    (r : Except Fault (aSmart_Comm_Handler_t × List Nat)) (tx : aSmart_TxHandler_t)
    (frame : List Nat)
    (hr : r = .ok ({ h with tx_handler := tx }, frame) ∨ r = .error (.txd_buffer_index 512)) :
    settles (fun r => registry_ordered r.1 ∧ r.1.sequence_number = h.sequence_number + 0)
      (r >>= fun x => pure (x.1, [Event.transmit x.2])) := by
  rcases hr with hr | hr
  · rw [hr]
    exact settles_value _ _ ⟨ho, rfl⟩
  · rw [hr]
    exact settles_fault _ _ (by intro hc; cases hc)

/-- Every step keeps the order of the registry while the counter does not wrap, and
steps the counter by one when it is a command. -/
theorem step_settles (crc16 : List Nat → Nat) (h : aSmart_Comm_Handler_t) (s : Step)
    (ho : registry_ordered h) (hroom : h.sequence_number + commands_sent [s] ≤ 65535) :
    settles (fun r => registry_ordered r.1 ∧
        r.1.sequence_number = h.sequence_number + commands_sent [s])
      (step crc16 h s) := by
  cases s with
  | send_command now c p =>
    have hroom1 : h.sequence_number + 1 ≤ 65535 := hroom
    by_cases hp : p.length ≤ 502
    · obtain ⟨h1, hsend, hseq, _, _, hfree, hkeep⟩ := send_command_registry crc16 now h c p hp
      have hmod : (h.sequence_number + 1) % 65536 = h.sequence_number + 1 :=
        Nat.mod_eq_of_lt (by omega)
      rw [hmod] at hsend hseq hfree
      rw [step_send_command crc16 now c p h h1 _ hsend]
      refine settles_value _ _ ⟨?_, hseq⟩
      obtain ⟨hpw, hle, hcount⟩ := ho
      by_cases hc : h.mapping_table_count < MAPPING_TABLE_SIZE
      · obtain ⟨hreg1, hcnt1⟩ := hfree hc
        refine ⟨?_, ?_, ?_⟩
        · show ((registry h1).map CommandEntry_t.sequence_number).Pairwise _
          rw [hreg1, List.map_append, List.pairwise_append]
          refine ⟨hpw, List.pairwise_singleton _ _, ?_⟩
          intro a ha b hb
          obtain ⟨e, he, hea⟩ := List.mem_map.mp ha
          have hb' : b = h.sequence_number + 1 := by simpa using hb
          have := hle e he
          omega
        · intro e he
          show e.sequence_number ≤ h1.sequence_number
          rw [hreg1] at he
          rw [hseq]
          rcases List.mem_append.mp he with h1m | h2m
          · have := hle e h1m
            omega
          · have : e = ⟨h.sequence_number + 1, c, now⟩ := by simpa using h2m
            rw [this]
        · show h1.mapping_table_count ≤ MAPPING_TABLE_SIZE
          rw [hcnt1]
          omega
      · obtain ⟨hreg1, hcnt1⟩ := hkeep hc
        refine ⟨?_, ?_, ?_⟩
        · show ((registry h1).map CommandEntry_t.sequence_number).Pairwise _
          rw [hreg1]
          exact hpw
        · intro e he
          show e.sequence_number ≤ h1.sequence_number
          rw [hreg1] at he
          rw [hseq]
          have := hle e he
          omega
        · show h1.mapping_table_count ≤ MAPPING_TABLE_SIZE
          rw [hcnt1]
          exact hcount
    · show settles _ (asmart_comm_send_command crc16 now h c p >>= fun x =>
        pure (x.1, [Event.transmit x.2]))
      rw [send_command_overrun crc16 now h c p (by omega)]
      exact settles_fault _ _ (by intro hc; cases hc)
  | send_response sn c p =>
    by_cases hp : p.length ≤ 502
    · exact emit_settles h ho _ _ _ (Or.inl (send_other_eq crc16 h sn c p hp).1)
    · exact emit_settles h ho _ ⟨fun _ => 0, 0⟩ []
        (Or.inr (send_other_overrun crc16 h sn c p (by omega)).1)
  | send_notification c p =>
    by_cases hp : p.length ≤ 502
    · exact emit_settles h ho _ _ _ (Or.inl (send_other_eq crc16 h 0 c p hp).2.2)
    · exact emit_settles h ho _ ⟨fun _ => 0, 0⟩ []
        (Or.inr (send_other_overrun crc16 h 0 c p (by omega)).2.2)
  | send_error sn c p =>
    by_cases hp : p.length ≤ 502
    · exact emit_settles h ho _ _ _ (Or.inl (send_other_eq crc16 h sn c p hp).2.1)
    · exact emit_settles h ho _ ⟨fun _ => 0, 0⟩ []
        (Or.inr (send_other_overrun crc16 h sn c p (by omega)).2.1)
  | capture captured_run =>
    exact settles_value _ _ ⟨ho, rfl⟩
  | poll now =>
    show settles _ (asmart_comm_handler crc16 now h >>= fun x =>
      pure (x.1, x.2.map Event.callback))
    refine settles_bind_of _ _ _ _ (handler_settles crc16 now h ho) (fun a ha => ?_)
    exact settles_value _ _ ha

theorem commands_sent_cons (s : Step) (rest : List Step) :
    commands_sent (s :: rest) = commands_sent [s] + commands_sent rest := by
  cases s <;> simp [commands_sent]
  omega

/-- A run keeps the order of the registry while the counter does not wrap. -/
theorem run_settles (crc16 : List Nat → Nat) :
    ∀ (steps : List Step) (h : aSmart_Comm_Handler_t), registry_ordered h →
      h.sequence_number + commands_sent steps ≤ 65535 →
      settles (fun r => registry_ordered r.1) (run crc16 steps h) := by
  intro steps
  induction steps with
  | nil =>
    intro h ho _
    exact settles_value _ _ ho
  | cons s rest ih =>
    intro h ho hroom
    rw [commands_sent_cons] at hroom
    show settles _ (step crc16 h s >>= fun x =>
      run crc16 rest x.1 >>= fun y => pure (y.1, x.2 ++ y.2))
    refine settles_bind_of _ _ _ _ (step_settles crc16 h s ho (by omega)) (fun a ha => ?_)
    refine settles_bind_of _ _ _ _ (ih a.1 ha.1 (by rw [ha.2]; omega)) (fun b hb => ?_)
    exact settles_value _ _ hb

/-! ## A run that lets the counter come round -/

/-- A poll with a ready frame: the parser, the reset of the receive state, then the
sweep. -/
theorem poll_ready (crc16 : List Nat → Nat) (now : Nat)
    (h h1 hr h2 : aSmart_Comm_Handler_t) (calls tc : List CallbackCall)
    (hready : h.rx_handler.message_ready ≠ 0)
    (hproc : process_received_message crc16 h = .ok (h1, calls))
    (hreset : hr = { h1 with
      rx_handler := { h1.rx_handler with message_ready := 0, rxd_index := 0 } })
    (hsweep : check_command_timeouts now hr = .ok (h2, tc)) :
    asmart_comm_handler crc16 now h = .ok (h2, calls ++ tc) := by
  subst hreset
  unfold asmart_comm_handler
  dsimp only
  rw [if_pos hready, hproc]
  show (check_command_timeouts now _ >>= fun y => pure (y.1, calls ++ y.2)) = _
  rw [hsweep]
  rfl

theorem step_poll (crc16 : List Nat → Nat) (now : Nat) (h h1 : aSmart_Comm_Handler_t)
    (calls : List CallbackCall) (hp : asmart_comm_handler crc16 now h = .ok (h1, calls)) :
    step crc16 h (.poll now) = .ok (h1, calls.map Event.callback) := by
  show (asmart_comm_handler crc16 now h >>= fun x => pure (x.1, x.2.map Event.callback)) = _
  rw [hp]
  rfl

/-- The run `wrap_run k` from a freshly initialized handler, for `k ≥ 20`: the first 20
commands fill the registry, the others step the counter only, the response
frees the slot of command 20, and the last command is recorded with the sequence number
`(k mod 65536 + 1) mod 65536` next to the commands 1..19. -/
theorem wrap_run_spec (k : Nat) (hk : 20 ≤ k) :
    ∃ h pre, run sample_crc16 (wrap_run k) (asmart_comm_init idle_handler true)
        = .ok (h, pre ++ [.transmit (frame_bytes sample_crc16 MSG_TYPE_COMMAND
            ((k % 65536 + 1) % 65536) 0x10 [])]) ∧
      registry h = recorded 1 (List.replicate 19 (0, 0x10, []))
        ++ [⟨(k % 65536 + 1) % 65536, 0x10, 0⟩] := by
  -- the 20 commands that fill the registry
  obtain ⟨h20, hrun20, hreg20, hseq20, hcnt20, _, _⟩ :=
    run_sends sample_crc16 (List.replicate 20 (0, 0x10, []))
      (asmart_comm_init idle_handler true) (by decide) (by decide) (by decide)
  have hreg20' : registry h20 = recorded 1 (List.replicate 20 (0, 0x10, [])) := hreg20
  have hseq20' : h20.sequence_number = 20 := hseq20
  have hcnt20' : h20.mapping_table_count = 20 := hcnt20
  -- the commands that are not tracked
  obtain ⟨hk', evk, hrunk, hregk, hseqk, hcntk, _, _⟩ :=
    run_sends_untracked sample_crc16 (List.replicate (k - 20) (0, 0x10, [])) h20
      (by intro c hc; rw [List.eq_of_mem_replicate hc]; decide)
      (by rw [hcnt20']; decide) (by rw [hseq20']; decide)
  rw [hseq20', List.length_replicate] at hseqk
  have hseqk' : hk'.sequence_number = k % 65536 := by
    rw [hseqk]
    congr 1
    omega
  have hsplit : List.replicate k (Step.send_command 0 0x10 [])
      = (List.replicate 20 ((0 : Nat), (0x10 : Nat), ([] : List Nat))).map send_step
        ++ (List.replicate (k - 20) ((0 : Nat), (0x10 : Nat), ([] : List Nat))).map
          send_step := by
    have e : k = 20 + (k - 20) := by omega
    rw [List.map_replicate, List.map_replicate, ← List.replicate_add, ← e]
    rfl
  have hsends := run_append_ok sample_crc16 _ _ _ h20 hk' _ evk hrun20 hrunk
  rw [← hsplit] at hsends
  -- the response to command 20
  have htake : (frame_bytes sample_crc16 MSG_TYPE_RESPONSE 20 0x10 []).take
      RECEIVE_BUFFER_SIZE = frame_bytes sample_crc16 MSG_TYPE_RESPONSE 20 0x10 [] := by
    decide
  have hcap : step sample_crc16 hk'
      (.capture (frame_bytes sample_crc16 MSG_TYPE_RESPONSE 20 0x10 []))
      = .ok (receive hk' (frame_bytes sample_crc16 MSG_TYPE_RESPONSE 20 0x10 []), []) := by
    show Except.ok (receive hk'
      ((frame_bytes sample_crc16 MSG_TYPE_RESPONSE 20 0x10 []).take RECEIVE_BUFFER_SIZE), [])
      = _
    rw [htake]
  obtain ⟨v1, v2, _, v4, _, _⟩ :=
    receive_frame_bytes sample_crc16 hk' MSG_TYPE_RESPONSE 20 0x10 [] (by decide) (by decide)
  have hregcap : registry (receive hk' (frame_bytes sample_crc16 MSG_TYPE_RESPONSE 20 0x10 []))
      = recorded 1 (List.replicate 20 (0, 0x10, [])) := by
    rw [← hreg20', ← hregk]
    rfl
  have hl : lookup
      (wire_seq_num (receive hk' (frame_bytes sample_crc16 MSG_TYPE_RESPONSE 20 0x10 [])))
      (registry (receive hk' (frame_bytes sample_crc16 MSG_TYPE_RESPONSE 20 0x10 [])))
      = some ⟨20, 0x10, 0⟩ := by
    rw [v4, hregcap]
    decide
  obtain ⟨hp, hproc, hregp, hcntp, hseqp, _, _⟩ :=
    response_with_entry sample_crc16 _ ⟨20, 0x10, 0⟩ v1 v2
      (by show hk'.mapping_table_count ≤ 20; omega) hl
  have herase : erase_first 20 (recorded 1 (List.replicate 20 (0, 0x10, [])))
      = recorded 1 (List.replicate 19 (0, 0x10, [])) := by decide
  rw [v4, hregcap, herase] at hregp hcntp
  have hcntp' : hp.mapping_table_count = 19 := by
    rw [hcntp]
    decide
  have hseqp' : hp.sequence_number = k % 65536 := by
    rw [hseqp]
    exact hseqk'
  -- the sweep of the poll, at tick 0
  obtain ⟨hr, hrdef⟩ : ∃ hr : aSmart_Comm_Handler_t, hr = { hp with
      rx_handler := { hp.rx_handler with message_ready := 0, rxd_index := 0 } } := ⟨_, rfl⟩
  have hseqr : hr.sequence_number = k % 65536 := by
    rw [hrdef]
    exact hseqp'
  have hregr : registry hr = recorded 1 (List.replicate 19 (0, 0x10, [])) := by
    rw [hrdef]
    exact hregp
  have hcntr : hr.mapping_table_count = 19 := by
    rw [hrdef]
    exact hcntp'
  obtain ⟨hs, hsweep, _, _, _, _, _, _, hsame⟩ := sweep_spec 0 hr
    (by rw [hregr]; decide) (by omega)
  have hfresh : ∀ e ∈ recorded 1 (List.replicate 19 ((0 : Nat), (0x10 : Nat), ([] : List Nat))),
      expired 0 e = false := by decide
  have hs' := hsame (by
    intro e he
    rw [hregr] at he
    exact hfresh e he)
  rw [hs'] at hsweep
  have hpoll := step_poll sample_crc16 0 _ _ _
    (poll_ready sample_crc16 0 _ hp hr hr _ _ (by show (1 : Nat) ≠ 0; decide) hproc hrdef
      hsweep)
  -- the last command
  obtain ⟨hlast, hsend, _, _, _, hfree, _⟩ :=
    send_command_registry sample_crc16 0 hr 0x10 [] (by decide)
  rw [hseqr] at hsend hfree
  obtain ⟨hreglast, _⟩ := hfree (by rw [hcntr]; decide)
  rw [hregr] at hreglast
  have hlaststep := step_send_command sample_crc16 0 0x10 [] _ hlast _ hsend
  have htail := run_cons_ok sample_crc16 _ _ _ _ _ _ _ hcap
    (run_cons_ok sample_crc16 _ _ _ _ _ _ _ hpoll
      (run_cons_ok sample_crc16 _ [] _ _ hlast _ [] hlaststep rfl))
  have hall := run_append_ok sample_crc16 _ _ _ _ _ _ _ hsends htail
  simp only [List.nil_append, List.append_nil] at hall
  rw [← List.append_assoc] at hall
  exact ⟨hlast, _, hall, hreglast⟩

/-! ## C11: command and notification pass-through -/

/-- C11: command and notification pass-through. For every valid COMMAND or NOTIFICATION
frame (a run of 10 to 265 bytes that passes the marker, length and checksum checks), in
a handler with a registered callback, `process_received_message` returns and invokes
the callback exactly once, with the kind, the code and the sequence number as present on
the wire (also a non-zero sequence number of a notification) and the payload and payload
length of the frame; the handler, and with it the registry, is unchanged, whatever
entries the registry holds. -/
theorem command_notification_passed_through (crc16 : List Nat → Nat)
    (h : aSmart_Comm_Handler_t) (hv : valid_frame crc16 h)
    (hk : wire_msg_type h = MSG_TYPE_COMMAND ∨ wire_msg_type h = MSG_TYPE_NOTIFICATION)
    (hcb : h.response_callback = true) :
    process_received_message crc16 h
      = .ok (h, [⟨wire_msg_type h, wire_cmd_type h, wire_seq_num h, some (wire_payload h),
          h.rx_handler.rxd_index - 10⟩]) := by
  have hproc := process_valid crc16 h hv
  rcases hk with hk | hk
  · rw [hk] at hproc ⊢
    rw [dispatch_command, invoke_registered _ _ hcb] at hproc
    exact hproc
  · rw [hk] at hproc ⊢
    rw [dispatch_notification, invoke_registered _ _ hcb] at hproc
    exact hproc

/-- Witness of the pass-through: a notification with sequence number 7, code 0x20 and
payload 09, captured while a command with sequence number 7 is pending. -/
theorem command_notification_passed_through_witness :
    valid_frame sample_crc16 (receive pending_handler
        [0x02, 0x00, 0x07, 0x00, 0x07, 0x03, 0x20, 0x09, 0xFD, 0x3F, 0x03]) ∧
    wire_msg_type (receive pending_handler
        [0x02, 0x00, 0x07, 0x00, 0x07, 0x03, 0x20, 0x09, 0xFD, 0x3F, 0x03])
      = MSG_TYPE_NOTIFICATION ∧
    pending_handler.response_callback = true ∧
    lookup 7 (registry pending_handler) = some ⟨7, 0x11, 50⟩ ∧
    process_received_message sample_crc16 (receive pending_handler
        [0x02, 0x00, 0x07, 0x00, 0x07, 0x03, 0x20, 0x09, 0xFD, 0x3F, 0x03])
      = .ok (receive pending_handler
          [0x02, 0x00, 0x07, 0x00, 0x07, 0x03, 0x20, 0x09, 0xFD, 0x3F, 0x03],
        [⟨MSG_TYPE_NOTIFICATION, 0x20, 7, some [0x09], 1⟩]) :=
  ⟨by decide, by decide, rfl, by decide,
    command_notification_passed_through sample_crc16 (receive pending_handler
        [0x02, 0x00, 0x07, 0x00, 0x07, 0x03, 0x20, 0x09, 0xFD, 0x3F, 0x03])
      (by decide) (Or.inr (by decide)) rfl⟩

/-! ## C12: the sweep is a filter -/

/-- C12: sweep equals filter. For every registry (within its 20 slots) whose entries
have pairwise distinct sequence numbers, every tick value `now` and a registered
callback, `check_command_timeouts` returns; it calls the callback, in table order,
exactly once with (ERROR, recorded command type, sequence number, NULL payload,
length 0) for each entry with `now - timestamp > 5000` (the `uint32_t` difference) and
makes no other call, and the registry afterwards is exactly the entries with
`now - timestamp ≤ 5000`, in their original relative order; the sequence counter is
unchanged. -/
theorem sweep_equals_filter (now : Nat) (h : aSmart_Comm_Handler_t)
    (hnd : ((registry h).map CommandEntry_t.sequence_number).Nodup)
    (hcb : h.response_callback = true)
    (hcount : h.mapping_table_count ≤ MAPPING_TABLE_SIZE) :
    ∃ h', check_command_timeouts now h
        = .ok (h', ((registry h).filter (expired now)).map timeout_call) ∧
      registry h' = (registry h).filter (fun e => !expired now e) ∧
      h'.mapping_table_count = (registry h').length ∧
      h'.sequence_number = h.sequence_number := by
  obtain ⟨h', hsweep, hreg, hcnt, hseq, _⟩ := sweep_spec now h hnd hcount
  refine ⟨h', ?_, hreg, by rw [hcnt, hreg], hseq⟩
  rw [hsweep]
  unfold timeout_calls
  rw [if_pos hcb]

/-- Witness of the sweep: commands 5, 7 and 9 recorded at ticks 10, 50 and 100, swept at
tick 5050; command 5 (aged 5040) times out, command 7 (aged exactly 5000) and command 9
are kept. -/
theorem sweep_equals_filter_witness :
    ((registry pending_handler).map CommandEntry_t.sequence_number).Nodup ∧
    pending_handler.response_callback = true ∧
    pending_handler.mapping_table_count ≤ MAPPING_TABLE_SIZE ∧
    ∃ h', check_command_timeouts 5050 pending_handler
        = .ok (h', [⟨MSG_TYPE_ERROR, 0x10, 5, none, 0⟩]) ∧
      registry h' = [⟨7, 0x11, 50⟩, ⟨9, 0x12, 100⟩] ∧
      h'.mapping_table_count = (registry h').length ∧
      h'.sequence_number = 0 :=
  ⟨by decide, rfl, by decide,
    sweep_equals_filter 5050 pending_handler (by decide) rfl (by decide)⟩

/-! ## C13: a timeout is reported once -/

/-- C13, amended: timeout exactly once in a registry with pairwise distinct sequence
numbers. Let a command be pending, recorded at tick t, in a
registry with pairwise distinct sequence numbers (within its 20 slots, callback
registered). A poll with no ready frame at a tick `now` with `now - t > 5000` returns
and dispatches exactly one event for the sequence number of the command, its timeout
event (ERROR kind, NULL payload); afterwards the sequence number is not found in the
registry, the sweep run again at the same tick dispatches nothing and leaves the
handler unchanged, and no later poll with no ready frame, at whatever ticks,
dispatches an event for that sequence number. -/
theorem timeout_exactly_once (crc16 : List Nat → Nat) (now : Nat)
    (h : aSmart_Comm_Handler_t) (e : CommandEntry_t)
    (he : e ∈ registry h) (hexp : expired now e = true)
    (hnd : ((registry h).map CommandEntry_t.sequence_number).Nodup)
    (hcb : h.response_callback = true)
    (hcount : h.mapping_table_count ≤ MAPPING_TABLE_SIZE)
    (hidle : h.rx_handler.message_ready = 0) :
    ∃ h1 calls, asmart_comm_handler crc16 now h = .ok (h1, calls) ∧
      calls.filter (fun c => c.sequence_number == e.sequence_number) = [timeout_call e] ∧
      lookup e.sequence_number (registry h1) = none ∧
      check_command_timeouts now h1 = .ok (h1, []) ∧
      ∀ later : List Nat, ∃ h2 evs, run crc16 (later.map Step.poll) h1 = .ok (h2, evs) ∧
        ∀ c, Event.callback c ∈ evs → c.sequence_number ≠ e.sequence_number := by
  obtain ⟨h1, hsweep, hreg1, hcnt1, _, hrx1, _, hcb1, _⟩ := sweep_spec now h hnd hcount
  have hnd1 : ((registry h1).map CommandEntry_t.sequence_number).Nodup := by
    rw [hreg1]; exact nodup_filter_seq _ _ hnd
  have hc1 : h1.mapping_table_count ≤ 20 := by
    rw [hcnt1]
    have := List.length_filter_le (fun e => !expired now e) (registry h)
    rw [registry_length] at this
    unfold MAPPING_TABLE_SIZE at hcount
    omega
  have hno1 : ∀ x ∈ registry h1, x.sequence_number ≠ e.sequence_number := by
    intro x hx heq
    rw [hreg1] at hx
    obtain ⟨hxm, hxe⟩ := List.mem_filter.mp hx
    have hxe' : x = e := by
      have := List.inj_on_of_nodup_map hnd hxm he heq
      exact this
    rw [hxe', hexp] at hxe
    exact absurd hxe (by decide)
  have hfresh : ∀ x ∈ registry h1, expired now x = false := by
    intro x hx
    rw [hreg1] at hx
    have := (List.mem_filter.mp hx).2
    simpa using this
  refine ⟨h1, timeout_calls h ((registry h).filter (expired now)), ?_, ?_, ?_, ?_, ?_⟩
  · rw [poll_idle crc16 now h hidle, hsweep]
  · unfold timeout_calls
    rw [if_pos hcb]
    exact timeout_calls_of_entry e _ (nodup_filter_seq _ _ hnd)
      (List.mem_filter.mpr ⟨he, hexp⟩)
  · unfold lookup
    rw [List.find?_eq_none]
    intro x hx
    simpa using hno1 x hx
  · obtain ⟨h1', hsweep1, _, _, _, _, _, _, hsame⟩ := sweep_spec now h1 hnd1 hc1
    have hfil : (registry h1).filter (expired now) = [] := by
      rw [List.filter_eq_nil_iff]
      intro x hx
      rw [hfresh x hx]
      decide
    rw [hsweep1, hfil, hsame hfresh]
    unfold timeout_calls
    split_ifs <;> rfl
  · intro later
    exact polls_absent crc16 e.sequence_number later h1 hnd1 hc1 (by rw [hrx1]; exact hidle)
      hno1

/-- Witness of the single timeout: command 5, recorded at tick 10, at a poll at tick
5050 while commands 7 and 9 stay pending. -/
theorem timeout_exactly_once_witness :
    (⟨5, 0x10, 10⟩ : CommandEntry_t) ∈ registry pending_handler ∧
    expired 5050 ⟨5, 0x10, 10⟩ = true ∧
    ((registry pending_handler).map CommandEntry_t.sequence_number).Nodup ∧
    pending_handler.response_callback = true ∧
    pending_handler.mapping_table_count ≤ MAPPING_TABLE_SIZE ∧
    pending_handler.rx_handler.message_ready = 0 ∧
    ∃ h1 calls, asmart_comm_handler sample_crc16 5050 pending_handler = .ok (h1, calls) ∧
      calls.filter (fun c => c.sequence_number == 5) = [⟨MSG_TYPE_ERROR, 0x10, 5, none, 0⟩] ∧
      lookup 5 (registry h1) = none ∧
      check_command_timeouts 5050 h1 = .ok (h1, []) ∧
      ∀ later : List Nat, ∃ h2 evs,
        run sample_crc16 (later.map Step.poll) h1 = .ok (h2, evs) ∧
        ∀ c, Event.callback c ∈ evs → c.sequence_number ≠ 5 :=
  ⟨by decide, by decide, by decide, rfl, by decide, rfl,
    timeout_exactly_once sample_crc16 5050 pending_handler ⟨5, 0x10, 10⟩
      (by decide) (by decide) (by decide) rfl (by decide) rfl⟩

/-! ## C14: the registry is full -/

/-- C14: registry full. Starting from a freshly initialized handler, after 20 commands
are sent with none resolved (payloads of at most 502 bytes, so that the frames fit the
transmit buffer), the 21st `asmart_comm_send_command` returns and transmits the complete
COMMAND frame with sequence number 21 and the given code and payload, while the
registry is unchanged: the count stays 20, it holds the sequence numbers 1..20, and 21
is not found, by the list lookup and by `find_command_in_mapping_table`; every valid
RESPONSE frame with sequence number 21 captured afterwards is processed with no
callback call and leaves the handler, and so the registry, unchanged. -/
theorem registry_full_untracked (crc16 : List Nat → Nat) (h0 : aSmart_Comm_Handler_t)
    (cb : Bool) (cmds : List (Nat × Nat × List Nat)) (now c : Nat) (p : List Nat)
    (hlen : cmds.length = 20) (hp : ∀ x ∈ cmds, x.2.2.length ≤ 502)
    (hlast : p.length ≤ 502) :
    ∃ h20 h21,
      run crc16 (cmds.map send_step) (asmart_comm_init h0 cb)
        = .ok (h20, issued crc16 1 cmds) ∧
      asmart_comm_send_command crc16 now h20 c p
        = .ok (h21, frame_bytes crc16 MSG_TYPE_COMMAND 21 c p) ∧
      frame_msg_type (frame_bytes crc16 MSG_TYPE_COMMAND 21 c p) = MSG_TYPE_COMMAND ∧
      frame_seq_num (frame_bytes crc16 MSG_TYPE_COMMAND 21 c p) = 21 ∧
      (frame_bytes crc16 MSG_TYPE_COMMAND 21 c p).length = p.length + 10 ∧
      registry h21 = registry h20 ∧
      h21.mapping_table_count = 20 ∧
      (registry h21).map CommandEntry_t.sequence_number = List.range' 1 20 ∧
      lookup 21 (registry h21) = none ∧
      find_command_in_mapping_table h21 21 = .ok none ∧
      ∀ captured_run : List Nat,
        valid_frame crc16 (receive h21 captured_run) →
        wire_msg_type (receive h21 captured_run) = MSG_TYPE_RESPONSE →
        wire_seq_num (receive h21 captured_run) = 21 →
        process_received_message crc16 (receive h21 captured_run)
          = .ok (receive h21 captured_run, []) := by
  obtain ⟨h20, hrun, hreg, hseq, hcnt, _, _⟩ := run_sends crc16 cmds (asmart_comm_init h0 cb)
    hp (by show 0 + cmds.length ≤ 20; omega) (by show 0 + cmds.length < 65536; omega)
  have hreg20 : registry h20 = recorded 1 cmds := hreg
  have hseq20 : h20.sequence_number = 20 := by
    rw [hseq, hlen]
    rfl
  have hcnt20 : h20.mapping_table_count = 20 := by
    rw [hcnt, hlen]
    rfl
  obtain ⟨h21, hsend, _, _, _, _, hkeep⟩ := send_command_registry crc16 now h20 c p hlast
  rw [hseq20] at hsend
  obtain ⟨hreg21, hcnt21⟩ := hkeep (by rw [hcnt20]; decide)
  have hfields := frame_bytes_fields crc16 MSG_TYPE_COMMAND 21 c p (by norm_num)
  have hno : lookup 21 (registry h21) = none := by
    rw [hreg21, hreg20]
    exact lookup_recorded_none cmds 1 21 (Or.inr (by omega))
  have hc21 : h21.mapping_table_count ≤ 20 := by omega
  refine ⟨h20, h21, hrun, hsend, hfields.2.1, hfields.1, frame_bytes_length _ _ _ _ _,
    hreg21, by omega, ?_, hno, find_absent h21 21 hc21 hno, ?_⟩
  · rw [hreg21, hreg20, recorded_sequence_numbers, hlen]
  · intro captured_run hv hk hs
    exact response_without_entry crc16 _ hv hk hc21 (by rw [hs]; exact hno)

/-- Witness of the full registry: 20 commands with code 0x10 and empty payload sent at
tick 0, then a command with code 0x11 and payload 01 02 03 at tick 77, then the
response of the peer with sequence number 21. -/
theorem registry_full_untracked_witness :
    (List.replicate 20 ((0 : Nat), (0x10 : Nat), ([] : List Nat))).length = 20 ∧
    (∀ x ∈ List.replicate 20 ((0 : Nat), (0x10 : Nat), ([] : List Nat)),
      x.2.2.length ≤ 502) ∧
    [1, 2, 3].length ≤ 502 ∧
    ∃ h20 h21,
      run sample_crc16 ((List.replicate 20 (0, 0x10, [])).map send_step)
          (asmart_comm_init idle_handler true)
        = .ok (h20, issued sample_crc16 1 (List.replicate 20 (0, 0x10, []))) ∧
      asmart_comm_send_command sample_crc16 77 h20 0x11 [1, 2, 3]
        = .ok (h21, [0x02, 0x00, 0x09, 0x00, 0x15, 0x01, 0x11, 0x01, 0x02, 0x03,
            0xBD, 0x95, 0x03]) ∧
      h21.mapping_table_count = 20 ∧
      (registry h21).map CommandEntry_t.sequence_number = List.range' 1 20 ∧
      lookup 21 (registry h21) = none ∧
      process_received_message sample_crc16
          (receive h21 (frame_bytes sample_crc16 MSG_TYPE_RESPONSE 21 0x11 [4]))
        = .ok (receive h21 (frame_bytes sample_crc16 MSG_TYPE_RESPONSE 21 0x11 [4]), []) := by
  obtain ⟨h20, h21, h1, h2, _, _, _, _, h7, h8, h9, _, h11⟩ :=
    registry_full_untracked sample_crc16 idle_handler true
      (List.replicate 20 (0, 0x10, [])) 77 0x11 [1, 2, 3] (by decide) (by decide) (by decide)
  have hf : frame_bytes sample_crc16 MSG_TYPE_COMMAND 21 0x11 [1, 2, 3]
      = [0x02, 0x00, 0x09, 0x00, 0x15, 0x01, 0x11, 0x01, 0x02, 0x03, 0xBD, 0x95, 0x03] := by
    decide
  rw [hf] at h2
  obtain ⟨v1, v2, _, v4, _⟩ :=
    receive_frame_bytes sample_crc16 h21 MSG_TYPE_RESPONSE 21 0x11 [4] (by decide)
      (by decide)
  exact ⟨by decide, by decide, by decide, h20, h21, h1, h2, h7, h8, h9, h11 _ v1 v2 v4⟩

/-! ## C15: sequence numbers on issue -/

/-- C15: sequence uniqueness on issue. Starting from a freshly initialized handler,
sending K ≤ 20 commands with codes c_1..c_K in immediate succession (payloads of at most
502 bytes, so that the frames fit the transmit buffer) returns and emits exactly the K
COMMAND frames of these commands, carrying the K distinct sequence numbers 1..K in this
order; afterwards the registry holds exactly K entries, and for every i in 1..K the
lookup of sequence number i, by the list lookup and by
`find_command_in_mapping_table`, finds the entry with sequence number i, command type
c_i and the tick of the i-th send. -/
theorem sequence_numbers_unique_on_issue (crc16 : List Nat → Nat)
    (h0 : aSmart_Comm_Handler_t) (cb : Bool) (cmds : List (Nat × Nat × List Nat))
    (hK : cmds.length ≤ 20) (hp : ∀ x ∈ cmds, x.2.2.length ≤ 502) :
    ∃ h', run crc16 (cmds.map send_step) (asmart_comm_init h0 cb)
        = .ok (h', issued crc16 1 cmds) ∧
      sequence_numbers_sent (issued crc16 1 cmds) = List.range' 1 cmds.length ∧
      (sequence_numbers_sent (issued crc16 1 cmds)).Nodup ∧
      (registry h').length = cmds.length ∧
      h'.mapping_table_count = cmds.length ∧
      ∀ (i : Nat) (hi : i < cmds.length),
        lookup (i + 1) (registry h') = some ⟨i + 1, cmds[i].2.1, cmds[i].1⟩ ∧
        ∃ k, find_command_in_mapping_table h' (i + 1) = .ok (some k) ∧
          h'.mapping_table k = ⟨i + 1, cmds[i].2.1, cmds[i].1⟩ := by
  obtain ⟨h', hrun, hreg, _, hcnt, _, _⟩ := run_sends crc16 cmds (asmart_comm_init h0 cb)
    hp (by show 0 + cmds.length ≤ 20; omega) (by show 0 + cmds.length < 65536; omega)
  have hreg' : registry h' = recorded 1 cmds := hreg
  have hcnt' : h'.mapping_table_count = cmds.length := by
    rw [hcnt]
    exact Nat.zero_add _
  have hsn := issued_sequence_numbers crc16 cmds 1 (by omega)
  refine ⟨h', hrun, hsn, by rw [hsn]; exact List.nodup_range' 1 cmds.length,
    by rw [hreg', recorded_length], hcnt', ?_⟩
  intro i hi
  have hl : lookup (i + 1) (registry h') = some ⟨i + 1, cmds[i].2.1, cmds[i].1⟩ := by
    have := lookup_recorded cmds 1 i hi
    rw [hreg', Nat.add_comm i 1]
    exact this
  obtain ⟨k, _, hke, hfind⟩ := find_present h' (i + 1) _ (by omega) hl
  exact ⟨hl, k, hfind, hke⟩

/-- Witness of the sequence numbers on issue: three commands with codes 0x10, 0x11 and
0x12 sent at ticks 10, 50 and 100. -/
theorem sequence_numbers_unique_on_issue_witness :
    [((10 : Nat), (0x10 : Nat), [(1 : Nat)]), (50, 0x11, []), (100, 0x12, [7, 8])].length
      ≤ 20 ∧
    (∀ x ∈ [((10 : Nat), (0x10 : Nat), [(1 : Nat)]), (50, 0x11, []), (100, 0x12, [7, 8])],
      x.2.2.length ≤ 502) ∧
    ∃ h', run sample_crc16
          ([((10 : Nat), (0x10 : Nat), [(1 : Nat)]), (50, 0x11, []),
            (100, 0x12, [7, 8])].map send_step)
          (asmart_comm_init idle_handler true)
        = .ok (h', issued sample_crc16 1 [(10, 0x10, [1]), (50, 0x11, []),
            (100, 0x12, [7, 8])]) ∧
      sequence_numbers_sent (issued sample_crc16 1 [(10, 0x10, [1]), (50, 0x11, []),
        (100, 0x12, [7, 8])]) = [1, 2, 3] ∧
      (registry h').length = 3 ∧
      lookup 1 (registry h') = some ⟨1, 0x10, 10⟩ ∧
      lookup 2 (registry h') = some ⟨2, 0x11, 50⟩ ∧
      lookup 3 (registry h') = some ⟨3, 0x12, 100⟩ := by
  obtain ⟨h', h1, h2, _, h4, _, h6⟩ :=
    sequence_numbers_unique_on_issue sample_crc16 idle_handler true
      [(10, 0x10, [1]), (50, 0x11, []), (100, 0x12, [7, 8])] (by decide) (by decide)
  exact ⟨by decide, by decide, h', h1, h2, h4, (h6 0 (by decide)).1, (h6 1 (by decide)).1,
    (h6 2 (by decide)).1⟩

/-! ## C16: uniqueness of the sequence numbers in the registry -/

/-- C16, counterexample: from a freshly initialized handler, 65536 commands are sent
without a poll (the first 20 fill the registry, the others are sent untracked and take
the counter round to 0), the response to command 20 is captured and polled, which
frees one slot, and one more command is sent: it gets the sequence number 1 and is
recorded while command 1 is still pending, so the registry holds the sequence numbers
1..19 and 1 again. -/
theorem registry_duplicate_after_wrap :
    ∃ h evs, run sample_crc16 (wrap_run 65536) (asmart_comm_init idle_handler true)
        = .ok (h, evs) ∧
      (registry h).map CommandEntry_t.sequence_number = List.range' 1 19 ++ [1] ∧
      ¬ ((registry h).map CommandEntry_t.sequence_number).Nodup := by
  obtain ⟨h, pre, hrun, hreg⟩ := wrap_run_spec 65536 (by decide)
  have hseqs : (registry h).map CommandEntry_t.sequence_number = List.range' 1 19 ++ [1] := by
    rw [hreg, List.map_append, recorded_sequence_numbers]
    rfl
  exact ⟨h, _, hrun, hseqs, by rw [hseqs]; decide⟩

/-- Registry uniqueness while the counter has not wrapped, by the order of the registry. In
every state reached from `asmart_comm_init` by a finite sequence of send-command,
send-response, send-notification, send-error, capture and poll steps of which at most
65535 are send-command steps, the sequence numbers of the entries present in the
registry are pairwise distinct; and such a run never ends in a loop out of fuel: it
reaches a state or stops at an access outside of an array. -/
theorem registry_unique_before_wrap (crc16 : List Nat → Nat) (h0 : aSmart_Comm_Handler_t)
    (cb : Bool) (steps : List Step) (hsent : commands_sent steps ≤ 65535) :
    (∀ h evs, run crc16 steps (asmart_comm_init h0 cb) = .ok (h, evs) →
        ((registry h).map CommandEntry_t.sequence_number).Nodup) ∧
      run crc16 steps (asmart_comm_init h0 cb) ≠ .error .loop_fuel := by
  have hinit : registry_ordered (asmart_comm_init h0 cb) :=
    ⟨List.Pairwise.nil, fun e he => absurd he (List.not_mem_nil _), Nat.zero_le _⟩
  have hrun := run_settles crc16 steps _ hinit (by show 0 + _ ≤ 65535; omega)
  exact ⟨fun h evs hr => ordered_nodup h (hrun.1 (h, evs) hr), hrun.2⟩

/-- Witness of the invariant: the run `mixed_run` with four commands, which ends
with the commands 3 and 4 pending. -/
theorem registry_unique_before_wrap_witness :
    commands_sent mixed_run ≤ 65535 ∧
    (run sample_crc16 mixed_run (asmart_comm_init idle_handler true)).toOption.map
      (fun r => (registry r.1).map CommandEntry_t.sequence_number) = some [3, 4] ∧
    (∀ h evs, run sample_crc16 mixed_run (asmart_comm_init idle_handler true)
        = .ok (h, evs) →
        ((registry h).map CommandEntry_t.sequence_number).Nodup) ∧
    run sample_crc16 mixed_run (asmart_comm_init idle_handler true) ≠ .error .loop_fuel :=
  ⟨by decide, by decide,
    registry_unique_before_wrap sample_crc16 idle_handler true mixed_run (by decide)⟩

/-! ## C17: sequence number 0 -/

/-- C17, failing input: from a freshly initialized handler, 65535 commands are sent
without a poll (the counter reaches 65535), the response to command 20 is captured and
polled, which frees one slot, and one more command is sent: the counter wraps to 0, the
COMMAND frame that is emitted carries the sequence number 0, and a registry entry with
sequence number 0 is recorded. An ERROR frame that answers this command carries the
sequence number 0, which the dispatch takes as unrelated to a command: the entry is
left pending. -/
theorem command_sent_with_sequence_number_zero :
    ∃ h pre, run sample_crc16 (wrap_run 65535) (asmart_comm_init idle_handler true)
        = .ok (h, pre ++ [.transmit (frame_bytes sample_crc16 MSG_TYPE_COMMAND 0 0x10 [])]) ∧
      frame_msg_type (frame_bytes sample_crc16 MSG_TYPE_COMMAND 0 0x10 [])
        = MSG_TYPE_COMMAND ∧
      frame_seq_num (frame_bytes sample_crc16 MSG_TYPE_COMMAND 0 0x10 []) = 0 ∧
      (registry h).map CommandEntry_t.sequence_number = List.range' 1 19 ++ [0] ∧
      lookup 0 (registry h) = some ⟨0, 0x10, 0⟩ ∧
      ∀ (c : Nat) (p : List Nat) (n : Nat), dispatch_message h MSG_TYPE_ERROR c 0 p n
        = .ok (h, invoke h ⟨MSG_TYPE_ERROR, c, 0, some p, n⟩) := by
  obtain ⟨h, pre, hrun, hreg⟩ := wrap_run_spec 65535 (by decide)
  have e : (65535 % 65536 + 1) % 65536 = 0 := by decide
  rw [e] at hrun hreg
  have hseqs : (registry h).map CommandEntry_t.sequence_number = List.range' 1 19 ++ [0] := by
    rw [hreg, List.map_append, recorded_sequence_numbers]
    rfl
  refine ⟨h, pre, hrun, by decide, by decide, hseqs, by rw [hreg]; decide, ?_⟩
  intro c p n
  rw [dispatch_error, if_neg (by decide)]

/-! ## C18: the step of the sequence counter -/

/-- C18: sequence counter step. The counter is 0 after `asmart_comm_init`; from every
state with counter value c, `asmart_comm_send_command` (payload of at most 502 bytes,
so that the frame fits the transmit buffer) returns with the counter set to
(c + 1) mod 65536, the emitted frame is the COMMAND frame assembled with the new counter
value and its sequence field (bytes 3..4, big-endian) equals the new counter value, and
when the registry has a free slot the entry appended to it has that same sequence
number, the given command type and the current tick as timestamp; when the registry is
full it is unchanged. -/
theorem sequence_counter_step (crc16 : List Nat → Nat) (now : Nat)
    (h0 h : aSmart_Comm_Handler_t) (cb : Bool) (c : Nat) (p : List Nat)
    (hp : p.length ≤ 502) :
    (asmart_comm_init h0 cb).sequence_number = 0 ∧
    ∃ h' frame, asmart_comm_send_command crc16 now h c p = .ok (h', frame) ∧
      h'.sequence_number = (h.sequence_number + 1) % 65536 ∧
      frame = frame_bytes crc16 MSG_TYPE_COMMAND h'.sequence_number c p ∧
      frame_seq_num frame = h'.sequence_number ∧
      (h.mapping_table_count < MAPPING_TABLE_SIZE →
        registry h' = registry h ++ [⟨h'.sequence_number, c, now⟩]) ∧
      (¬ h.mapping_table_count < MAPPING_TABLE_SIZE → registry h' = registry h) := by
  obtain ⟨h', hsend, hseq, _, _, hfree, hfull⟩ := send_command_registry crc16 now h c p hp
  refine ⟨rfl, h', _, hsend, hseq, by rw [hseq], ?_, ?_, fun hc => (hfull hc).1⟩
  · rw [hseq]
    exact (frame_bytes_fields crc16 _ _ c p (Nat.mod_lt _ (by norm_num))).1
  · intro hc
    rw [hseq]
    exact (hfree hc).1

/-- Witness of the counter step: a command with code 0x11 and payload 01 02 03 sent at
tick 77 from a handler with counter 0 and three pending commands. -/
theorem sequence_counter_step_witness :
    [1, 2, 3].length ≤ 502 ∧
    (asmart_comm_init idle_handler true).sequence_number = 0 ∧
    ∃ h' frame, asmart_comm_send_command sample_crc16 77 pending_handler 0x11 [1, 2, 3]
        = .ok (h', frame) ∧
      h'.sequence_number = (pending_handler.sequence_number + 1) % 65536 ∧
      frame = frame_bytes sample_crc16 MSG_TYPE_COMMAND h'.sequence_number 0x11 [1, 2, 3] ∧
      frame_seq_num frame = h'.sequence_number ∧
      (pending_handler.mapping_table_count < MAPPING_TABLE_SIZE →
        registry h' = registry pending_handler ++ [⟨h'.sequence_number, 0x11, 77⟩]) ∧
      (¬ pending_handler.mapping_table_count < MAPPING_TABLE_SIZE →
        registry h' = registry pending_handler) :=
  ⟨by decide, sequence_counter_step sample_crc16 77 idle_handler pending_handler true 0x11
    [1, 2, 3] (by decide)⟩

/-! ## C19: the emits that are not commands -/

/-- C19: non-command emits. With a payload of at most 502 bytes (so that the frame fits
the transmit buffer) and a 16-bit sequence number, `asmart_comm_send_notification`
returns and emits the NOTIFICATION frame with the given code whose sequence field is 0
whatever the counter value, `asmart_comm_send_response` and `asmart_comm_send_error`
return and emit the RESPONSE / ERROR frame carrying exactly the caller-supplied sequence
number and code, and all three leave the sequence counter, the registry entries, the
registry count, the receive handler and the callback unchanged: only the transmit
buffer and its length differ. -/
theorem non_command_emits (crc16 : List Nat → Nat) (h : aSmart_Comm_Handler_t)
    (sn c : Nat) (p : List Nat) (hp : p.length ≤ 502) (hsn : sn < 65536) :
    (∃ h', asmart_comm_send_notification crc16 h c p
        = .ok (h', frame_bytes crc16 MSG_TYPE_NOTIFICATION 0 c p) ∧
      only_transmit_changed h h' ∧ registry h' = registry h) ∧
    (∃ h', asmart_comm_send_response crc16 h sn c p
        = .ok (h', frame_bytes crc16 MSG_TYPE_RESPONSE sn c p) ∧
      only_transmit_changed h h' ∧ registry h' = registry h) ∧
    (∃ h', asmart_comm_send_error crc16 h sn c p
        = .ok (h', frame_bytes crc16 MSG_TYPE_ERROR sn c p) ∧
      only_transmit_changed h h' ∧ registry h' = registry h) ∧
    frame_msg_type (frame_bytes crc16 MSG_TYPE_NOTIFICATION 0 c p) = MSG_TYPE_NOTIFICATION ∧
    frame_seq_num (frame_bytes crc16 MSG_TYPE_NOTIFICATION 0 c p) = 0 ∧
    frame_cmd_type (frame_bytes crc16 MSG_TYPE_NOTIFICATION 0 c p) = c ∧
    frame_msg_type (frame_bytes crc16 MSG_TYPE_RESPONSE sn c p) = MSG_TYPE_RESPONSE ∧
    frame_seq_num (frame_bytes crc16 MSG_TYPE_RESPONSE sn c p) = sn ∧
    frame_cmd_type (frame_bytes crc16 MSG_TYPE_RESPONSE sn c p) = c ∧
    frame_msg_type (frame_bytes crc16 MSG_TYPE_ERROR sn c p) = MSG_TYPE_ERROR ∧
    frame_seq_num (frame_bytes crc16 MSG_TYPE_ERROR sn c p) = sn ∧
    frame_cmd_type (frame_bytes crc16 MSG_TYPE_ERROR sn c p) = c := by
  obtain ⟨hr, he, hn⟩ := send_other_eq crc16 h sn c p hp
  obtain ⟨n1, n2, n3⟩ := frame_bytes_fields crc16 MSG_TYPE_NOTIFICATION 0 c p (by norm_num)
  obtain ⟨r1, r2, r3⟩ := frame_bytes_fields crc16 MSG_TYPE_RESPONSE sn c p hsn
  obtain ⟨e1, e2, e3⟩ := frame_bytes_fields crc16 MSG_TYPE_ERROR sn c p hsn
  exact ⟨⟨_, hn, ⟨rfl, rfl, rfl, rfl, rfl⟩, rfl⟩, ⟨_, hr, ⟨rfl, rfl, rfl, rfl, rfl⟩, rfl⟩,
    ⟨_, he, ⟨rfl, rfl, rfl, rfl, rfl⟩, rfl⟩, n2, n1, n3, r2, r1, r3, e2, e1, e3⟩

/-- Witness of the non-command emits: code 0x20, payload 09 and sequence number 300,
from a handler with three pending commands. -/
theorem non_command_emits_witness :
    [9].length ≤ 502 ∧ 300 < 65536 ∧
    (∃ h', asmart_comm_send_notification sample_crc16 pending_handler 0x20 [9]
        = .ok (h', frame_bytes sample_crc16 MSG_TYPE_NOTIFICATION 0 0x20 [9]) ∧
      only_transmit_changed pending_handler h' ∧ registry h' = registry pending_handler) ∧
    (∃ h', asmart_comm_send_response sample_crc16 pending_handler 300 0x20 [9]
        = .ok (h', frame_bytes sample_crc16 MSG_TYPE_RESPONSE 300 0x20 [9]) ∧
      only_transmit_changed pending_handler h' ∧ registry h' = registry pending_handler) ∧
    (∃ h', asmart_comm_send_error sample_crc16 pending_handler 300 0x20 [9]
        = .ok (h', frame_bytes sample_crc16 MSG_TYPE_ERROR 300 0x20 [9]) ∧
      only_transmit_changed pending_handler h' ∧ registry h' = registry pending_handler) ∧
    frame_msg_type (frame_bytes sample_crc16 MSG_TYPE_NOTIFICATION 0 0x20 [9])
      = MSG_TYPE_NOTIFICATION ∧
    frame_seq_num (frame_bytes sample_crc16 MSG_TYPE_NOTIFICATION 0 0x20 [9]) = 0 ∧
    frame_cmd_type (frame_bytes sample_crc16 MSG_TYPE_NOTIFICATION 0 0x20 [9]) = 0x20 ∧
    frame_msg_type (frame_bytes sample_crc16 MSG_TYPE_RESPONSE 300 0x20 [9])
      = MSG_TYPE_RESPONSE ∧
    frame_seq_num (frame_bytes sample_crc16 MSG_TYPE_RESPONSE 300 0x20 [9]) = 300 ∧
    frame_cmd_type (frame_bytes sample_crc16 MSG_TYPE_RESPONSE 300 0x20 [9]) = 0x20 ∧
    frame_msg_type (frame_bytes sample_crc16 MSG_TYPE_ERROR 300 0x20 [9]) = MSG_TYPE_ERROR ∧
    frame_seq_num (frame_bytes sample_crc16 MSG_TYPE_ERROR 300 0x20 [9]) = 300 ∧
    frame_cmd_type (frame_bytes sample_crc16 MSG_TYPE_ERROR 300 0x20 [9]) = 0x20 :=
  ⟨by decide, by decide,
    non_command_emits sample_crc16 pending_handler 300 0x20 [9] (by decide) (by decide)⟩

/-! ## C20: the receive notification -/

/-- C20: receive notification is minimal. For every handler state and every captured
size, `HAL_UARTEx_RxEventCallback` for the communication UART sets `rxd_index` to `Size`
and `message_ready` to 1 and changes nothing else: the receive buffer and its size, the
registry entries, the registry count, the sequence counter, the transmit handler and the
registered callback are unchanged (the function returns the handler only: it makes no
callback call); for another UART the handler is unchanged. -/
theorem receive_notification_minimal (h : aSmart_Comm_Handler_t) (Size : Nat) :
    (HAL_UARTEx_RxEventCallback h true Size).rx_handler.rxd_index = Size ∧
    (HAL_UARTEx_RxEventCallback h true Size).rx_handler.message_ready = 1 ∧
    (HAL_UARTEx_RxEventCallback h true Size).rx_handler.rxd_buffer
      = h.rx_handler.rxd_buffer ∧
    (HAL_UARTEx_RxEventCallback h true Size).rx_handler.rxd_buffer_size
      = h.rx_handler.rxd_buffer_size ∧
    (HAL_UARTEx_RxEventCallback h true Size).mapping_table = h.mapping_table ∧
    (HAL_UARTEx_RxEventCallback h true Size).mapping_table_count = h.mapping_table_count ∧
    registry (HAL_UARTEx_RxEventCallback h true Size) = registry h ∧
    (HAL_UARTEx_RxEventCallback h true Size).sequence_number = h.sequence_number ∧
    (HAL_UARTEx_RxEventCallback h true Size).tx_handler = h.tx_handler ∧
    (HAL_UARTEx_RxEventCallback h true Size).response_callback = h.response_callback ∧
    HAL_UARTEx_RxEventCallback h false Size = h :=
  ⟨rfl, rfl, rfl, rfl, rfl, rfl, rfl, rfl, rfl, rfl, rfl⟩

/-! ## The sweep on any registry -/

/-- The entry in a slot below the count is found by the lookup, at that slot or before. -/
theorem slot_mem_registry (h : aSmart_Comm_Handler_t) (i : Nat)
    (hi : i < h.mapping_table_count) : h.mapping_table i ∈ registry h := by
  unfold registry
  exact List.mem_map.mpr ⟨i, List.mem_range.mpr hi, rfl⟩

/-- The removal by the sequence number of an entry of the registry takes exactly one
entry away. -/
theorem remove_present (h : aSmart_Comm_Handler_t) (e : CommandEntry_t)
    (hc : h.mapping_table_count ≤ 20) (he : e ∈ registry h) :
    ∃ h', remove_command_from_mapping_table h e.sequence_number = .ok h' ∧
      registry h' = erase_first e.sequence_number (registry h) ∧
      h'.mapping_table_count + 1 = h.mapping_table_count ∧
      h'.sequence_number = h.sequence_number ∧ h'.rx_handler = h.rx_handler ∧
      h'.tx_handler = h.tx_handler ∧ h'.response_callback = h.response_callback := by
  obtain ⟨h', hrem, hreg, hcnt, hseq, hrx, htx, hcb, _⟩ := remove_spec h e.sequence_number hc
  refine ⟨h', hrem, hreg, ?_, hseq, hrx, htx, hcb⟩
  have hlen : (erase_first e.sequence_number (registry h)).length
      = (registry h).length - 1 := by
    unfold erase_first
    exact List.length_eraseP_of_mem he (by simp)
  have hpos : 0 < (registry h).length := List.length_pos_of_mem he
  rw [hcnt, hlen, ← registry_length h]
  omega

/-- The loop of the sweep returns on every registry within the table, with
or without repeated sequence numbers: every iteration advances the index or takes one
entry away. -/
theorem check_loop_returns (now : Nat) :
    ∀ (fuel i : Nat) (h : aSmart_Comm_Handler_t) (calls : List CallbackCall),
      h.mapping_table_count ≤ 20 → h.mapping_table_count - i < fuel →
      ∃ h' calls', check_loop now fuel i h calls = .ok (h', calls') ∧
        h'.mapping_table_count ≤ h.mapping_table_count ∧
        (registry h').Sublist (registry h) ∧
        h'.sequence_number = h.sequence_number ∧ h'.rx_handler = h.rx_handler ∧
        h'.tx_handler = h.tx_handler ∧ h'.response_callback = h.response_callback ∧
        (h.response_callback = true →
          calls'.length + h'.mapping_table_count = calls.length + h.mapping_table_count) := by
  intro fuel
  induction fuel with
  | zero => intro i h calls _ hf; omega
  | succ n ih =>
    intro i h calls hc hf
    unfold check_loop
    by_cases hi : i < h.mapping_table_count
    · rw [if_pos hi, table_read_ok _ _ (by omega), ok_bind]
      by_cases hexp : (now + 2 ^ 32 - (h.mapping_table i).timestamp) % 2 ^ 32
          > COMMAND_TIMEOUT_MS
      · rw [if_pos hexp]
        obtain ⟨h1, hrem, hreg1, hcnt1, hseq1, hrx1, htx1, hcb1⟩ :=
          remove_present h (h.mapping_table i) hc (slot_mem_registry h i hi)
        obtain ⟨h2, calls2, hloop, hcnt2, hsub2, hseq2, hrx2, htx2, hcb2, hnum2⟩ :=
          ih i h1 (calls ++ invoke h ⟨MSG_TYPE_ERROR, (h.mapping_table i).command_type,
            (h.mapping_table i).sequence_number, none, 0⟩) (by omega) (by omega)
        rw [hrem, ok_bind]
        refine ⟨h2, calls2, hloop, by omega, ?_, by rw [hseq2, hseq1], by rw [hrx2, hrx1],
          by rw [htx2, htx1], by rw [hcb2, hcb1], ?_⟩
        · refine hsub2.trans ?_
          rw [hreg1]
          exact List.eraseP_sublist _
        · intro hcb
          have := hnum2 (by rw [hcb1]; exact hcb)
          rw [List.length_append, invoke_registered _ _ hcb, List.length_singleton] at this
          omega
      · rw [if_neg hexp]
        obtain ⟨h2, calls2, hloop, hcnt2, hsub2, hseq2, hrx2, htx2, hcb2, hnum2⟩ :=
          ih (i + 1) h calls hc (by omega)
        exact ⟨h2, calls2, hloop, hcnt2, hsub2, hseq2, hrx2, htx2, hcb2, hnum2⟩
    · rw [if_neg hi]
      exact ⟨h, calls, rfl, le_refl _, List.Sublist.refl _, rfl, rfl, rfl, rfl, fun _ => rfl⟩

/-- The sweep returns on every registry within the table; it takes entries away and
changes nothing else. -/
theorem sweep_returns (now : Nat) (h : aSmart_Comm_Handler_t)
    (hc : h.mapping_table_count ≤ 20) :
    ∃ h' calls, check_command_timeouts now h = .ok (h', calls) ∧
      h'.mapping_table_count ≤ h.mapping_table_count ∧
      (registry h').Sublist (registry h) ∧
      h'.sequence_number = h.sequence_number ∧ h'.rx_handler = h.rx_handler ∧
      h'.tx_handler = h.tx_handler ∧ h'.response_callback = h.response_callback ∧
      (h.response_callback = true →
        calls.length + h'.mapping_table_count = h.mapping_table_count) := by
  obtain ⟨h', calls, hloop, h1, h2, h3, h4, h5, h6, h7⟩ :=
    check_loop_returns now (h.mapping_table_count + 1) 0 h [] hc (by omega)
  refine ⟨h', calls, hloop, h1, h2, h3, h4, h5, h6, ?_⟩
  intro hcb
  have := h7 hcb
  rw [List.length_nil] at this
  omega

/-- The lookup by the sequence number of the entry in slot `i` stops at a slot not after
`i`. -/
theorem find_first (h : aSmart_Comm_Handler_t) (i : Nat) (hc : h.mapping_table_count ≤ 20)
    (hi : i < h.mapping_table_count) :
    ∃ k, k ≤ i ∧
      find_command_in_mapping_table h (h.mapping_table i).sequence_number = .ok (some k) ∧
      (h.mapping_table k).sequence_number = (h.mapping_table i).sequence_number := by
  have hmem := slot_mem_registry h i hi
  cases hl : lookup (h.mapping_table i).sequence_number (registry h) with
  | none => exact absurd rfl (lookup_none _ _ hl _ hmem)
  | some e =>
    obtain ⟨hs, l1, l2, hreg, hl1⟩ := lookup_split _ _ e hl
    obtain ⟨hk, hke, hfirst⟩ := first_slot h _ l1 l2 e hreg hl1
    have hki : l1.length ≤ i := by
      by_contra hcon
      exact hfirst i (Nat.zero_le _) (by omega) rfl
    refine ⟨l1.length, hki, ?_, by rw [hke]; exact hs⟩
    unfold find_command_in_mapping_table
    exact find_loop_some h _ l1.length hc hk (by rw [hke]; exact hs) _ _ (by omega) (by omega)
      hfirst

theorem ends_value {α : Type} (good : α → Prop) (allowed : Fault → Prop) (a : α)
    (ha : good a) : ends good allowed (.ok a) :=
  ⟨fun b hb => (by cases hb; exact ha), fun f hf => (by cases hf)⟩

theorem ends_fault {α : Type} (good : α → Prop) (allowed : Fault → Prop) (f : Fault)
    (hf : allowed f) : ends good allowed (.error f : Except Fault α) :=
  ⟨fun b hb => (by cases hb), fun g hg => (by cases hg; exact hf)⟩

theorem ends_bind_of {α β : Type} (mid : α → Prop) (good : β → Prop)
    (allowed : Fault → Prop) (x : Except Fault α) (f : α → Except Fault β)
    (hx : ends mid allowed x) (hf : ∀ a, mid a → ends good allowed (f a)) :
    ends good allowed (x >>= f) := by
  cases x with
  | error e => exact ends_fault good allowed e (hx.2 e rfl)
  | ok a => exact hf a (hx.1 a rfl)

theorem ends_ite {α : Type} (good : α → Prop) (allowed : Fault → Prop) (c : Prop)
    (inst : Decidable c) (a b : Except Fault α) (ha : c → ends good allowed a)
    (hb : ¬ c → ends good allowed b) : ends good allowed (@ite _ c inst a b) := by
  by_cases hc : c
  · rw [if_pos hc]
    exact ha hc
  · rw [if_neg hc]
    exact hb hc

theorem rx_read_ends (b : Nat → Nat) (i : Int) :
    ends (fun _ => True) byte_array_fault (rx_read b i) := by
  unfold rx_read
  split_ifs
  · exact ends_value _ _ _ trivial
  · exact ends_fault _ _ _ (Or.inl ⟨_, rfl⟩)

theorem rx_read_range_ends (b : Nat → Nat) (s n : Nat) :
    ends (fun _ => True) byte_array_fault (rx_read_range b s n) := by
  unfold rx_read_range
  split_ifs
  · exact ends_value _ _ _ trivial
  · exact ends_fault _ _ _ (Or.inl ⟨_, rfl⟩)

theorem stage_payload_ends (b : Nat → Nat) (s n : Nat) :
    ends (fun _ => True) byte_array_fault (stage_payload b s n) := by
  unfold stage_payload
  split_ifs
  · exact ends_fault _ _ _ (Or.inr (Or.inr ⟨_, rfl⟩))
  · exact ends_fault _ _ _ (Or.inl ⟨_, rfl⟩)
  · exact ends_fault _ _ _ (Or.inr (Or.inr ⟨_, rfl⟩))
  · exact ends_value _ _ _ trivial

theorem shrinks_refl (h : aSmart_Comm_Handler_t) : only_registry_shrinks h h :=
  ⟨List.Sublist.refl _, rfl, rfl, rfl, rfl⟩

theorem shrinks_count (h h1 : aSmart_Comm_Handler_t) (hs : only_registry_shrinks h h1) :
    h1.mapping_table_count ≤ h.mapping_table_count := by
  have := hs.1.length_le
  rw [registry_length, registry_length] at this
  exact this

/-- The removal returns and only takes an entry away. -/
theorem remove_shrinks (h : aSmart_Comm_Handler_t) (s : Nat)
    (hc : h.mapping_table_count ≤ 20) :
    ∃ h', remove_command_from_mapping_table h s = .ok h' ∧ only_registry_shrinks h h' := by
  obtain ⟨h', hrem, hreg, _, hseq, hrx, htx, hcb, _⟩ := remove_spec h s hc
  refine ⟨h', hrem, ?_, hseq, hrx, htx, hcb⟩
  rw [hreg]
  exact List.eraseP_sublist _

/-- The dispatch returns, on every kind byte, and only takes an entry away. -/
theorem dispatch_returns (h : aSmart_Comm_Handler_t) (hc : h.mapping_table_count ≤ 20)
    (mt ct sn : Nat) (p : List Nat) (n : Nat) :
    ∃ h1 calls, dispatch_message h mt ct sn p n = .ok (h1, calls) ∧
      only_registry_shrinks h h1 := by
  obtain ⟨h', hrem, hshr⟩ := remove_shrinks h sn hc
  by_cases c1 : mt = MSG_TYPE_RESPONSE
  · subst c1
    rw [dispatch_response]
    cases hl : lookup sn (registry h) with
    | none =>
      rw [find_absent h sn hc hl, ok_bind]
      exact ⟨h, [], rfl, shrinks_refl h⟩
    | some e =>
      obtain ⟨k, hk20, _, hfind⟩ := find_present h sn e hc hl
      rw [hfind, ok_bind]
      simp only []
      rw [table_read_ok _ _ hk20, ok_bind, hrem, ok_bind]
      exact ⟨h', _, rfl, hshr⟩
  · by_cases c2 : mt = MSG_TYPE_COMMAND
    · subst c2
      rw [dispatch_command]
      exact ⟨h, _, rfl, shrinks_refl h⟩
    · by_cases c3 : mt = MSG_TYPE_NOTIFICATION
      · subst c3
        rw [dispatch_notification]
        exact ⟨h, _, rfl, shrinks_refl h⟩
      · by_cases c4 : mt = MSG_TYPE_ERROR
        · subst c4
          rw [dispatch_error]
          by_cases c5 : sn ≠ 0
          · rw [if_pos c5, hrem]
            exact ⟨h', _, rfl, hshr⟩
          · rw [if_neg c5]
            exact ⟨h, _, rfl, shrinks_refl h⟩
        · rw [dispatch_unknown h mt ct sn p n c2 c1 c3 c4]
          exact ⟨h, [], rfl, shrinks_refl h⟩

/-- On every content of the receive buffer the parser returns or stops at an access
outside of a byte array, and when it returns it has only taken an entry away
from the registry at most. -/
theorem process_ends (crc16 : List Nat → Nat) (h : aSmart_Comm_Handler_t)
    (hc : h.mapping_table_count ≤ 20) :
    ends (fun r => only_registry_shrinks h r.1) byte_array_fault
      (process_received_message crc16 h) := by
  have hsame : ends (fun r : aSmart_Comm_Handler_t × List CallbackCall =>
      only_registry_shrinks h r.1) byte_array_fault (pure (h, [])) :=
    ends_value _ _ _ (shrinks_refl h)
  unfold process_received_message
  simp only []
  refine ends_bind_of _ _ _ _ _ (rx_read_ends _ _) (fun first _ => ?_)
  refine ends_ite _ _ _ _ _ _ (fun _ => hsame) (fun _ => ?_)
  refine ends_bind_of _ _ _ _ _ (rx_read_ends _ _) (fun last _ => ?_)
  refine ends_ite _ _ _ _ _ _ (fun _ => hsame) (fun _ => ?_)
  refine ends_bind_of _ _ _ _ _ (rx_read_ends _ _) (fun len_hi _ => ?_)
  refine ends_bind_of _ _ _ _ _ (rx_read_ends _ _) (fun len_lo _ => ?_)
  refine ends_ite _ _ _ _ _ _ (fun _ => hsame) (fun _ => ?_)
  refine ends_bind_of _ _ _ _ _ (rx_read_ends _ _) (fun seq_hi _ => ?_)
  refine ends_bind_of _ _ _ _ _ (rx_read_ends _ _) (fun seq_lo _ => ?_)
  refine ends_bind_of _ _ _ _ _ (rx_read_ends _ _) (fun msg_type _ => ?_)
  refine ends_bind_of _ _ _ _ _ (rx_read_ends _ _) (fun cmd_type _ => ?_)
  refine ends_bind_of _ _ _ _ _ (stage_payload_ends _ _ _) (fun payload _ => ?_)
  refine ends_bind_of _ _ _ _ _ (rx_read_ends _ _) (fun crc_hi _ => ?_)
  refine ends_bind_of _ _ _ _ _ (rx_read_ends _ _) (fun crc_lo _ => ?_)
  refine ends_bind_of _ _ _ _ _ (rx_read_range_ends _ _ _) (fun data _ => ?_)
  refine ends_ite _ _ _ _ _ _ (fun _ => hsame) (fun _ => ?_)
  obtain ⟨h1, calls, hd, hshr⟩ := dispatch_returns h hc msg_type cmd_type
    ((seq_hi <<< 8 % 65536 ||| seq_lo) % 65536) payload
    ((be16 len_hi len_lo + 65536 - 6) % 65536)
  rw [hd]
  exact ends_value _ _ _ hshr

/-- The sweep after the parser of a poll: it returns, and the count stays within the
table. -/
theorem sweep_ends (now : Nat) (h1 : aSmart_Comm_Handler_t) (calls : List CallbackCall)
    (hc : h1.mapping_table_count ≤ 20) :
    ends (fun r => r.1.mapping_table_count ≤ 20) byte_array_fault
      (check_command_timeouts now h1 >>= fun y => pure (y.1, calls ++ y.2)) := by
  obtain ⟨h2, tc, hsweep, hcnt, _⟩ := sweep_returns now h1 hc
  rw [hsweep]
  exact ends_value _ _ _ (by show h2.mapping_table_count ≤ 20; omega)

/-- A poll keeps the count within the table, and it returns unless the parser stops at
an access outside of a byte array. -/
theorem handler_ends (crc16 : List Nat → Nat) (now : Nat) (h : aSmart_Comm_Handler_t)
    (hc : h.mapping_table_count ≤ 20) :
    ends (fun r => r.1.mapping_table_count ≤ 20) byte_array_fault
      (asmart_comm_handler crc16 now h) := by
  unfold asmart_comm_handler
  dsimp only
  refine ends_ite _ _ _ _ _ _ (fun _ => ?_) (fun _ => ?_)
  · refine ends_bind_of _ _ _ _ _ (process_ends crc16 h hc) (fun a ha => ?_)
    obtain ⟨h1, calls⟩ := a
    have hc1 := shrinks_count h h1 ha
    exact sweep_ends now _ calls (by show h1.mapping_table_count ≤ 20; omega)
  · exact sweep_ends now h [] hc

/-- An emit that is not a command keeps the count. -/
theorem emit_ends (h : aSmart_Comm_Handler_t) (hc : h.mapping_table_count ≤ 20)
    (r : Except Fault (aSmart_Comm_Handler_t × List Nat)) (tx : aSmart_TxHandler_t)
    (frame : List Nat)
    (hr : r = .ok ({ h with tx_handler := tx }, frame) ∨ r = .error (.txd_buffer_index 512)) :
    ends (fun r => r.1.mapping_table_count ≤ 20) byte_array_fault
      (r >>= fun x => pure (x.1, [Event.transmit x.2])) := by
  rcases hr with hr | hr
  · rw [hr]
    exact ends_value _ _ _ hc
  · rw [hr]
    exact ends_fault _ _ _ (Or.inr (Or.inl ⟨_, rfl⟩))

/-- Every step keeps the count within the table. -/
theorem step_ends (crc16 : List Nat → Nat) (h : aSmart_Comm_Handler_t) (s : Step)
    (hc : h.mapping_table_count ≤ 20) :
    ends (fun r => r.1.mapping_table_count ≤ 20) byte_array_fault (step crc16 h s) := by
  cases s with
  | send_command now c p =>
    show ends _ _ (asmart_comm_send_command crc16 now h c p >>= fun x =>
      pure (x.1, [Event.transmit x.2]))
    by_cases hp : p.length ≤ 502
    · rw [send_command_eq crc16 now h c p hp]
      refine ends_value _ _ _ ?_
      show (if h.mapping_table_count < MAPPING_TABLE_SIZE then h.mapping_table_count + 1
        else h.mapping_table_count) ≤ 20
      unfold MAPPING_TABLE_SIZE
      split_ifs <;> omega
    · rw [send_command_overrun crc16 now h c p (by omega)]
      exact ends_fault _ _ _ (Or.inr (Or.inl ⟨_, rfl⟩))
  | send_response sn c p =>
    by_cases hp : p.length ≤ 502
    · exact emit_ends h hc _ _ _ (Or.inl (send_other_eq crc16 h sn c p hp).1)
    · exact emit_ends h hc _ ⟨fun _ => 0, 0⟩ []
        (Or.inr (send_other_overrun crc16 h sn c p (by omega)).1)
  | send_notification c p =>
    by_cases hp : p.length ≤ 502
    · exact emit_ends h hc _ _ _ (Or.inl (send_other_eq crc16 h 0 c p hp).2.2)
    · exact emit_ends h hc _ ⟨fun _ => 0, 0⟩ []
        (Or.inr (send_other_overrun crc16 h 0 c p (by omega)).2.2)
  | send_error sn c p =>
    by_cases hp : p.length ≤ 502
    · exact emit_ends h hc _ _ _ (Or.inl (send_other_eq crc16 h sn c p hp).2.1)
    · exact emit_ends h hc _ ⟨fun _ => 0, 0⟩ []
        (Or.inr (send_other_overrun crc16 h sn c p (by omega)).2.1)
  | capture captured_run =>
    exact ends_value _ _ _ hc
  | poll now =>
    show ends _ _ (asmart_comm_handler crc16 now h >>= fun x =>
      pure (x.1, x.2.map Event.callback))
    refine ends_bind_of _ _ _ _ _ (handler_ends crc16 now h hc) (fun a ha => ?_)
    exact ends_value _ _ _ ha

/-- A run keeps the count within the table. -/
theorem run_ends (crc16 : List Nat → Nat) :
    ∀ (steps : List Step) (h : aSmart_Comm_Handler_t), h.mapping_table_count ≤ 20 →
      ends (fun r => r.1.mapping_table_count ≤ 20) byte_array_fault (run crc16 steps h) := by
  intro steps
  induction steps with
  | nil =>
    intro h hc
    exact ends_value _ _ _ hc
  | cons s rest ih =>
    intro h hc
    show ends _ _ (step crc16 h s >>= fun x =>
      run crc16 rest x.1 >>= fun y => pure (y.1, x.2 ++ y.2))
    refine ends_bind_of _ _ _ _ _ (step_ends crc16 h s hc) (fun a ha => ?_)
    refine ends_bind_of _ _ _ _ _ (ih a.1 ha) (fun b hb => ?_)
    exact ends_value _ _ _ hb

/-! ## Errors, for use in polls -/

/-- A valid ERROR frame with a non-zero sequence number: one callback with the fields
of the wire, and the first entry with the sequence number is erased. -/
theorem error_with_number (crc16 : List Nat → Nat) (h : aSmart_Comm_Handler_t)
    (hv : valid_frame crc16 h) (hk : wire_msg_type h = MSG_TYPE_ERROR)
    (hs : wire_seq_num h ≠ 0) (hcount : h.mapping_table_count ≤ 20) :
    ∃ h', process_received_message crc16 h
        = .ok (h', invoke h ⟨MSG_TYPE_ERROR, wire_cmd_type h, wire_seq_num h,
            some (wire_payload h), h.rx_handler.rxd_index - 10⟩) ∧
      registry h' = erase_first (wire_seq_num h) (registry h) ∧
      h'.mapping_table_count = (erase_first (wire_seq_num h) (registry h)).length ∧
      h'.sequence_number = h.sequence_number ∧ h'.rx_handler = h.rx_handler ∧
      h'.response_callback = h.response_callback := by
  have hproc := process_valid crc16 h hv
  rw [hk, dispatch_error, if_pos hs] at hproc
  obtain ⟨h', hrem, hreg, hcnt, hseq, hrx, _, hcb, _⟩ := remove_spec h (wire_seq_num h) hcount
  rw [hrem] at hproc
  exact ⟨h', hproc, hreg, hcnt, hseq, hrx, hcb⟩

/-! ## Frames of any payload length in the receive buffer -/

/-- A captured frame of the layout passes the three checks of the parser, whatever the
length of its payload within the transmit buffer. -/
theorem receive_frame_checks (crc16 : List Nat → Nat) (h : aSmart_Comm_Handler_t)
    (mt sn ct : Nat) (p : List Nat) (hp : p.length ≤ 502) (hsn : sn < 65536) :
    markers_ok (receive h (frame_bytes crc16 mt sn ct p)) ∧
      length_ok (receive h (frame_bytes crc16 mt sn ct p)) ∧
      crc_ok crc16 (receive h (frame_bytes crc16 mt sn ct p)) ∧
      wire_msg_type (receive h (frame_bytes crc16 mt sn ct p)) = mt ∧
      (receive h (frame_bytes crc16 mt sn ct p)).rx_handler.rxd_index = p.length + 10 := by
  have hidx : (receive h (frame_bytes crc16 mt sn ct p)).rx_handler.rxd_index
      = p.length + 10 := by
    rw [receive_index, frame_bytes_length]
  have hbuf : ∀ i, i < p.length + 10 →
      (receive h (frame_bytes crc16 mt sn ct p)).rx_handler.rxd_buffer i
        = frame_layout crc16 (fun _ => 0) mt sn ct p i := by
    intro i hi
    rw [receive_byte _ _ _ (by rw [frame_bytes_length]; exact hi)]
    exact frame_bytes_getD _ _ _ _ _ _ _ hi
  obtain ⟨hm, hl, hc, hmt, _⟩ := layout_checks crc16 _ mt sn ct p _ hp hsn hidx hbuf
  exact ⟨hm, hl, hc, hmt, hidx⟩

/-- A valid frame with a kind byte that is none of the four kinds is dropped: no
callback, state unchanged. -/
theorem unknown_kind_dropped (crc16 : List Nat → Nat) (h : aSmart_Comm_Handler_t)
    (hv : valid_frame crc16 h)
    (h1 : wire_msg_type h ≠ MSG_TYPE_COMMAND) (h2 : wire_msg_type h ≠ MSG_TYPE_RESPONSE)
    (h3 : wire_msg_type h ≠ MSG_TYPE_NOTIFICATION) (h4 : wire_msg_type h ≠ MSG_TYPE_ERROR) :
    process_received_message crc16 h = .ok (h, []) := by
  rw [process_valid crc16 h hv]
  exact dispatch_unknown h _ _ _ _ _ h1 h2 h3 h4

/-! ## The parser with its reads checked against the captured length -/

/-- With the size of the receive buffer as limit, the parser with checked reads is the
parser. -/
theorem process_below_buffer_size (crc16 : List Nat → Nat) (h : aSmart_Comm_Handler_t) :
    process_received_message_below RECEIVE_BUFFER_SIZE crc16 h
      = process_received_message crc16 h := rfl

theorem rx_read_below_nat (limit : Nat) (b : Nat → Nat) (i : Nat) (h : i < limit) :
    rx_read_below limit b (i : Int) = .ok (b i) := by
  unfold rx_read_below
  rw [if_pos (by omega)]
  simp

theorem rx_read_below_sub (limit : Nat) (b : Nat → Nat) (L k : Nat) (h1 : k ≤ L)
    (h2 : L - k < limit) :
    rx_read_below limit b ((L : Int) - (k : Int)) = .ok (b (L - k)) := by
  unfold rx_read_below
  rw [if_pos (by omega)]
  have : ((L : Int) - (k : Int)).toNat = L - k := by omega
  rw [this]

/-- A run of 10 to 265 bytes that passes the marker and length checks is parsed with
reads below the captured length only: the parser with the reads checked against the
captured length reaches the dispatch when the checksum matches and drops the run
otherwise. -/
theorem process_below_small (crc16 : List Nat → Nat) (h : aSmart_Comm_Handler_t)
    (hL1 : 10 ≤ h.rx_handler.rxd_index) (hL2 : h.rx_handler.rxd_index ≤ 265)
    (hm : markers_ok h) (hlen : length_ok h) :
    process_received_message_below h.rx_handler.rxd_index crc16 h
      = if crc_ok crc16 h then
          dispatch_message h (wire_msg_type h) (wire_cmd_type h) (wire_seq_num h)
            (wire_payload h) (h.rx_handler.rxd_index - 10)
        else .ok (h, []) := by
  obtain ⟨hm1, hm2⟩ := hm
  unfold length_ok at hlen
  unfold crc_ok
  unfold rx_byte at *
  have hml : be16 (h.rx_handler.rxd_buffer 1) (h.rx_handler.rxd_buffer 2)
      = h.rx_handler.rxd_index - 4 := by omega
  unfold process_received_message_below
  have r0 := rx_read_below_nat h.rx_handler.rxd_index h.rx_handler.rxd_buffer 0 (by omega)
  have r1 := rx_read_below_nat h.rx_handler.rxd_index h.rx_handler.rxd_buffer 1 (by omega)
  have r2 := rx_read_below_nat h.rx_handler.rxd_index h.rx_handler.rxd_buffer 2 (by omega)
  have r3 := rx_read_below_nat h.rx_handler.rxd_index h.rx_handler.rxd_buffer 3 (by omega)
  have r4 := rx_read_below_nat h.rx_handler.rxd_index h.rx_handler.rxd_buffer 4 (by omega)
  have r5 := rx_read_below_nat h.rx_handler.rxd_index h.rx_handler.rxd_buffer 5 (by omega)
  have r6 := rx_read_below_nat h.rx_handler.rxd_index h.rx_handler.rxd_buffer 6 (by omega)
  have s1 := rx_read_below_sub h.rx_handler.rxd_index h.rx_handler.rxd_buffer
    h.rx_handler.rxd_index 1 (by omega) (by omega)
  have s2 := rx_read_below_sub h.rx_handler.rxd_index h.rx_handler.rxd_buffer
    h.rx_handler.rxd_index 2 (by omega) (by omega)
  have s3 := rx_read_below_sub h.rx_handler.rxd_index h.rx_handler.rxd_buffer
    h.rx_handler.rxd_index 3 (by omega) (by omega)
  simp only [Nat.cast_ofNat, Nat.cast_zero, Nat.cast_one] at r0 r1 r2 r3 r4 r5 r6 s1 s2 s3
  simp only [r0, r1, r2, r3, r4, r5, r6, s1, s2, s3]
  rw [ok_bind, if_neg (not_not.mpr hm1), ok_bind, if_neg (not_not.mpr hm2), ok_bind, ok_bind]
  rw [if_neg (not_not.mpr hlen), ok_bind, ok_bind, ok_bind, ok_bind]
  have e : (be16 (h.rx_handler.rxd_buffer 1) (h.rx_handler.rxd_buffer 2) + 65536 - 6) % 65536
      = h.rx_handler.rxd_index - 10 := by omega
  have hstage : stage_payload_below h.rx_handler.rxd_index h.rx_handler.rxd_buffer 7
      ((be16 (h.rx_handler.rxd_buffer 1) (h.rx_handler.rxd_buffer 2) + 65536 - 6) % 65536)
      = .ok (slice h.rx_handler.rxd_buffer 7 (h.rx_handler.rxd_index - 10)) := by
    rw [e]
    unfold stage_payload_below PAYLOAD_STAGING_SIZE
    rw [if_neg (by omega), if_neg (by omega), if_neg (by omega)]
  have hrange : rx_read_range_below h.rx_handler.rxd_index h.rx_handler.rxd_buffer 1
      (be16 (h.rx_handler.rxd_buffer 1) (h.rx_handler.rxd_buffer 2))
      = .ok (slice h.rx_handler.rxd_buffer 1 (h.rx_handler.rxd_index - 4)) := by
    rw [hml]
    unfold rx_read_range_below
    rw [if_pos (by omega)]
  rw [hstage, ok_bind, ok_bind, ok_bind, hrange, ok_bind, e]
  by_cases hcrc : be16 (h.rx_handler.rxd_buffer (h.rx_handler.rxd_index - 3))
      (h.rx_handler.rxd_buffer (h.rx_handler.rxd_index - 2))
      = crc16 (slice h.rx_handler.rxd_buffer 1 (h.rx_handler.rxd_index - 4)) % 65536
  · rw [if_neg (not_not.mpr hcrc), if_pos hcrc]
    rfl
  · rw [if_pos hcrc, if_neg hcrc]
    rfl

/-- The parser on a run of 10 to 265 bytes that passes the marker and length checks. -/
theorem process_small (crc16 : List Nat → Nat) (h : aSmart_Comm_Handler_t)
    (hL1 : 10 ≤ h.rx_handler.rxd_index) (hL2 : h.rx_handler.rxd_index ≤ 265)
    (hm : markers_ok h) (hlen : length_ok h) :
    process_received_message crc16 h
      = if crc_ok crc16 h then
          dispatch_message h (wire_msg_type h) (wire_cmd_type h) (wire_seq_num h)
            (wire_payload h) (h.rx_handler.rxd_index - 10)
        else .ok (h, []) := by
  by_cases hcrc : crc_ok crc16 h
  · rw [if_pos hcrc]
    exact process_valid crc16 h ⟨hL1, hL2, hm, hlen, hcrc⟩
  · rw [if_neg hcrc]
    exact process_crc_mismatch crc16 h hL1 hL2 hm hlen hcrc

/-- Every call the dispatch makes carries the kind, the sequence number, the payload and
the payload length it was given. -/
theorem dispatch_calls (h h1 : aSmart_Comm_Handler_t) (mt ct sn : Nat) (p : List Nat)
    (n : Nat) (calls : List CallbackCall)
    (hd : dispatch_message h mt ct sn p n = .ok (h1, calls)) :
    ∀ c ∈ calls, c.message_type = mt ∧ c.sequence_number = sn ∧ c.payload = some p ∧
      c.length = n := by
  have hinv : ∀ (x : Nat) (c : CallbackCall), c ∈ invoke h ⟨mt, x, sn, some p, n⟩ →
      c.message_type = mt ∧ c.sequence_number = sn ∧ c.payload = some p ∧ c.length = n := by
    intro x c hc
    unfold invoke at hc
    split_ifs at hc
    · rw [List.mem_singleton] at hc
      rw [hc]
      exact ⟨rfl, rfl, rfl, rfl⟩
    · exact absurd hc (List.not_mem_nil _)
  by_cases c1 : mt = MSG_TYPE_RESPONSE
  · subst c1
    rw [dispatch_response] at hd
    cases hf : find_command_in_mapping_table h sn with
    | error f => rw [hf] at hd; cases hd
    | ok found =>
      rw [hf, ok_bind] at hd
      cases found with
      | none =>
        have : (h, ([] : List CallbackCall)) = (h1, calls) := Except.ok.inj hd
        injection this with _ e2
        rw [← e2]
        intro c hc
        exact absurd hc (List.not_mem_nil _)
      | some i =>
        simp only [] at hd
        cases ht : table_read h.mapping_table i with
        | error f => rw [ht] at hd; cases hd
        | ok entry =>
          rw [ht, ok_bind] at hd
          cases hr : remove_command_from_mapping_table h sn with
          | error f => rw [hr] at hd; cases hd
          | ok h' =>
            rw [hr, ok_bind] at hd
            have : (h', invoke h ⟨MSG_TYPE_RESPONSE, entry.command_type, sn, some p, n⟩)
                = (h1, calls) := Except.ok.inj hd
            injection this with _ e2
            rw [← e2]
            exact hinv _
  · by_cases c2 : mt = MSG_TYPE_COMMAND
    · subst c2
      rw [dispatch_command] at hd
      have : (h, invoke h ⟨MSG_TYPE_COMMAND, ct, sn, some p, n⟩) = (h1, calls) :=
        Except.ok.inj hd
      injection this with _ e2
      rw [← e2]
      exact hinv _
    · by_cases c3 : mt = MSG_TYPE_NOTIFICATION
      · subst c3
        rw [dispatch_notification] at hd
        have : (h, invoke h ⟨MSG_TYPE_NOTIFICATION, ct, sn, some p, n⟩) = (h1, calls) :=
          Except.ok.inj hd
        injection this with _ e2
        rw [← e2]
        exact hinv _
      · by_cases c4 : mt = MSG_TYPE_ERROR
        · subst c4
          rw [dispatch_error] at hd
          by_cases c5 : sn ≠ 0
          · rw [if_pos c5] at hd
            cases hr : remove_command_from_mapping_table h sn with
            | error f => rw [hr] at hd; cases hd
            | ok h' =>
              rw [hr] at hd
              have : (h', invoke h ⟨MSG_TYPE_ERROR, ct, sn, some p, n⟩) = (h1, calls) :=
                Except.ok.inj hd
              injection this with _ e2
              rw [← e2]
              exact hinv _
          · rw [if_neg c5] at hd
            have : (h, invoke h ⟨MSG_TYPE_ERROR, ct, sn, some p, n⟩) = (h1, calls) :=
              Except.ok.inj hd
            injection this with _ e2
            rw [← e2]
            exact hinv _
        · rw [dispatch_unknown h mt ct sn p n c2 c1 c3 c4] at hd
          have : (h, ([] : List CallbackCall)) = (h1, calls) := Except.ok.inj hd
          injection this with _ e2
          rw [← e2]
          intro c hc
          exact absurd hc (List.not_mem_nil _)

/-- The payload field of the receive buffer is the part of the captured run from byte 7
to byte `L - 4`. -/
theorem wire_payload_captured (h : aSmart_Comm_Handler_t)
    (hL : 10 ≤ h.rx_handler.rxd_index) :
    wire_payload h = ((captured h).drop 7).take (h.rx_handler.rxd_index - 10) := by
  unfold wire_payload captured
  apply List.ext_getElem?
  intro k
  by_cases hk : k < h.rx_handler.rxd_index - 10
  · rw [List.getElem?_take_of_lt hk, List.getElem?_drop]
    unfold slice
    rw [List.getElem?_map, List.getElem?_map, List.getElem?_range hk,
      List.getElem?_range (by omega)]
    simp
  · rw [List.getElem?_eq_none (by rw [slice_length]; omega),
      List.getElem?_eq_none (by rw [List.length_take]; omega)]

/-! ## C21: a poll parses at most one frame -/

/-- C21: poll processes at most one frame. On a handler with a registry within its 20
slots: when the ready flag is clear, `asmart_comm_handler` is the timeout sweep alone
(the receive buffer is not parsed) and it returns; when the ready flag is set, it runs
`process_received_message` once, and if the parser returns (the frame accepted or
rejected) it resets the ready flag and the captured length, runs the sweep and returns
the calls of the frame followed by the calls of the sweep; afterwards the ready flag
is 0 and the captured length is 0, so that a following poll with no new capture is
the timeout sweep alone again: no parse, no frame event. A fault of the parser (an
access outside of an array) is the result of the poll. -/
theorem poll_parses_at_most_once (crc16 : List Nat → Nat) (now later : Nat)
    (h : aSmart_Comm_Handler_t) (hcount : h.mapping_table_count ≤ MAPPING_TABLE_SIZE) :
    (h.rx_handler.message_ready = 0 →
      asmart_comm_handler crc16 now h = check_command_timeouts now h ∧
      ∃ h2 tc, check_command_timeouts now h = .ok (h2, tc) ∧
        h2.rx_handler = h.rx_handler) ∧
    (h.rx_handler.message_ready ≠ 0 →
      (∀ f, process_received_message crc16 h = .error f →
        asmart_comm_handler crc16 now h = .error f) ∧
      ∀ h1 calls, process_received_message crc16 h = .ok (h1, calls) →
        ∃ h2 tc,
          check_command_timeouts now { h1 with
            rx_handler := { h1.rx_handler with message_ready := 0, rxd_index := 0 } }
            = .ok (h2, tc) ∧
          asmart_comm_handler crc16 now h = .ok (h2, calls ++ tc) ∧
          h2.rx_handler.message_ready = 0 ∧ h2.rx_handler.rxd_index = 0 ∧
          asmart_comm_handler crc16 later h2 = check_command_timeouts later h2) := by
  refine ⟨?_, ?_⟩
  · intro hidle
    obtain ⟨h2, tc, hsweep, _, _, _, hrx, _⟩ := sweep_returns now h hcount
    exact ⟨poll_idle crc16 now h hidle, h2, tc, hsweep, hrx⟩
  · intro hready
    refine ⟨?_, ?_⟩
    · intro f hf
      unfold asmart_comm_handler
      dsimp only
      rw [if_pos hready, hf]
      rfl
    · intro h1 calls hproc
      have hshr := (process_ends crc16 h hcount).1 (h1, calls) hproc
      have hc1 := shrinks_count h h1 hshr
      obtain ⟨hr, hrdef⟩ : ∃ hr : aSmart_Comm_Handler_t, hr = { h1 with
          rx_handler := { h1.rx_handler with message_ready := 0, rxd_index := 0 } } :=
        ⟨_, rfl⟩
      have hcr : hr.mapping_table_count ≤ 20 := by
        rw [hrdef]
        show h1.mapping_table_count ≤ 20
        unfold MAPPING_TABLE_SIZE at hcount
        omega
      obtain ⟨h2, tc, hsweep, _, _, _, hrx, _⟩ := sweep_returns now hr hcr
      have hready2 : h2.rx_handler.message_ready = 0 := by rw [hrx, hrdef]
      have hindex2 : h2.rx_handler.rxd_index = 0 := by rw [hrx, hrdef]
      refine ⟨h2, tc, by rw [← hrdef]; exact hsweep,
        poll_ready crc16 now h h1 hr h2 calls tc hready hproc hrdef hsweep, hready2, hindex2,
        poll_idle crc16 later h2 hready2⟩

/-- Witness of the single parse: the response to command 5 captured while commands 5, 7
and 9 are pending, polled at tick 160 and again at tick 161. -/
theorem poll_parses_at_most_once_witness :
    (receive pending_handler
      (frame_bytes sample_crc16 MSG_TYPE_RESPONSE 5 0x10 [1])).mapping_table_count
        ≤ MAPPING_TABLE_SIZE ∧
    (receive pending_handler
      (frame_bytes sample_crc16 MSG_TYPE_RESPONSE 5 0x10 [1])).rx_handler.message_ready
        ≠ 0 ∧
    (process_received_message sample_crc16 (receive pending_handler
      (frame_bytes sample_crc16 MSG_TYPE_RESPONSE 5 0x10 [1]))).toOption.map (fun r => r.2)
        = some [⟨MSG_TYPE_RESPONSE, 0x10, 5, some [1], 1⟩] ∧
    ∃ h2, asmart_comm_handler sample_crc16 160 (receive pending_handler
        (frame_bytes sample_crc16 MSG_TYPE_RESPONSE 5 0x10 [1]))
        = .ok (h2, [⟨MSG_TYPE_RESPONSE, 0x10, 5, some [1], 1⟩]) ∧
      h2.rx_handler.message_ready = 0 ∧ h2.rx_handler.rxd_index = 0 ∧
      asmart_comm_handler sample_crc16 161 h2 = check_command_timeouts 161 h2 := by
  obtain ⟨_, hset⟩ := poll_parses_at_most_once sample_crc16 160 161
    (receive pending_handler (frame_bytes sample_crc16 MSG_TYPE_RESPONSE 5 0x10 [1]))
    (by decide)
  obtain ⟨_, hok⟩ := hset (by decide)
  cases hp : process_received_message sample_crc16 (receive pending_handler
      (frame_bytes sample_crc16 MSG_TYPE_RESPONSE 5 0x10 [1])) with
  | error f =>
    have hd : (process_received_message sample_crc16 (receive pending_handler
      (frame_bytes sample_crc16 MSG_TYPE_RESPONSE 5 0x10 [1]))).toOption.map (fun r => r.2)
        = some [⟨MSG_TYPE_RESPONSE, 0x10, 5, some [1], 1⟩] := by decide
    rw [hp] at hd
    exact absurd hd (by intro hc; cases hc)
  | ok r =>
    obtain ⟨h1, calls⟩ := r
    have hd : (process_received_message sample_crc16 (receive pending_handler
      (frame_bytes sample_crc16 MSG_TYPE_RESPONSE 5 0x10 [1]))).toOption.map (fun r => r.2)
        = some [⟨MSG_TYPE_RESPONSE, 0x10, 5, some [1], 1⟩] := by decide
    have hcalls : calls = [⟨MSG_TYPE_RESPONSE, 0x10, 5, some [1], 1⟩] := by
      rw [hp] at hd
      exact Option.some.inj hd
    obtain ⟨h2, tc, hsweep, hpoll, hr2, hi2, hnext⟩ := hok h1 calls hp
    have htc : (asmart_comm_handler sample_crc16 160 (receive pending_handler
        (frame_bytes sample_crc16 MSG_TYPE_RESPONSE 5 0x10 [1]))).toOption.map (fun r => r.2)
        = some [⟨MSG_TYPE_RESPONSE, 0x10, 5, some [1], 1⟩] := by decide
    rw [hpoll] at htc
    have htc' : calls ++ tc = [⟨MSG_TYPE_RESPONSE, 0x10, 5, some [1], 1⟩] :=
      Option.some.inj htc
    rw [htc'] at hpoll
    refine ⟨by decide, by decide, ?_, h2, hpoll, hr2, hi2, hnext⟩
    rw [← hcalls]
    rfl

/-! ## C22: removal keeps the order -/

/-- C22: order-preserving removal. For every registry (within its 20 slots) and every
sequence number s, `remove_command_from_mapping_table` returns; if an entry has the
sequence number s, the registry is split at the first such entry, that entry alone is
deleted, the count is decremented by exactly one, and every other entry keeps its
contents and its relative order; if no entry has the sequence number s the handler,
and so the entries and the count, are unchanged. In both cases the registry
afterwards is the list without its first entry with s, and no field other than the
mapping table and its count changes. -/
theorem removal_preserves_order (h : aSmart_Comm_Handler_t) (s : Nat)
    (hcount : h.mapping_table_count ≤ MAPPING_TABLE_SIZE) :
    ∃ h', remove_command_from_mapping_table h s = .ok h' ∧
      registry h' = erase_first s (registry h) ∧
      (∀ e, lookup s (registry h) = some e →
        ∃ l1 l2, registry h = l1 ++ e :: l2 ∧ (∀ a ∈ l1, a.sequence_number ≠ s) ∧
          e.sequence_number = s ∧ registry h' = l1 ++ l2 ∧
          h'.mapping_table_count + 1 = h.mapping_table_count) ∧
      (lookup s (registry h) = none → h' = h) ∧
      h'.sequence_number = h.sequence_number ∧ h'.rx_handler = h.rx_handler ∧
      h'.tx_handler = h.tx_handler ∧ h'.response_callback = h.response_callback := by
  obtain ⟨h', hrem, hreg, hcnt, hseq, hrx, htx, hcb, hsame⟩ := remove_spec h s hcount
  refine ⟨h', hrem, hreg, ?_, hsame, hseq, hrx, htx, hcb⟩
  intro e he
  obtain ⟨hs, l1, l2, hsplit, hl1⟩ := lookup_split s _ e he
  have herase : erase_first s (registry h) = l1 ++ l2 := by
    rw [hsplit]
    exact erase_first_split s l1 l2 e hl1 hs
  refine ⟨l1, l2, hsplit, hl1, hs, by rw [hreg, herase], ?_⟩
  have hlen : h.mapping_table_count = (l1 ++ e :: l2).length := by
    rw [← hsplit, registry_length]
  rw [hcnt, herase, hlen]
  simp only [List.length_append, List.length_cons]
  omega

/-- Witness of the removal: sequence number 7 removed while commands 5, 7 and 9 are
pending; commands 5 and 9 remain, in this order. -/
theorem removal_preserves_order_witness :
    pending_handler.mapping_table_count ≤ MAPPING_TABLE_SIZE ∧
    lookup 7 (registry pending_handler) = some ⟨7, 0x11, 50⟩ ∧
    ∃ h', remove_command_from_mapping_table pending_handler 7 = .ok h' ∧
      registry h' = [⟨5, 0x10, 10⟩, ⟨9, 0x12, 100⟩] ∧
      h'.mapping_table_count + 1 = 3 := by
  obtain ⟨h', h1, h2, h3, _⟩ := removal_preserves_order pending_handler 7 (by decide)
  obtain ⟨l1, l2, _, _, _, _, h4⟩ := h3 ⟨7, 0x11, 50⟩ (by decide)
  exact ⟨by decide, by decide, h', h1, h2, h4⟩

/-! ## C23: recording a command -/

/-- C23: record appends or is a no-op. For every registry with count < 20,
`add_command_to_mapping_table` with (seq, cmd) at tick `now` yields a registry that is
the old entries, unchanged and in order, followed by the new entry (seq, cmd, now) as
the last entry, with the count increased by one; a lookup of seq then succeeds, by the
list lookup and by `find_command_in_mapping_table` (it finds the new entry when no
older entry has the sequence number seq, else the first older one); for a registry
with count = 20 (the guard `count < 20` of the function fails) the handler, and so the
entries and the count, are unchanged. No field other than the mapping table and its
count changes. -/
theorem record_appends_or_noop (now : Nat) (h : aSmart_Comm_Handler_t) (seq cmd : Nat) :
    (h.mapping_table_count < MAPPING_TABLE_SIZE →
      registry (add_command_to_mapping_table now h seq cmd)
        = registry h ++ [⟨seq, cmd, now⟩] ∧
      (add_command_to_mapping_table now h seq cmd).mapping_table_count
        = h.mapping_table_count + 1 ∧
      (∃ e, lookup seq (registry (add_command_to_mapping_table now h seq cmd)) = some e ∧
        e.sequence_number = seq) ∧
      (lookup seq (registry h) = none →
        lookup seq (registry (add_command_to_mapping_table now h seq cmd))
          = some ⟨seq, cmd, now⟩) ∧
      ∃ k, find_command_in_mapping_table (add_command_to_mapping_table now h seq cmd) seq
          = .ok (some k) ∧
        ((add_command_to_mapping_table now h seq cmd).mapping_table k).sequence_number
          = seq) ∧
    (MAPPING_TABLE_SIZE ≤ h.mapping_table_count →
      add_command_to_mapping_table now h seq cmd = h) ∧
    (add_command_to_mapping_table now h seq cmd).sequence_number = h.sequence_number ∧
    (add_command_to_mapping_table now h seq cmd).rx_handler = h.rx_handler ∧
    (add_command_to_mapping_table now h seq cmd).tx_handler = h.tx_handler ∧
    (add_command_to_mapping_table now h seq cmd).response_callback
      = h.response_callback := by
  refine ⟨?_, ?_, ?_, ?_, ?_, ?_⟩
  · intro hlt
    have hadd : add_command_to_mapping_table now h seq cmd
        = { sequence_number := h.sequence_number
            mapping_table := Function.update h.mapping_table h.mapping_table_count
              ⟨seq, cmd, now⟩
            mapping_table_count := h.mapping_table_count + 1
            rx_handler := h.rx_handler
            tx_handler := h.tx_handler
            response_callback := h.response_callback } := by
      unfold add_command_to_mapping_table
      rw [if_pos hlt]
    have hreg : registry (add_command_to_mapping_table now h seq cmd)
        = registry h ++ [⟨seq, cmd, now⟩] := by
      rw [hadd]
      exact registry_append h _ _ _ _ _
    have hcnt : (add_command_to_mapping_table now h seq cmd).mapping_table_count
        = h.mapping_table_count + 1 := by
      rw [hadd]
    have hfound : ∃ e, lookup seq (registry (add_command_to_mapping_table now h seq cmd))
        = some e ∧ e.sequence_number = seq := by
      cases hl : lookup seq (registry (add_command_to_mapping_table now h seq cmd)) with
      | none =>
        have := lookup_none seq _ hl ⟨seq, cmd, now⟩ (by rw [hreg]; simp)
        exact absurd rfl this
      | some e => exact ⟨e, rfl, (lookup_split seq _ e hl).1⟩
    refine ⟨hreg, hcnt, hfound, ?_, ?_⟩
    · intro hno
      rw [hreg]
      unfold lookup at hno ⊢
      rw [List.find?_append, hno]
      simp
    · obtain ⟨e, he, hes⟩ := hfound
      obtain ⟨k, _, hke, hfind⟩ := find_present _ seq e
        (by rw [hcnt]; unfold MAPPING_TABLE_SIZE at hlt; omega) he
      exact ⟨k, hfind, by rw [hke]; exact hes⟩
  · intro heq
    unfold add_command_to_mapping_table
    rw [if_neg (by omega)]
  all_goals
    unfold add_command_to_mapping_table
    split_ifs <;> rfl

/-- Witness of the record: command (8, 0x13) recorded at tick 120 while commands 5, 7
and 9 are pending. -/
theorem record_appends_or_noop_witness :
    pending_handler.mapping_table_count < MAPPING_TABLE_SIZE ∧
    registry (add_command_to_mapping_table 120 pending_handler 8 0x13)
      = [⟨5, 0x10, 10⟩, ⟨7, 0x11, 50⟩, ⟨9, 0x12, 100⟩, ⟨8, 0x13, 120⟩] ∧
    (add_command_to_mapping_table 120 pending_handler 8 0x13).mapping_table_count = 4 ∧
    lookup 8 (registry (add_command_to_mapping_table 120 pending_handler 8 0x13))
      = some ⟨8, 0x13, 120⟩ := by
  obtain ⟨h1, _⟩ := record_appends_or_noop 120 pending_handler 8 0x13
  obtain ⟨h2, h3, _, h5, _⟩ := h1 (by decide)
  exact ⟨by decide, h2, h3, h5 (by decide)⟩

/-! ## C24: the assembler is a function of its inputs -/

/-- C24: assembler purity. For every two handler states and equal inputs (kind,
sequence number, code, payload of length n ≤ 502), `assemble_message` returns on both
with the same `txd_length` n + 10 and the same first n + 10 bytes of the transmit
buffer, the frame of the inputs, whatever the previous contents of the transmit
buffers and whatever the registries, counters and receive states; and on each handler
it changes no field other than the transmit buffer and the transmit length. -/
theorem assembler_pure (crc16 : List Nat → Nat) (h1 h2 : aSmart_Comm_Handler_t)
    (kind seq code : Nat) (payload : List Nat) (hp : payload.length ≤ 502) :
    ∃ s1 s2, assemble_message crc16 h1 kind seq code payload = .ok s1 ∧
      assemble_message crc16 h2 kind seq code payload = .ok s2 ∧
      s1.tx_handler.txd_length = payload.length + 10 ∧
      s2.tx_handler.txd_length = payload.length + 10 ∧
      (∀ i, i < payload.length + 10 →
        s1.tx_handler.txd_buffer i = s2.tx_handler.txd_buffer i) ∧
      transmitted s1 = frame_bytes crc16 kind seq code payload ∧
      transmitted s2 = frame_bytes crc16 kind seq code payload ∧
      only_transmit_changed h1 s1 ∧ only_transmit_changed h2 s2 := by
  refine ⟨_, _, assemble_message_eq crc16 h1 kind seq code payload hp,
    assemble_message_eq crc16 h2 kind seq code payload hp, rfl, rfl, ?_,
    transmitted_layout crc16 h1 _ kind seq code payload,
    transmitted_layout crc16 h2 _ kind seq code payload,
    ⟨rfl, rfl, rfl, rfl, rfl⟩, ⟨rfl, rfl, rfl, rfl, rfl⟩⟩
  intro i hi
  exact frame_layout_old crc16 _ _ kind seq code payload i hi

/-- Witness of the purity of the assembler: a response with sequence number 300, code
0x20 and payload 09, assembled on a cleared handler and on a handler with three pending
commands. -/
theorem assembler_pure_witness :
    [9].length ≤ 502 ∧
    ∃ s1 s2, assemble_message sample_crc16 idle_handler MSG_TYPE_RESPONSE 300 0x20 [9]
        = .ok s1 ∧
      assemble_message sample_crc16 pending_handler MSG_TYPE_RESPONSE 300 0x20 [9]
        = .ok s2 ∧
      s1.tx_handler.txd_length = 11 ∧ s2.tx_handler.txd_length = 11 ∧
      transmitted s1 = [0x02, 0x00, 0x07, 0x01, 0x2C, 0x02, 0x20, 0x09, 0xE2, 0xBA, 0x03] ∧
      transmitted s2 = [0x02, 0x00, 0x07, 0x01, 0x2C, 0x02, 0x20, 0x09, 0xE2, 0xBA, 0x03] ∧
      registry s2 = registry pending_handler := by
  obtain ⟨s1, s2, a1, a2, a3, a4, _, a6, a7, _, a9⟩ :=
    assembler_pure sample_crc16 idle_handler pending_handler MSG_TYPE_RESPONSE 300 0x20 [9]
      (by decide)
  have hf : frame_bytes sample_crc16 MSG_TYPE_RESPONSE 300 0x20 [9]
      = [0x02, 0x00, 0x07, 0x01, 0x2C, 0x02, 0x20, 0x09, 0xE2, 0xBA, 0x03] := by decide
  rw [hf] at a6 a7
  refine ⟨by decide, s1, s2, a1, a2, a3, a4, a6, a7, ?_⟩
  obtain ⟨_, b2, b3, _⟩ := a9
  unfold registry
  rw [b2, b3]

/-! ## C25: the frame is processed before the sweep -/

/-- C25, amended: frame before sweep in a registry with pairwise distinct sequence
numbers. If at the time of a poll the ready flag is set and the
captured run is a valid RESPONSE, or a valid ERROR with non-zero sequence number, for a
sequence number s that has a registry entry (registry within its 20 slots, pairwise
distinct sequence numbers, callback registered), then, at whatever tick the poll is
made and so also when the entry is already older than 5000 ms, that poll returns; its
first call is the response (or error) event for s, with the recorded command type for a
response and the code of the wire for an error; the entry is removed before the sweep
looks at the registry, so the other calls are the timeout calls of the other timed out
entries and none of them carries the sequence number s; afterwards s is not found in
the registry. -/
theorem frame_before_sweep (crc16 : List Nat → Nat) (now : Nat)
    (h : aSmart_Comm_Handler_t) (e : CommandEntry_t)
    (hv : valid_frame crc16 h)
    (hk : wire_msg_type h = MSG_TYPE_RESPONSE ∨
      (wire_msg_type h = MSG_TYPE_ERROR ∧ wire_seq_num h ≠ 0))
    (hready : h.rx_handler.message_ready ≠ 0)
    (he : lookup (wire_seq_num h) (registry h) = some e)
    (hnd : ((registry h).map CommandEntry_t.sequence_number).Nodup)
    (hcb : h.response_callback = true)
    (hcount : h.mapping_table_count ≤ MAPPING_TABLE_SIZE) :
    ∃ h2 tc, asmart_comm_handler crc16 now h
        = .ok (h2, ⟨wire_msg_type h,
            if wire_msg_type h = MSG_TYPE_RESPONSE then e.command_type else wire_cmd_type h,
            wire_seq_num h, some (wire_payload h), h.rx_handler.rxd_index - 10⟩ :: tc) ∧
      tc = (((erase_first (wire_seq_num h) (registry h)).filter (expired now)).map
        timeout_call) ∧
      (∀ c ∈ tc, c.sequence_number ≠ wire_seq_num h) ∧
      registry h2 = (erase_first (wire_seq_num h) (registry h)).filter
        (fun x => !expired now x) ∧
      lookup (wire_seq_num h) (registry h2) = none := by
  -- the frame
  have hframe : ∃ h1, process_received_message crc16 h
        = .ok (h1, [⟨wire_msg_type h,
            if wire_msg_type h = MSG_TYPE_RESPONSE then e.command_type else wire_cmd_type h,
            wire_seq_num h, some (wire_payload h), h.rx_handler.rxd_index - 10⟩]) ∧
      registry h1 = erase_first (wire_seq_num h) (registry h) ∧
      h1.mapping_table_count = (erase_first (wire_seq_num h) (registry h)).length ∧
      h1.response_callback = h.response_callback := by
    rcases hk with hk | ⟨hk, hs⟩
    · obtain ⟨h1, hproc, hreg, hcnt, _, _, hcb1⟩ :=
        response_with_entry crc16 h e hv hk hcount he
      rw [invoke_registered _ _ hcb] at hproc
      rw [hk, if_pos rfl]
      exact ⟨h1, hproc, hreg, hcnt, hcb1⟩
    · obtain ⟨h1, hproc, hreg, hcnt, _, _, hcb1⟩ :=
        error_with_number crc16 h hv hk hs hcount
      rw [invoke_registered _ _ hcb] at hproc
      rw [hk, if_neg (by decide)]
      exact ⟨h1, hproc, hreg, hcnt, hcb1⟩
  obtain ⟨h1, hproc, hreg1, hcnt1, hcb1⟩ := hframe
  -- the sweep
  obtain ⟨hr, hrdef⟩ : ∃ hr : aSmart_Comm_Handler_t, hr = { h1 with
      rx_handler := { h1.rx_handler with message_ready := 0, rxd_index := 0 } } := ⟨_, rfl⟩
  have hregr : registry hr = erase_first (wire_seq_num h) (registry h) := by
    rw [hrdef]
    exact hreg1
  have hsub : (erase_first (wire_seq_num h) (registry h)).Sublist (registry h) :=
    List.eraseP_sublist _
  have hndr : ((registry hr).map CommandEntry_t.sequence_number).Nodup := by
    rw [hregr]
    exact List.Nodup.sublist (List.Sublist.map _ hsub) hnd
  have hcr : hr.mapping_table_count ≤ 20 := by
    have hlen := hsub.length_le
    rw [registry_length] at hlen
    rw [hrdef]
    show h1.mapping_table_count ≤ 20
    rw [hcnt1]
    unfold MAPPING_TABLE_SIZE at hcount
    omega
  have hcbr : hr.response_callback = true := by
    rw [hrdef]
    show h1.response_callback = true
    rw [hcb1, hcb]
  obtain ⟨h2, hsweep, hreg2, _⟩ := sweep_spec now hr hndr hcr
  have habsent : ∀ x ∈ erase_first (wire_seq_num h) (registry h),
      x.sequence_number ≠ wire_seq_num h :=
    lookup_none _ _ (lookup_erase_first _ _ hnd)
  have hpoll := poll_ready crc16 now h h1 hr h2 _ _ hready hproc hrdef hsweep
  unfold timeout_calls at hpoll
  rw [if_pos hcbr, hregr] at hpoll
  rw [hregr] at hreg2
  refine ⟨h2, _, hpoll, rfl, ?_, hreg2, ?_⟩
  · intro c hc
    obtain ⟨x, hx, hxc⟩ := List.mem_map.mp hc
    rw [← hxc]
    exact habsent x (List.mem_filter.mp hx).1
  · unfold lookup
    rw [List.find?_eq_none]
    intro x hx
    rw [hreg2] at hx
    simpa using habsent x (List.mem_filter.mp hx).1

/-- Witness of the frame before the sweep: the response to command 5 (recorded at tick
10) captured while commands 5, 7 and 9 are pending and polled at tick 5150, when all
three have timed out: the response is reported for 5, timeouts for 7 and 9. -/
theorem frame_before_sweep_witness :
    valid_frame sample_crc16 (receive pending_handler
      (frame_bytes sample_crc16 MSG_TYPE_RESPONSE 5 0x10 [1])) ∧
    wire_msg_type (receive pending_handler
      (frame_bytes sample_crc16 MSG_TYPE_RESPONSE 5 0x10 [1])) = MSG_TYPE_RESPONSE ∧
    lookup 5 (registry pending_handler) = some ⟨5, 0x10, 10⟩ ∧
    expired 5150 ⟨5, 0x10, 10⟩ = true ∧
    ∃ h2, asmart_comm_handler sample_crc16 5150 (receive pending_handler
        (frame_bytes sample_crc16 MSG_TYPE_RESPONSE 5 0x10 [1]))
        = .ok (h2, [⟨MSG_TYPE_RESPONSE, 0x10, 5, some [1], 1⟩,
            ⟨MSG_TYPE_ERROR, 0x11, 7, none, 0⟩, ⟨MSG_TYPE_ERROR, 0x12, 9, none, 0⟩]) ∧
      registry h2 = [] ∧ lookup 5 (registry h2) = none := by
  obtain ⟨h2, tc, h1, h3, _, h5, h6⟩ :=
    frame_before_sweep sample_crc16 5150
      (receive pending_handler (frame_bytes sample_crc16 MSG_TYPE_RESPONSE 5 0x10 [1]))
      ⟨5, 0x10, 10⟩ (by decide) (Or.inl (by decide)) (by decide) (by decide)
      (by decide) rfl (by decide)
  have htc : tc = [⟨MSG_TYPE_ERROR, 0x11, 7, none, 0⟩, ⟨MSG_TYPE_ERROR, 0x12, 9, none, 0⟩] := by
    rw [h3]
    decide
  rw [htc] at h1
  exact ⟨by decide, by decide, by decide, by decide, h2, h1, by rw [h5]; decide, h6⟩

/-! ## C26: the registry is bounded -/

/-- C26: bounded registry. In every state reached from `asmart_comm_init` by a finite
sequence of send (command, response, notification, error), capture and poll steps, the
registry count is at most 20; and no such run ends in an access outside of the mapping
table or in a loop out of fuel: every table index used by
`add_command_to_mapping_table`, `find_command_in_mapping_table`,
`remove_command_from_mapping_table` and `check_command_timeouts` is within the
20-entry array. A run reaches a state or stops at an access outside of a byte
array. -/
theorem registry_bounded (crc16 : List Nat → Nat) (h0 : aSmart_Comm_Handler_t) (cb : Bool)
    (steps : List Step) :
    (∀ h evs, run crc16 steps (asmart_comm_init h0 cb) = .ok (h, evs) →
      h.mapping_table_count ≤ MAPPING_TABLE_SIZE) ∧
    (∀ i, run crc16 steps (asmart_comm_init h0 cb) ≠ .error (.mapping_table_index i)) ∧
    run crc16 steps (asmart_comm_init h0 cb) ≠ .error .loop_fuel ∧
    ∀ f, run crc16 steps (asmart_comm_init h0 cb) = .error f → byte_array_fault f := by
  have hrun := run_ends crc16 steps (asmart_comm_init h0 cb) (Nat.zero_le _)
  refine ⟨fun h evs hr => hrun.1 (h, evs) hr, ?_, ?_, hrun.2⟩
  · intro i hc
    rcases hrun.2 _ hc with ⟨j, hj⟩ | ⟨j, hj⟩ | ⟨j, hj⟩ <;> cases hj
  · intro hc
    rcases hrun.2 _ hc with ⟨j, hj⟩ | ⟨j, hj⟩ | ⟨j, hj⟩ <;> cases hj

/-! ## C27: the sweep terminates -/

/-- C27: sweep terminates. For every registry with count ≤ 20, with or without
repeated sequence numbers, and every tick value, `check_command_timeouts` returns
within the `count + 1` evaluations of the loop test that the model allows: it takes
entries away (the registry afterwards is a sublist of the one before, with a registered
callback one call per entry taken away) and changes nothing else. The loop ends because
each iteration advances the index or decreases the count by one: for every slot i
below the count, the lookup by the sequence number of the entry in slot i stops at a
slot k ≤ i and the removal by that sequence number returns with the count one
less. -/
theorem sweep_terminates (now : Nat) (h : aSmart_Comm_Handler_t)
    (hcount : h.mapping_table_count ≤ MAPPING_TABLE_SIZE) :
    (∃ h' calls, check_command_timeouts now h = .ok (h', calls) ∧
      h'.mapping_table_count ≤ h.mapping_table_count ∧
      (registry h').Sublist (registry h) ∧
      (h.response_callback = true →
        calls.length + h'.mapping_table_count = h.mapping_table_count)) ∧
    ∀ i, i < h.mapping_table_count →
      ∃ k h1, k ≤ i ∧
        find_command_in_mapping_table h (h.mapping_table i).sequence_number
          = .ok (some k) ∧
        remove_command_from_mapping_table h (h.mapping_table i).sequence_number = .ok h1 ∧
        h1.mapping_table_count + 1 = h.mapping_table_count := by
  refine ⟨?_, ?_⟩
  · obtain ⟨h', calls, hs, h1, h2, _, _, _, _, h7⟩ := sweep_returns now h hcount
    exact ⟨h', calls, hs, h1, h2, h7⟩
  · intro i hi
    obtain ⟨k, hki, hfind, _⟩ := find_first h i hcount hi
    obtain ⟨h1, hrem, _, hcnt, _⟩ :=
      remove_present h (h.mapping_table i) hcount (slot_mem_registry h i hi)
    exact ⟨k, h1, hki, hfind, hrem, hcnt⟩

/-- Witness of the termination of the sweep, on a registry that holds the sequence
number 5 twice (slot 0 recorded at tick 6000, slot 1 at tick 10), swept at tick 6500:
the entry in slot 1 has timed out, and the removal by its sequence number takes the
entry in slot 0 away. -/
theorem sweep_terminates_witness :
    duplicate_handler.mapping_table_count ≤ MAPPING_TABLE_SIZE ∧
    registry duplicate_handler = [⟨5, 0x10, 6000⟩, ⟨5, 0x11, 10⟩] ∧
    (check_command_timeouts 6500 duplicate_handler).toOption.map
        (fun r => (registry r.1, r.2))
      = some ([⟨5, 0x11, 10⟩], [⟨MSG_TYPE_ERROR, 0x11, 5, none, 0⟩]) ∧
    ((∃ h' calls, check_command_timeouts 6500 duplicate_handler = .ok (h', calls) ∧
      h'.mapping_table_count ≤ duplicate_handler.mapping_table_count ∧
      (registry h').Sublist (registry duplicate_handler) ∧
      (duplicate_handler.response_callback = true →
        calls.length + h'.mapping_table_count = duplicate_handler.mapping_table_count)) ∧
    ∀ i, i < duplicate_handler.mapping_table_count →
      ∃ k h1, k ≤ i ∧
        find_command_in_mapping_table duplicate_handler
          (duplicate_handler.mapping_table i).sequence_number = .ok (some k) ∧
        remove_command_from_mapping_table duplicate_handler
          (duplicate_handler.mapping_table i).sequence_number = .ok h1 ∧
        h1.mapping_table_count + 1 = duplicate_handler.mapping_table_count) :=
  ⟨by decide, by decide, by decide, sweep_terminates 6500 duplicate_handler (by decide)⟩

/-! ## C28: the tick counter wraps -/

/-- C29 fails on the code for frames with more than 255 payload bytes: the run
`unknown_kind_run` of 267 bytes passes the marker, length and checksum checks, its kind
byte 0x07 is none of the four kinds, and `process_received_message` ends in a write
past the 256-byte staging array, which is filled before the checksum and the kind are
looked at. -/
theorem unknown_kind_frame_overruns_staging :
    (receive idle_handler unknown_kind_run).rx_handler.rxd_index = 267 ∧
    markers_ok (receive idle_handler unknown_kind_run) ∧
    length_ok (receive idle_handler unknown_kind_run) ∧
    crc_ok sample_crc16 (receive idle_handler unknown_kind_run) ∧
    wire_msg_type (receive idle_handler unknown_kind_run) = 0x07 ∧
    process_received_message sample_crc16 (receive idle_handler unknown_kind_run)
      = .error (.payload_index 256) := by
  have hlen : (List.replicate 257 0).length = 257 := List.length_replicate _ _
  obtain ⟨hm, hl, hc, hk, hidx⟩ := receive_frame_checks sample_crc16 idle_handler 0x07 1 0x10
    (List.replicate 257 0) (by rw [hlen]; decide) (by decide)
  rw [hlen] at hidx
  refine ⟨hidx, hm, hl, hc, hk, ?_⟩
  exact process_overrun sample_crc16 _
    (by show (receive idle_handler unknown_kind_run).rx_handler.rxd_index ≤ 512
        unfold unknown_kind_run
        rw [hidx]
        decide)
    hm hl
    (Or.inr (by
      show 266 ≤ (receive idle_handler unknown_kind_run).rx_handler.rxd_index
      unfold unknown_kind_run
      rw [hidx]
      decide))

/-! ## C30: small frames are parsed within bounds -/

/-- C30: in-bounds parsing of small frames. For every captured run of length L with
10 ≤ L ≤ 265 that passes the marker and length checks: the payload length, computed on
`uint16_t`, is L - 10 ≤ 255; every receive-buffer index read is less than L
(`process_received_message` with its reads checked against L in place of the size of
the buffer gives the same result); every staging index written, the copied payload and
the terminating zero at index L - 10, is less than 256 (the copy with its checks
returns the payload); the parser gets through its reads and the copy: it drops the run
when the checksum does not match and otherwise reaches the dispatch with the payload
that equals bytes 7..L-4 of the run, so every callback call that is made carries
that payload and the length L - 10. -/
theorem small_frame_parsed_in_bounds (crc16 : List Nat → Nat) (h : aSmart_Comm_Handler_t)
    (hL1 : 10 ≤ h.rx_handler.rxd_index) (hL2 : h.rx_handler.rxd_index ≤ 265)
    (hm : markers_ok h) (hlen : length_ok h) :
    (be16 (rx_byte h 1) (rx_byte h 2) + 65536 - 6) % 65536 = h.rx_handler.rxd_index - 10 ∧
    h.rx_handler.rxd_index - 10 ≤ 255 ∧
    h.rx_handler.rxd_index - 10 < PAYLOAD_STAGING_SIZE ∧
    stage_payload_below h.rx_handler.rxd_index h.rx_handler.rxd_buffer 7
      (h.rx_handler.rxd_index - 10) = .ok (wire_payload h) ∧
    wire_payload h = ((captured h).drop 7).take (h.rx_handler.rxd_index - 10) ∧
    process_received_message_below h.rx_handler.rxd_index crc16 h
      = process_received_message crc16 h ∧
    process_received_message crc16 h
      = (if crc_ok crc16 h then
          dispatch_message h (wire_msg_type h) (wire_cmd_type h) (wire_seq_num h)
            (wire_payload h) (h.rx_handler.rxd_index - 10)
        else .ok (h, [])) ∧
    ∀ h1 calls, process_received_message crc16 h = .ok (h1, calls) →
      ∀ c ∈ calls, c.payload = some (wire_payload h) ∧
        c.length = h.rx_handler.rxd_index - 10 := by
  have hsmall := process_small crc16 h hL1 hL2 hm hlen
  have hbelow := process_below_small crc16 h hL1 hL2 hm hlen
  have hlen' := hlen
  unfold length_ok at hlen'
  refine ⟨by omega, by omega, by unfold PAYLOAD_STAGING_SIZE; omega, ?_,
    wire_payload_captured h hL1, by rw [hbelow, hsmall], hsmall, ?_⟩
  · unfold stage_payload_below PAYLOAD_STAGING_SIZE wire_payload
    rw [if_neg (by omega), if_neg (by omega), if_neg (by omega)]
  · intro h1 calls hp c hc
    rw [hsmall] at hp
    by_cases hcrc : crc_ok crc16 h
    · rw [if_pos hcrc] at hp
      obtain ⟨_, _, h3, h4⟩ := dispatch_calls h h1 _ _ _ _ _ calls hp c hc
      exact ⟨h3, h4⟩
    · rw [if_neg hcrc] at hp
      have : (h, ([] : List CallbackCall)) = (h1, calls) := Except.ok.inj hp
      injection this with _ e2
      rw [← e2] at hc
      exact absurd hc (List.not_mem_nil _)

/-- Witness of the in-bounds parsing: a response with sequence number 7, code byte 0x55
and payload 01 02, a run of 12 bytes, captured while commands 5, 7 and 9 are pending. -/
theorem small_frame_parsed_in_bounds_witness :
    10 ≤ (receive pending_handler
      [0x02, 0x00, 0x08, 0x00, 0x07, 0x02, 0x55, 0x01, 0x02, 0x37, 0x82, 0x03]
        ).rx_handler.rxd_index ∧
    (receive pending_handler
      [0x02, 0x00, 0x08, 0x00, 0x07, 0x02, 0x55, 0x01, 0x02, 0x37, 0x82, 0x03]
        ).rx_handler.rxd_index ≤ 265 ∧
    markers_ok (receive pending_handler
      [0x02, 0x00, 0x08, 0x00, 0x07, 0x02, 0x55, 0x01, 0x02, 0x37, 0x82, 0x03]) ∧
    length_ok (receive pending_handler
      [0x02, 0x00, 0x08, 0x00, 0x07, 0x02, 0x55, 0x01, 0x02, 0x37, 0x82, 0x03]) ∧
    wire_payload (receive pending_handler
      [0x02, 0x00, 0x08, 0x00, 0x07, 0x02, 0x55, 0x01, 0x02, 0x37, 0x82, 0x03]) = [0x01, 0x02] ∧
    process_received_message_below 12 sample_crc16 (receive pending_handler
        [0x02, 0x00, 0x08, 0x00, 0x07, 0x02, 0x55, 0x01, 0x02, 0x37, 0x82, 0x03])
      = process_received_message sample_crc16 (receive pending_handler
        [0x02, 0x00, 0x08, 0x00, 0x07, 0x02, 0x55, 0x01, 0x02, 0x37, 0x82, 0x03]) ∧
    (process_received_message sample_crc16 (receive pending_handler
        [0x02, 0x00, 0x08, 0x00, 0x07, 0x02, 0x55, 0x01, 0x02, 0x37, 0x82, 0x03])
      ).toOption.map (fun r => r.2) = some [⟨MSG_TYPE_RESPONSE, 0x11, 7, some [0x01, 0x02], 2⟩] := by
  obtain ⟨_, _, _, _, _, h6, _⟩ :=
    small_frame_parsed_in_bounds sample_crc16 (receive pending_handler
      [0x02, 0x00, 0x08, 0x00, 0x07, 0x02, 0x55, 0x01, 0x02, 0x37, 0x82, 0x03])
      (by decide) (by decide) (by decide) (by decide)
  exact ⟨by decide, by decide, by decide, by decide, by decide, h6, by decide⟩

/-! ## States after the counter has come round -/

/-- The state after `k ≥ 20` commands with empty payload and code 0x10 sent at tick 0
from a freshly initialized handler: the first 20 are recorded, the counter is
`k mod 65536`. -/
theorem sends_state (k : Nat) (hk : 20 ≤ k) :
    ∃ h evs, run sample_crc16 (List.replicate k (Step.send_command 0 0x10 []))
        (asmart_comm_init idle_handler true) = .ok (h, evs) ∧
      registry h = recorded 1 (List.replicate 20 (0, 0x10, [])) ∧
      h.sequence_number = k % 65536 ∧ h.mapping_table_count = 20 ∧
      h.rx_handler.message_ready = 0 ∧ h.response_callback = true := by
  obtain ⟨h20, hrun20, hreg20, hseq20, hcnt20, hrx20, hcb20⟩ :=
    run_sends sample_crc16 (List.replicate 20 (0, 0x10, []))
      (asmart_comm_init idle_handler true) (by decide) (by decide) (by decide)
  have hreg20' : registry h20 = recorded 1 (List.replicate 20 (0, 0x10, [])) := hreg20
  have hseq20' : h20.sequence_number = 20 := hseq20
  have hcnt20' : h20.mapping_table_count = 20 := hcnt20
  obtain ⟨hk', evk, hrunk, hregk, hseqk, hcntk, hrxk, hcbk⟩ :=
    run_sends_untracked sample_crc16 (List.replicate (k - 20) (0, 0x10, [])) h20
      (by intro c hc; rw [List.eq_of_mem_replicate hc]; decide)
      (by rw [hcnt20']; decide) (by rw [hseq20']; decide)
  rw [hseq20', List.length_replicate] at hseqk
  have hseqk' : hk'.sequence_number = k % 65536 := by
    rw [hseqk]
    congr 1
    omega
  have hsplit : List.replicate k (Step.send_command 0 0x10 [])
      = (List.replicate 20 ((0 : Nat), (0x10 : Nat), ([] : List Nat))).map send_step
        ++ (List.replicate (k - 20) ((0 : Nat), (0x10 : Nat), ([] : List Nat))).map
          send_step := by
    have e : k = 20 + (k - 20) := by omega
    rw [List.map_replicate, List.map_replicate, ← List.replicate_add, ← e]
    rfl
  have hsends := run_append_ok sample_crc16 _ _ _ h20 hk' _ evk hrun20 hrunk
  rw [← hsplit] at hsends
  refine ⟨hk', _, hsends, by rw [hregk, hreg20'], hseqk', by rw [hcntk, hcnt20'], ?_, ?_⟩
  · rw [hrxk, hrx20]
    rfl
  · rw [hcbk, hcb20]
    rfl

/-- The state at the end of the run `wrap_run k`, for `k ≥ 20`: the registry holds the
commands 1..19 and the last command with the sequence number
`(k mod 65536 + 1) mod 65536`, no frame is ready and the callback is registered. -/
theorem wrap_run_state (k : Nat) (hk : 20 ≤ k) :
    ∃ h evs, run sample_crc16 (wrap_run k) (asmart_comm_init idle_handler true)
        = .ok (h, evs) ∧
      registry h = recorded 1 (List.replicate 19 (0, 0x10, []))
        ++ [⟨(k % 65536 + 1) % 65536, 0x10, 0⟩] ∧
      h.mapping_table_count = 20 ∧ h.rx_handler.message_ready = 0 ∧
      h.response_callback = true := by
  obtain ⟨hk', evk, hsends, hregk, hseqk', hcntk, _, hcbk⟩ := sends_state k hk
  -- the response to command 20
  have htake : (frame_bytes sample_crc16 MSG_TYPE_RESPONSE 20 0x10 []).take
      RECEIVE_BUFFER_SIZE = frame_bytes sample_crc16 MSG_TYPE_RESPONSE 20 0x10 [] := by
    decide
  have hcap : step sample_crc16 hk'
      (.capture (frame_bytes sample_crc16 MSG_TYPE_RESPONSE 20 0x10 []))
      = .ok (receive hk' (frame_bytes sample_crc16 MSG_TYPE_RESPONSE 20 0x10 []), []) := by
    show Except.ok (receive hk'
      ((frame_bytes sample_crc16 MSG_TYPE_RESPONSE 20 0x10 []).take RECEIVE_BUFFER_SIZE), [])
      = _
    rw [htake]
  obtain ⟨v1, v2, _, v4, _, _⟩ :=
    receive_frame_bytes sample_crc16 hk' MSG_TYPE_RESPONSE 20 0x10 [] (by decide) (by decide)
  have hregcap : registry (receive hk' (frame_bytes sample_crc16 MSG_TYPE_RESPONSE 20 0x10 []))
      = recorded 1 (List.replicate 20 (0, 0x10, [])) := by
    rw [← hregk]
    rfl
  have hl : lookup
      (wire_seq_num (receive hk' (frame_bytes sample_crc16 MSG_TYPE_RESPONSE 20 0x10 [])))
      (registry (receive hk' (frame_bytes sample_crc16 MSG_TYPE_RESPONSE 20 0x10 [])))
      = some ⟨20, 0x10, 0⟩ := by
    rw [v4, hregcap]
    decide
  obtain ⟨hp, hproc, hregp, hcntp, hseqp, _, hcbp⟩ :=
    response_with_entry sample_crc16 _ ⟨20, 0x10, 0⟩ v1 v2
      (by show hk'.mapping_table_count ≤ 20; omega) hl
  have herase : erase_first 20 (recorded 1 (List.replicate 20 (0, 0x10, [])))
      = recorded 1 (List.replicate 19 (0, 0x10, [])) := by decide
  rw [v4, hregcap, herase] at hregp hcntp
  have hcntp' : hp.mapping_table_count = 19 := by
    rw [hcntp]
    decide
  have hseqp' : hp.sequence_number = k % 65536 := by
    rw [hseqp]
    exact hseqk'
  -- the sweep of the poll, at tick 0
  obtain ⟨hr, hrdef⟩ : ∃ hr : aSmart_Comm_Handler_t, hr = { hp with
      rx_handler := { hp.rx_handler with message_ready := 0, rxd_index := 0 } } := ⟨_, rfl⟩
  have hseqr : hr.sequence_number = k % 65536 := by
    rw [hrdef]
    exact hseqp'
  have hregr : registry hr = recorded 1 (List.replicate 19 (0, 0x10, [])) := by
    rw [hrdef]
    exact hregp
  have hcntr : hr.mapping_table_count = 19 := by
    rw [hrdef]
    exact hcntp'
  have hcbr : hr.response_callback = true := by
    rw [hrdef]
    show hp.response_callback = true
    rw [hcbp]
    exact hcbk
  have hrxr : hr.rx_handler.message_ready = 0 := by
    rw [hrdef]
  obtain ⟨hs, hsweep, _, _, _, _, _, _, hsame⟩ := sweep_spec 0 hr
    (by rw [hregr]; decide) (by omega)
  have hfresh : ∀ e ∈ recorded 1 (List.replicate 19 ((0 : Nat), (0x10 : Nat), ([] : List Nat))),
      expired 0 e = false := by decide
  have hs' := hsame (by
    intro e he
    rw [hregr] at he
    exact hfresh e he)
  rw [hs'] at hsweep
  have hpoll := step_poll sample_crc16 0 _ _ _
    (poll_ready sample_crc16 0 _ hp hr hr _ _ (by show (1 : Nat) ≠ 0; decide) hproc hrdef
      hsweep)
  -- the last command
  obtain ⟨hlast, hsend, _, hrxl, hcbl, hfree, _⟩ :=
    send_command_registry sample_crc16 0 hr 0x10 [] (by decide)
  rw [hseqr] at hsend hfree
  obtain ⟨hreglast, hcntlast⟩ := hfree (by rw [hcntr]; decide)
  rw [hregr] at hreglast
  have hlaststep := step_send_command sample_crc16 0 0x10 [] _ hlast _ hsend
  have htail := run_cons_ok sample_crc16 _ _ _ _ _ _ _ hcap
    (run_cons_ok sample_crc16 _ _ _ _ _ _ _ hpoll
      (run_cons_ok sample_crc16 _ [] _ _ hlast _ [] hlaststep rfl))
  have hall := run_append_ok sample_crc16 _ _ _ _ _ _ _ hsends htail
  exact ⟨hlast, _, hall, hreglast, by rw [hcntlast, hcntr], by rw [hrxl]; exact hrxr,
    by rw [hcbl]; exact hcbr⟩

/-! ## The sweep when every entry has timed out -/

/-- The loop of the sweep from slot 0 on a registry whose entries have all timed out,
with or without repeated sequence numbers: it returns, calls the callback for every
entry in table order, and leaves the registry empty. -/
theorem check_loop_all_expired (now : Nat) :
    ∀ (fuel : Nat) (h : aSmart_Comm_Handler_t) (calls : List CallbackCall),
      h.mapping_table_count ≤ 20 → h.mapping_table_count < fuel →
      (∀ e ∈ registry h, expired now e = true) →
      ∃ h', check_loop now fuel 0 h calls
          = .ok (h', calls ++ timeout_calls h (registry h)) ∧
        registry h' = [] ∧ h'.mapping_table_count = 0 ∧
        h'.sequence_number = h.sequence_number ∧ h'.rx_handler = h.rx_handler ∧
        h'.response_callback = h.response_callback := by
  intro fuel
  induction fuel with
  | zero => intro h calls _ hf; omega
  | succ n ih =>
    intro h calls hc hf hall
    unfold check_loop
    cases hreg : registry h with
    | nil =>
      have hcnt : h.mapping_table_count = 0 := by
        rw [← registry_length, hreg]
        rfl
      rw [if_neg (by omega)]
      refine ⟨h, ?_, hreg, hcnt, rfl, rfl, rfl⟩
      unfold timeout_calls
      split_ifs <;> simp
      all_goals rfl
    | cons e tail =>
      obtain ⟨hlt, hslot⟩ := registry_slot_of_split h [] tail e hreg
      have hlt' : 0 < h.mapping_table_count := hlt
      have hslot' : h.mapping_table 0 = e := hslot
      rw [if_pos hlt', table_read_ok _ _ (by omega), ok_bind, hslot']
      have hex : expired now e = true := hall e (by rw [hreg]; exact List.mem_cons_self _ _)
      have hexp : (now + 2 ^ 32 - e.timestamp) % 2 ^ 32 > COMMAND_TIMEOUT_MS := by
        unfold expired at hex
        exact of_decide_eq_true hex
      rw [if_pos hexp]
      obtain ⟨h1, hrem, hreg1, hcnt1, hseq1, hrx1, _, hcb1, _⟩ :=
        remove_spec h e.sequence_number hc
      have herase : erase_first e.sequence_number (registry h) = tail := by
        rw [hreg]
        unfold erase_first
        exact List.eraseP_cons_of_pos (by simp)
      rw [herase] at hreg1 hcnt1
      have hlen : h.mapping_table_count = tail.length + 1 := by
        rw [← registry_length, hreg]
        rfl
      obtain ⟨h2, hloop, hreg2, hcnt2, hseq2, hrx2, hcb2⟩ :=
        ih h1 (calls ++ invoke h (timeout_call e)) (by omega) (by omega)
          (by
            intro x hx
            rw [hreg1] at hx
            exact hall x (by rw [hreg]; exact List.mem_cons_of_mem _ hx))
      rw [hrem, ok_bind]
      refine ⟨h2, ?_, hreg2, hcnt2, by rw [hseq2, hseq1], by rw [hrx2, hrx1],
        by rw [hcb2, hcb1]⟩
      show check_loop now n 0 h1 (calls ++ invoke h (timeout_call e)) = _
      rw [hloop, hreg1, timeout_calls_congr h h1 _ hcb1, timeout_calls_cons,
        List.append_assoc]

/-- The sweep on a registry whose entries have all timed out. -/
theorem sweep_all_expired (now : Nat) (h : aSmart_Comm_Handler_t)
    (hc : h.mapping_table_count ≤ 20) (hall : ∀ e ∈ registry h, expired now e = true) :
    ∃ h', check_command_timeouts now h = .ok (h', timeout_calls h (registry h)) ∧
      registry h' = [] ∧ h'.mapping_table_count = 0 ∧
      h'.sequence_number = h.sequence_number ∧ h'.rx_handler = h.rx_handler ∧
      h'.response_callback = h.response_callback := by
  obtain ⟨h', hloop, h1, h2, h3, h4, h5⟩ :=
    check_loop_all_expired now (h.mapping_table_count + 1) h [] hc (by omega) hall
  exact ⟨h', hloop, h1, h2, h3, h4, h5⟩

/-! ## C8: counterexample -/

/-- C8, counterexample on a reachable registry: after the run `wrap_run 65536` from a
freshly initialized handler the registry holds the sequence numbers 1..19 and 1 again;
a valid RESPONSE frame with sequence number 1 is then correlated with the first entry
for 1, which is removed, and the second entry for 1 stays: afterwards the registry
still contains the sequence number 1. -/
theorem response_leaves_number_pending :
    ∃ h evs h', run sample_crc16 (wrap_run 65536) (asmart_comm_init idle_handler true)
        = .ok (h, evs) ∧
      (registry h).map CommandEntry_t.sequence_number = List.range' 1 19 ++ [1] ∧
      valid_frame sample_crc16
        (receive h (frame_bytes sample_crc16 MSG_TYPE_RESPONSE 1 0x10 [])) ∧
      wire_msg_type (receive h (frame_bytes sample_crc16 MSG_TYPE_RESPONSE 1 0x10 []))
        = MSG_TYPE_RESPONSE ∧
      wire_seq_num (receive h (frame_bytes sample_crc16 MSG_TYPE_RESPONSE 1 0x10 [])) = 1 ∧
      lookup 1 (registry h) = some ⟨1, 0x10, 0⟩ ∧
      process_received_message sample_crc16
          (receive h (frame_bytes sample_crc16 MSG_TYPE_RESPONSE 1 0x10 []))
        = .ok (h', [⟨MSG_TYPE_RESPONSE, 0x10, 1, some [], 0⟩]) ∧
      (registry h').map CommandEntry_t.sequence_number = List.range' 2 18 ++ [1] ∧
      lookup 1 (registry h') = some ⟨1, 0x10, 0⟩ := by
  obtain ⟨h, evs, hrun, hreg, hcnt, _, hcb⟩ := wrap_run_state 65536 (by decide)
  have e : (65536 % 65536 + 1) % 65536 = 1 := by decide
  rw [e] at hreg
  obtain ⟨v1, v2, _, v4, v5, v6⟩ :=
    receive_frame_bytes sample_crc16 h MSG_TYPE_RESPONSE 1 0x10 [] (by decide) (by decide)
  have hregcap : registry (receive h (frame_bytes sample_crc16 MSG_TYPE_RESPONSE 1 0x10 []))
      = recorded 1 (List.replicate 19 (0, 0x10, [])) ++ [⟨1, 0x10, 0⟩] := hreg
  have hl : lookup
      (wire_seq_num (receive h (frame_bytes sample_crc16 MSG_TYPE_RESPONSE 1 0x10 [])))
      (registry (receive h (frame_bytes sample_crc16 MSG_TYPE_RESPONSE 1 0x10 [])))
      = some ⟨1, 0x10, 0⟩ := by
    rw [v4, hregcap]
    decide
  obtain ⟨h', hproc, hreg', _⟩ :=
    response_with_entry sample_crc16 _ ⟨1, 0x10, 0⟩ v1 v2
      (by show h.mapping_table_count ≤ 20; omega) hl
  rw [invoke_registered _ _ (by exact hcb), v4, v5, v6] at hproc
  rw [v4, hregcap] at hreg'
  refine ⟨h, evs, h', hrun, by rw [hreg]; decide, v1, v2, v4, by rw [hreg]; decide, hproc,
    by rw [hreg']; decide, by rw [hreg']; decide⟩

/-! ## C13: counterexample -/

/-- C13, counterexample on a reachable registry: after the run `wrap_run 65536` from a
freshly initialized handler the registry holds the sequence numbers 1..19 and 1 again,
all recorded at tick 0 and none answered; a poll with no ready frame at tick 6000
dispatches two timeout events with the sequence number 1. -/
theorem duplicate_number_times_out_twice :
    ∃ h evs h2 calls, run sample_crc16 (wrap_run 65536) (asmart_comm_init idle_handler true)
        = .ok (h, evs) ∧
      (registry h).map CommandEntry_t.sequence_number = List.range' 1 19 ++ [1] ∧
      (⟨1, 0x10, 0⟩ : CommandEntry_t) ∈ registry h ∧
      expired 6000 ⟨1, 0x10, 0⟩ = true ∧
      h.rx_handler.message_ready = 0 ∧
      asmart_comm_handler sample_crc16 6000 h = .ok (h2, calls) ∧
      calls.filter (fun c => c.sequence_number == 1)
        = [⟨MSG_TYPE_ERROR, 0x10, 1, none, 0⟩, ⟨MSG_TYPE_ERROR, 0x10, 1, none, 0⟩] := by
  obtain ⟨h, evs, hrun, hreg, hcnt, hidle, hcb⟩ := wrap_run_state 65536 (by decide)
  have e : (65536 % 65536 + 1) % 65536 = 1 := by decide
  rw [e] at hreg
  have hall : ∀ x ∈ recorded 1 (List.replicate 19 ((0 : Nat), (0x10 : Nat), ([] : List Nat)))
      ++ [⟨1, 0x10, 0⟩], expired 6000 x = true := by decide
  obtain ⟨h2, hsweep, _⟩ := sweep_all_expired 6000 h (by omega)
    (by rw [hreg]; exact hall)
  unfold timeout_calls at hsweep
  rw [if_pos hcb, hreg] at hsweep
  refine ⟨h, evs, h2, _, hrun, by rw [hreg]; decide, by rw [hreg]; decide, by decide, hidle,
    by rw [poll_idle sample_crc16 6000 h hidle]; exact hsweep, by decide⟩

/-! ## C25: counterexample -/

/-- C25, counterexample on a reachable registry: after the run `wrap_run 65536` from a
freshly initialized handler the registry holds the sequence numbers 1..19 and 1 again,
all recorded at tick 0; with a valid RESPONSE frame for the sequence number 1 captured,
the poll at tick 6000 dispatches the response event for 1, removes the first entry
for 1, and then dispatches a timeout event for 1, for the second entry. -/
theorem response_then_timeout_for_same_number :
    ∃ h evs h2 calls, run sample_crc16 (wrap_run 65536) (asmart_comm_init idle_handler true)
        = .ok (h, evs) ∧
      (registry h).map CommandEntry_t.sequence_number = List.range' 1 19 ++ [1] ∧
      valid_frame sample_crc16
        (receive h (frame_bytes sample_crc16 MSG_TYPE_RESPONSE 1 0x10 [])) ∧
      wire_msg_type (receive h (frame_bytes sample_crc16 MSG_TYPE_RESPONSE 1 0x10 []))
        = MSG_TYPE_RESPONSE ∧
      wire_seq_num (receive h (frame_bytes sample_crc16 MSG_TYPE_RESPONSE 1 0x10 [])) = 1 ∧
      (receive h (frame_bytes sample_crc16 MSG_TYPE_RESPONSE 1 0x10 [])
        ).rx_handler.message_ready ≠ 0 ∧
      lookup 1 (registry h) = some ⟨1, 0x10, 0⟩ ∧
      expired 6000 ⟨1, 0x10, 0⟩ = true ∧
      asmart_comm_handler sample_crc16 6000
          (receive h (frame_bytes sample_crc16 MSG_TYPE_RESPONSE 1 0x10 []))
        = .ok (h2, calls) ∧
      calls.head? = some ⟨MSG_TYPE_RESPONSE, 0x10, 1, some [], 0⟩ ∧
      (⟨MSG_TYPE_ERROR, 0x10, 1, none, 0⟩ : CallbackCall) ∈ calls ∧
      calls.filter (fun c => c.sequence_number == 1)
        = [⟨MSG_TYPE_RESPONSE, 0x10, 1, some [], 0⟩, ⟨MSG_TYPE_ERROR, 0x10, 1, none, 0⟩] := by
  obtain ⟨h, evs, hrun, hreg, hcnt, _, hcb⟩ := wrap_run_state 65536 (by decide)
  have e : (65536 % 65536 + 1) % 65536 = 1 := by decide
  rw [e] at hreg
  obtain ⟨v1, v2, _, v4, v5, v6⟩ :=
    receive_frame_bytes sample_crc16 h MSG_TYPE_RESPONSE 1 0x10 [] (by decide) (by decide)
  have hregcap : registry (receive h (frame_bytes sample_crc16 MSG_TYPE_RESPONSE 1 0x10 []))
      = recorded 1 (List.replicate 19 (0, 0x10, [])) ++ [⟨1, 0x10, 0⟩] := hreg
  have hl : lookup
      (wire_seq_num (receive h (frame_bytes sample_crc16 MSG_TYPE_RESPONSE 1 0x10 [])))
      (registry (receive h (frame_bytes sample_crc16 MSG_TYPE_RESPONSE 1 0x10 [])))
      = some ⟨1, 0x10, 0⟩ := by
    rw [v4, hregcap]
    decide
  obtain ⟨hp, hproc, hregp, hcntp, _, _, hcbp⟩ :=
    response_with_entry sample_crc16 _ ⟨1, 0x10, 0⟩ v1 v2
      (by show h.mapping_table_count ≤ 20; omega) hl
  rw [invoke_registered _ _ (by exact hcb), v4, v5, v6] at hproc
  have herase : erase_first 1
      (recorded 1 (List.replicate 19 ((0 : Nat), (0x10 : Nat), ([] : List Nat)))
        ++ [⟨1, 0x10, 0⟩])
      = recorded 2 (List.replicate 18 (0, 0x10, [])) ++ [⟨1, 0x10, 0⟩] := by decide
  rw [v4, hregcap, herase] at hregp hcntp
  obtain ⟨hr, hrdef⟩ : ∃ hr : aSmart_Comm_Handler_t, hr = { hp with
      rx_handler := { hp.rx_handler with message_ready := 0, rxd_index := 0 } } := ⟨_, rfl⟩
  have hregr : registry hr
      = recorded 2 (List.replicate 18 (0, 0x10, [])) ++ [⟨1, 0x10, 0⟩] := by
    rw [hrdef]
    exact hregp
  have hcntr : hr.mapping_table_count = 19 := by
    rw [hrdef]
    show hp.mapping_table_count = 19
    rw [hcntp]
    decide
  have hcbr : hr.response_callback = true := by
    rw [hrdef]
    show hp.response_callback = true
    rw [hcbp]
    exact hcb
  have hall : ∀ x ∈ recorded 2 (List.replicate 18 ((0 : Nat), (0x10 : Nat), ([] : List Nat)))
      ++ [⟨1, 0x10, 0⟩], expired 6000 x = true := by decide
  obtain ⟨h2, hsweep, _⟩ := sweep_all_expired 6000 hr (by omega)
    (by rw [hregr]; exact hall)
  unfold timeout_calls at hsweep
  rw [if_pos hcbr, hregr] at hsweep
  have hpoll := poll_ready sample_crc16 6000 _ hp hr h2 _ _
    (by show (1 : Nat) ≠ 0; decide) hproc hrdef hsweep
  refine ⟨h, evs, h2, _, hrun, by rw [hreg]; decide, v1, v2, v4,
    by show (1 : Nat) ≠ 0; decide, by rw [hreg]; decide, by decide, hpoll, rfl, by decide,
    by decide⟩

/-! ## What a step does to the counter and the registry -/

theorem ends_bind_eq {α β : Type} (mid : α → Prop) (good : β → Prop)
    (allowed : Fault → Prop) (x : Except Fault α) (f : α → Except Fault β)
    (hx : ends mid allowed x) (hf : ∀ a, x = .ok a → mid a → ends good allowed (f a)) :
    ends good allowed (x >>= f) := by
  cases x with
  | error e => exact ends_fault good allowed e (hx.2 e rfl)
  | ok a => exact hf a rfl (hx.1 a rfl)

theorem ends_mono {α : Type} (good good2 : α → Prop) (allowed : Fault → Prop)
    (r : Except Fault α) (hr : ends good allowed r) (hg : ∀ a, good a → good2 a) :
    ends good2 allowed r :=
  ⟨fun a ha => hg a (hr.1 a ha), hr.2⟩

/-- The sweep after the parser of a poll: it returns, keeps the counter and only takes
entries away. -/
theorem sweep_shrinks (now : Nat) (h h1 : aSmart_Comm_Handler_t) (calls : List CallbackCall)
    (hc : h1.mapping_table_count ≤ 20) (hs1 : h1.sequence_number = h.sequence_number)
    (hs2 : (registry h1).Sublist (registry h)) :
    ends (fun r => r.1.sequence_number = h.sequence_number ∧
        (registry r.1).Sublist (registry h)) byte_array_fault
      (check_command_timeouts now h1 >>= fun y => pure (y.1, calls ++ y.2)) := by
  obtain ⟨h2, tc, hsweep, _, hsub, hseq, _⟩ := sweep_returns now h1 hc
  rw [hsweep]
  refine ends_value _ _ _ ⟨?_, ?_⟩
  · show h2.sequence_number = h.sequence_number
    rw [hseq, hs1]
  · exact hsub.trans hs2

/-- A poll keeps the counter and only takes entries away, and it returns unless the
parser stops at an access outside of a byte array. -/
theorem poll_shrinks (crc16 : List Nat → Nat) (now : Nat) (h : aSmart_Comm_Handler_t)
    (hc : h.mapping_table_count ≤ 20) :
    ends (fun r => r.1.sequence_number = h.sequence_number ∧
        (registry r.1).Sublist (registry h)) byte_array_fault
      (asmart_comm_handler crc16 now h) := by
  unfold asmart_comm_handler
  dsimp only
  refine ends_ite _ _ _ _ _ _ (fun _ => ?_) (fun _ => ?_)
  · refine ends_bind_of _ _ _ _ _ (process_ends crc16 h hc) (fun a ha => ?_)
    obtain ⟨h1, calls⟩ := a
    have hc1 := shrinks_count h h1 ha
    exact sweep_shrinks now h _ calls (by show h1.mapping_table_count ≤ 20; omega)
      ha.2.1 ha.1
  · exact sweep_shrinks now h h [] hc rfl (List.Sublist.refl _)

/-- An emit that is not a command keeps the counter and the registry. -/
theorem emit_keeps (h : aSmart_Comm_Handler_t) (s : Step)
    (hs : ∀ h1, h1.sequence_number = h.sequence_number ∧
      (registry h1).Sublist (registry h) → registry_after h s h1)
    (r : Except Fault (aSmart_Comm_Handler_t × List Nat)) (tx : aSmart_TxHandler_t)
    (frame : List Nat)
    (hr : r = .ok ({ h with tx_handler := tx }, frame) ∨ r = .error (.txd_buffer_index 512)) :
    ends (fun r => registry_after h s r.1) byte_array_fault
      (r >>= fun x => pure (x.1, [Event.transmit x.2])) := by
  rcases hr with hr | hr
  · rw [hr]
    exact ends_value _ _ _ (hs _ ⟨rfl, List.Sublist.refl _⟩)
  · rw [hr]
    exact ends_fault _ _ _ (Or.inr (Or.inl ⟨_, rfl⟩))

/-- Every step is in the relation `registry_after` to the handler it returns, and it
returns unless it stops at an access outside of a byte array. -/
theorem step_registry (crc16 : List Nat → Nat) (h : aSmart_Comm_Handler_t) (s : Step)
    (hc : h.mapping_table_count ≤ 20) :
    ends (fun r => registry_after h s r.1) byte_array_fault (step crc16 h s) := by
  cases s with
  | send_command now c p =>
    show ends _ _ (asmart_comm_send_command crc16 now h c p >>= fun x =>
      pure (x.1, [Event.transmit x.2]))
    by_cases hp : p.length ≤ 502
    · obtain ⟨h1, hsend, hseq, _, _, hfree, hfull⟩ :=
        send_command_registry crc16 now h c p hp
      rw [hsend]
      refine ends_value _ _ _ ⟨hseq, ?_⟩
      show registry h1 = _
      by_cases hroom : h.mapping_table_count < MAPPING_TABLE_SIZE
      · rw [if_pos hroom]
        exact (hfree hroom).1
      · rw [if_neg hroom]
        exact (hfull hroom).1
    · rw [send_command_overrun crc16 now h c p (by omega)]
      exact ends_fault _ _ _ (Or.inr (Or.inl ⟨_, rfl⟩))
  | send_response sn c p =>
    by_cases hp : p.length ≤ 502
    · exact emit_keeps h (.send_response sn c p) (fun _ hx => hx) _ _ _
        (Or.inl (send_other_eq crc16 h sn c p hp).1)
    · exact emit_keeps h (.send_response sn c p) (fun _ hx => hx) _ ⟨fun _ => 0, 0⟩ []
        (Or.inr (send_other_overrun crc16 h sn c p (by omega)).1)
  | send_notification c p =>
    by_cases hp : p.length ≤ 502
    · exact emit_keeps h (.send_notification c p) (fun _ hx => hx) _ _ _
        (Or.inl (send_other_eq crc16 h 0 c p hp).2.2)
    · exact emit_keeps h (.send_notification c p) (fun _ hx => hx) _ ⟨fun _ => 0, 0⟩ []
        (Or.inr (send_other_overrun crc16 h 0 c p (by omega)).2.2)
  | send_error sn c p =>
    by_cases hp : p.length ≤ 502
    · exact emit_keeps h (.send_error sn c p) (fun _ hx => hx) _ _ _
        (Or.inl (send_other_eq crc16 h sn c p hp).2.1)
    · exact emit_keeps h (.send_error sn c p) (fun _ hx => hx) _ ⟨fun _ => 0, 0⟩ []
        (Or.inr (send_other_overrun crc16 h sn c p (by omega)).2.1)
  | capture captured_run =>
    exact ends_value _ _ _ ⟨rfl, List.Sublist.refl _⟩
  | poll now =>
    show ends _ _ (asmart_comm_handler crc16 now h >>= fun x =>
      pure (x.1, x.2.map Event.callback))
    refine ends_bind_of _ _ _ _ _ (poll_shrinks crc16 now h hc) (fun a ha => ?_)
    exact ends_value _ _ _ ha

/-! ## Uniqueness of the sequence numbers along a run -/

/-- A registry with pairwise distinct sequence numbers keeps them pairwise distinct
over a step that does not record a pending number again. -/
theorem after_unique (h h1 : aSmart_Comm_Handler_t) (s : Step)
    (hu : ((registry h).map CommandEntry_t.sequence_number).Nodup)
    (hf : fresh_at h s) (ha : registry_after h s h1) :
    ((registry h1).map CommandEntry_t.sequence_number).Nodup := by
  have hsub : ∀ x : aSmart_Comm_Handler_t, (registry x).Sublist (registry h) →
      ((registry x).map CommandEntry_t.sequence_number).Nodup :=
    fun x hx => List.Nodup.sublist (hx.map _) hu
  cases s with
  | send_command now c p =>
    obtain ⟨_, hreg⟩ := ha
    by_cases hroom : h.mapping_table_count < MAPPING_TABLE_SIZE
    · rw [if_pos hroom] at hreg
      have hnone := lookup_none _ _ (hf hroom)
      rw [hreg, List.map_append, List.map_singleton]
      refine List.Nodup.append hu (List.nodup_singleton _) ?_
      intro x hx hx1
      rw [List.mem_singleton] at hx1
      obtain ⟨e, he, hex⟩ := List.mem_map.mp hx
      exact hnone e he (by rw [hex, hx1])
    · rw [if_neg hroom] at hreg
      rw [hreg]
      exact hu
  | send_response sn c p => exact hsub h1 ha.2
  | send_notification c p => exact hsub h1 ha.2
  | send_error sn c p => exact hsub h1 ha.2
  | capture captured_run => exact hsub h1 ha.2
  | poll now => exact hsub h1 ha.2

/-- A run that records no pending sequence number again keeps the sequence numbers of
the registry pairwise distinct and the count within the table. -/
theorem run_unique (crc16 : List Nat → Nat) :
    ∀ (steps : List Step) (h : aSmart_Comm_Handler_t),
      ((registry h).map CommandEntry_t.sequence_number).Nodup →
      h.mapping_table_count ≤ 20 → numbers_fresh crc16 steps h →
      ends (fun r => ((registry r.1).map CommandEntry_t.sequence_number).Nodup ∧
        r.1.mapping_table_count ≤ 20) byte_array_fault (run crc16 steps h) := by
  intro steps
  induction steps with
  | nil =>
    intro h hu hc _
    exact ends_value _ _ _ ⟨hu, hc⟩
  | cons s rest ih =>
    intro h hu hc hfresh
    show ends _ _ (step crc16 h s >>= fun x =>
      run crc16 rest x.1 >>= fun y => pure (y.1, x.2 ++ y.2))
    have hstep : ends (fun r => registry_after h s r.1 ∧ r.1.mapping_table_count ≤ 20)
        byte_array_fault (step crc16 h s) :=
      ⟨fun a ha => ⟨(step_registry crc16 h s hc).1 a ha, (step_ends crc16 h s hc).1 a ha⟩,
        (step_registry crc16 h s hc).2⟩
    refine ends_bind_eq _ _ _ _ _ hstep (fun a heq ha => ?_)
    obtain ⟨h1, evs⟩ := a
    refine ends_bind_of _ _ _ _ _
      (ih h1 (after_unique h h1 s hu hfresh.1 ha.1) ha.2 (hfresh.2 h1 evs heq))
      (fun b hb => ?_)
    exact ends_value _ _ _ hb

/-- Recording a pending sequence number again gives a registry with a duplicate: a
`send_command` step with a payload of at most 502 bytes for which `fresh_at` fails
returns with a registry whose sequence numbers are not pairwise distinct. -/
theorem stale_number_duplicates (crc16 : List Nat → Nat) (h : aSmart_Comm_Handler_t)
    (now c : Nat) (p : List Nat) (hp : p.length ≤ 502)
    (hstale : ¬ fresh_at h (.send_command now c p)) :
    ∃ h1 evs, step crc16 h (.send_command now c p) = .ok (h1, evs) ∧
      ¬ ((registry h1).map CommandEntry_t.sequence_number).Nodup := by
  have hboth : h.mapping_table_count < MAPPING_TABLE_SIZE ∧
      lookup ((h.sequence_number + 1) % 65536) (registry h) ≠ none := by
    by_contra hcon
    apply hstale
    intro hroom
    by_contra hne
    exact hcon ⟨hroom, hne⟩
  obtain ⟨hroom, hfound⟩ := hboth
  obtain ⟨h1, hsend, _, _, _, hfree, _⟩ := send_command_registry crc16 now h c p hp
  refine ⟨h1, _, step_send_command crc16 now c p h h1 _ hsend, ?_⟩
  rw [(hfree hroom).1, List.map_append, List.map_singleton]
  intro hnd
  obtain ⟨e, hfind⟩ := Option.ne_none_iff_exists'.mp hfound
  have hmem : e ∈ registry h := List.mem_of_find?_eq_some hfind
  have hseq : e.sequence_number = (h.sequence_number + 1) % 65536 := by
    have := List.find?_some hfind
    simpa using this
  have hdis := (List.nodup_append.mp hnd).2.2
  exact hdis (List.mem_map.mpr ⟨e, hmem, hseq⟩) (List.mem_singleton_self _)

/-! ## Runs within one cycle of the counter -/

/-- A step keeps every entry within the cycle: after it every entry was recorded fewer
than `bound` sends ago, with `bound` one more after a `send_command`. -/
theorem after_in_cycle (h h1 : aSmart_Comm_Handler_t) (s : Step) (bound : Nat)
    (hin : registry_in_cycle h bound) (hb : bound + commands_sent [s] ≤ 65536)
    (hc1 : h1.mapping_table_count ≤ 20) (ha : registry_after h s h1) :
    registry_in_cycle h1 (bound + commands_sent [s]) := by
  obtain ⟨hall, hseq, _⟩ := hin
  have hkeep : h1.sequence_number = h.sequence_number →
      (registry h1).Sublist (registry h) → registry_in_cycle h1 (bound + 0) := by
    intro e1 hsub
    refine ⟨fun e he => ?_, by rw [e1]; exact hseq, hc1⟩
    have := hall e (hsub.subset he)
    unfold sends_since at this ⊢
    rw [e1]
    exact ⟨this.1, by omega⟩
  cases s with
  | send_command now c p =>
    obtain ⟨e1, hreg⟩ := ha
    have hb1 : bound + 1 ≤ 65536 := hb
    show registry_in_cycle h1 (bound + 1)
    have hold : ∀ e ∈ registry h,
        e.sequence_number < 65536 ∧ sends_since h1 e < bound + 1 := by
      intro e he
      have := hall e he
      unfold sends_since at this ⊢
      rw [e1]
      exact ⟨this.1, by omega⟩
    refine ⟨fun e he => ?_, by rw [e1]; exact Nat.mod_lt _ (by norm_num), hc1⟩
    by_cases hroom : h.mapping_table_count < MAPPING_TABLE_SIZE
    · rw [if_pos hroom] at hreg
      rw [hreg] at he
      rcases List.mem_append.mp he with he | he
      · exact hold e he
      · rw [List.mem_singleton] at he
        subst he
        unfold sends_since
        rw [e1]
        refine ⟨Nat.mod_lt _ (by norm_num), ?_⟩
        show ((h.sequence_number + 1) % 65536 + 65536 - (h.sequence_number + 1) % 65536)
          % 65536 < bound + 1
        omega
    · rw [if_neg hroom] at hreg
      rw [hreg] at he
      exact hold e he
  | send_response sn c p => exact hkeep ha.1 ha.2
  | send_notification c p => exact hkeep ha.1 ha.2
  | send_error sn c p => exact hkeep ha.1 ha.2
  | capture captured_run => exact hkeep ha.1 ha.2
  | poll now => exact hkeep ha.1 ha.2

/-- Within one cycle no pending number is recorded again: in a state whose entries were
all recorded fewer than `bound` sends ago, with `bound ≤ 65535`, a `send_command` gets
a sequence number that no entry holds. -/
theorem in_cycle_fresh (h : aSmart_Comm_Handler_t) (s : Step) (bound : Nat)
    (hin : registry_in_cycle h bound) (hb : bound + commands_sent [s] ≤ 65536) :
    fresh_at h s := by
  cases s with
  | send_command now c p =>
    intro _
    have hb1 : bound + 1 ≤ 65536 := hb
    unfold lookup
    rw [List.find?_eq_none]
    intro e he
    have := hin.1 e he
    have hseq := hin.2.1
    unfold sends_since at this
    simp only [beq_iff_eq]
    omega
  | send_response sn c p => exact trivial
  | send_notification c p => exact trivial
  | send_error sn c p => exact trivial
  | capture captured_run => exact trivial
  | poll now => exact trivial

/-- A run that starts with every entry recorded fewer than `bound` sends ago and has at
most `65536 - bound` `send_command` steps records no pending sequence number again. -/
theorem fresh_in_cycle (crc16 : List Nat → Nat) :
    ∀ (steps : List Step) (h : aSmart_Comm_Handler_t) (bound : Nat),
      registry_in_cycle h bound → bound + commands_sent steps ≤ 65536 →
      numbers_fresh crc16 steps h := by
  intro steps
  induction steps with
  | nil =>
    intro h bound _ _
    exact trivial
  | cons s rest ih =>
    intro h bound hin hb
    rw [commands_sent_cons] at hb
    refine ⟨in_cycle_fresh h s bound hin (by omega), fun h1 evs hs => ?_⟩
    have ha := (step_registry crc16 h s hin.2.2).1 (h1, evs) hs
    have hc1 := (step_ends crc16 h s hin.2.2).1 (h1, evs) hs
    exact ih h1 (bound + commands_sent [s])
      (after_in_cycle h h1 s bound hin (by omega) hc1 ha) (by omega)

/-- A run from a handler with an empty registry and at most 65536 `send_command`
steps records no pending sequence number again. -/
theorem fresh_from_empty (crc16 : List Nat → Nat) (steps : List Step)
    (h : aSmart_Comm_Handler_t) (hempty : h.mapping_table_count = 0)
    (hseq : h.sequence_number < 65536) (hsent : commands_sent steps ≤ 65536) :
    numbers_fresh crc16 steps h := by
  have hc : h.mapping_table_count ≤ MAPPING_TABLE_SIZE := by
    rw [hempty]
    exact Nat.zero_le _
  refine fresh_in_cycle crc16 steps h 0 ⟨fun e he => ?_, hseq, hc⟩ (by omega)
  have hnil : registry h = [] := by
    unfold registry
    rw [hempty]
    rfl
  rw [hnil] at he
  exact absurd he (List.not_mem_nil _)

/-- Freshness of a run in two parts. -/
theorem numbers_fresh_append (crc16 : List Nat → Nat) (b : List Step) :
    ∀ (a : List Step) (h : aSmart_Comm_Handler_t), numbers_fresh crc16 a h →
      (∀ h1 evs, run crc16 a h = .ok (h1, evs) → numbers_fresh crc16 b h1) →
      numbers_fresh crc16 (a ++ b) h := by
  intro a
  induction a with
  | nil =>
    intro h _ hb
    exact hb h [] rfl
  | cons s rest ih =>
    intro h ha hb
    refine ⟨ha.1, fun h1 evs hs => ?_⟩
    exact ih h1 (ha.2 h1 evs hs)
      (fun h2 evs2 hr => hb h2 _ (run_cons_ok crc16 s rest h h1 h2 evs evs2 hs hr))

/-! ## Parts of a run -/

theorem numbers_fresh_initial (crc16 : List Nat → Nat) (b : List Step) :
    ∀ (a : List Step) (h : aSmart_Comm_Handler_t), numbers_fresh crc16 (a ++ b) h →
      numbers_fresh crc16 a h := by
  intro a
  induction a with
  | nil =>
    intro h _
    exact trivial
  | cons s rest ih =>
    intro h hab
    exact ⟨hab.1, fun h1 evs hs => ih h1 (hab.2 h1 evs hs)⟩

theorem commands_sent_replicate (n now c : Nat) (p : List Nat) :
    commands_sent (List.replicate n (Step.send_command now c p)) = n := by
  induction n with
  | zero => rfl
  | succ n ih =>
    rw [List.replicate_succ]
    show commands_sent (List.replicate n (Step.send_command now c p)) + 1 = n + 1
    rw [ih]

theorem commands_sent_append (b : List Step) :
    ∀ a : List Step, commands_sent (a ++ b) = commands_sent a + commands_sent b := by
  intro a
  induction a with
  | nil =>
    show commands_sent b = 0 + commands_sent b
    omega
  | cons s rest ih =>
    rw [List.cons_append, commands_sent_cons, ih, commands_sent_cons s rest]
    omega

/-! ## A run past the wrap of the counter whose entries are swept in time -/

theorem cycle_run_sent : commands_sent cycle_run = 65556 := by
  unfold cycle_run
  rw [commands_sent_append, commands_sent_replicate, commands_sent_cons,
    commands_sent_replicate]
  rfl

/-- The poll at tick 6000 after the 65536 commands of `cycle_run`: every entry has
timed out and the sweep empties the registry; the counter stays at 0. -/
theorem cycle_run_swept :
    ∃ h1 ev1 h2 ev2, run sample_crc16 (List.replicate 65536 (Step.send_command 0 0x10 []))
        (asmart_comm_init idle_handler true) = .ok (h1, ev1) ∧
      step sample_crc16 h1 (.poll 6000) = .ok (h2, ev2) ∧
      registry h1 = recorded 1 (List.replicate 20 (0, 0x10, [])) ∧
      registry h2 = [] ∧ h2.mapping_table_count = 0 ∧ h2.sequence_number = 0 := by
  obtain ⟨h1, ev1, hrun, hreg, hseq, hcnt, hidle, _⟩ := sends_state 65536 (by decide)
  have hall : ∀ x ∈ recorded 1 (List.replicate 20 ((0 : Nat), (0x10 : Nat), ([] : List Nat))),
      expired 6000 x = true := by decide
  obtain ⟨h2, hsweep, hreg2, hcnt2, hseq2, _⟩ := sweep_all_expired 6000 h1 (by omega)
    (by rw [hreg]; exact hall)
  rw [← poll_idle sample_crc16 6000 h1 hidle] at hsweep
  refine ⟨h1, ev1, h2, _, hrun, step_poll sample_crc16 6000 h1 h2 _ hsweep, hreg, hreg2,
    hcnt2, ?_⟩
  rw [hseq2, hseq]

/-- The run `cycle_run` records no pending sequence number again: the first 65536
commands are within one cycle of the counter, and the last 20 start from the empty
registry that the sweep leaves. -/
theorem cycle_run_fresh :
    numbers_fresh sample_crc16 cycle_run (asmart_comm_init idle_handler true) := by
  obtain ⟨h1, ev1, h2, ev2, hrun, hpoll, _, _, hcnt2, hseq2⟩ := cycle_run_swept
  unfold cycle_run
  refine numbers_fresh_append sample_crc16 _ _ _ ?_ ?_
  · refine fresh_from_empty sample_crc16 _ _ rfl ?_ ?_
    · show (0 : Nat) < 65536
      norm_num
    · rw [commands_sent_replicate]
  · intro h evs hr
    rw [hrun] at hr
    have hpair : (h1, ev1) = (h, evs) := Except.ok.inj hr
    injection hpair with e1 _
    subst e1
    refine ⟨trivial, fun h3 evs3 hs => ?_⟩
    rw [hpoll] at hs
    have hpair2 : (h2, ev2) = (h3, evs3) := Except.ok.inj hs
    injection hpair2 with e2 _
    subst e2
    refine fresh_from_empty sample_crc16 _ _ hcnt2 ?_ ?_
    · rw [hseq2]
      norm_num
    · rw [commands_sent_replicate]
      norm_num

/-- The run `cycle_run` returns, with the sequence numbers 1..20 in the registry: they
are issued and recorded a second time. -/
theorem cycle_run_state :
    ∃ h evs, run sample_crc16 cycle_run (asmart_comm_init idle_handler true) = .ok (h, evs) ∧
      (registry h).map CommandEntry_t.sequence_number = List.range' 1 20 := by
  obtain ⟨h1, ev1, h2, ev2, hrun, hpoll, _, hreg2, hcnt2, hseq2⟩ := cycle_run_swept
  obtain ⟨h3, hrun3, hreg3, _⟩ :=
    run_sends sample_crc16 (List.replicate 20 (6000, 0x10, [])) h2
      (by intro c hc; rw [List.eq_of_mem_replicate hc]; decide)
      (by rw [hcnt2]; decide) (by rw [hseq2]; decide)
  rw [hseq2, hreg2, List.nil_append] at hreg3
  have hsteps : (List.replicate 20 ((6000 : Nat), (0x10 : Nat), ([] : List Nat))).map send_step
      = List.replicate 20 (Step.send_command 6000 0x10 []) := by
    rw [List.map_replicate]
    rfl
  rw [hsteps] at hrun3
  have hall : run sample_crc16 cycle_run (asmart_comm_init idle_handler true)
      = .ok (h3, ev1 ++ (ev2 ++ issued sample_crc16 (h2.sequence_number + 1)
        (List.replicate 20 (6000, 0x10, [])))) := by
    unfold cycle_run
    exact run_append_ok sample_crc16 _ _ _ h1 h3 _ _ hrun
      (run_cons_ok sample_crc16 _ _ h1 h2 h3 _ _ hpoll hrun3)
  refine ⟨h3, _, hall, ?_⟩
  rw [hreg3, recorded_sequence_numbers]
  rfl

/-! ## C16: the amended invariant -/

/-- C16, amended: registry uniqueness invariant while no pending sequence number is
issued again. For every finite sequence of send-command, send-response,
send-notification, send-error, capture and poll steps from `asmart_comm_init` in which
every send-command step that finds a free slot gets a sequence number
`(sequence_number + 1) % 65536` that no entry present in the registry at that moment holds
(`numbers_fresh`), in every state reached along the run the sequence numbers of the
entries present in the registry are pairwise distinct; and such a run never ends in a
loop out of fuel: it reaches a state or stops at an access outside of an array. -/
theorem registry_unique_while_numbers_fresh (crc16 : List Nat → Nat)
    (h0 : aSmart_Comm_Handler_t) (cb : Bool) (steps : List Step)
    (hfresh : numbers_fresh crc16 steps (asmart_comm_init h0 cb)) :
    (∀ a b, steps = a ++ b → ∀ h evs, run crc16 a (asmart_comm_init h0 cb) = .ok (h, evs) →
        ((registry h).map CommandEntry_t.sequence_number).Nodup) ∧
      run crc16 steps (asmart_comm_init h0 cb) ≠ .error .loop_fuel := by
  have hnil : ((registry (asmart_comm_init h0 cb)).map CommandEntry_t.sequence_number).Nodup :=
    List.nodup_nil
  have hc : (asmart_comm_init h0 cb).mapping_table_count ≤ 20 := Nat.zero_le _
  refine ⟨fun a b hab h evs hr => ?_, fun hfuel => ?_⟩
  · rw [hab] at hfresh
    exact ((run_unique crc16 a _ hnil hc
      (numbers_fresh_initial crc16 b a _ hfresh)).1 (h, evs) hr).1
  · rcases (run_unique crc16 steps _ hnil hc hfresh).2 _ hfuel with ⟨i, hi⟩ | ⟨i, hi⟩ | ⟨i, hi⟩
    · cases hi
    · cases hi
    · cases hi

/-- Witness of the amended invariant past the wrap of the counter: the run `cycle_run`
has 65556 send-command steps, records no pending sequence number again, and ends with
the sequence numbers 1..20 in the registry. -/
theorem registry_unique_while_numbers_fresh_witness :
    commands_sent cycle_run = 65556 ∧
    numbers_fresh sample_crc16 cycle_run (asmart_comm_init idle_handler true) ∧
    (∃ h evs, run sample_crc16 cycle_run (asmart_comm_init idle_handler true)
        = .ok (h, evs) ∧
      (registry h).map CommandEntry_t.sequence_number = List.range' 1 20) ∧
    ((∀ a b, cycle_run = a ++ b → ∀ h evs,
        run sample_crc16 a (asmart_comm_init idle_handler true) = .ok (h, evs) →
        ((registry h).map CommandEntry_t.sequence_number).Nodup) ∧
      run sample_crc16 cycle_run (asmart_comm_init idle_handler true)
        ≠ .error .loop_fuel) :=
  ⟨cycle_run_sent, cycle_run_fresh, cycle_run_state,
    registry_unique_while_numbers_fresh sample_crc16 idle_handler true cycle_run
      cycle_run_fresh⟩

end ASmartComm
